import Mathlib

/-!
# LuminanceHDR TIFF codec (src/Fileformat/pfstiff.cpp)

A shallow embedding of the TIFF codec of LuminanceHDR: the metadata
classification done by the constructor `TiffReader::TiffReader`, the lookup of
the input colour profile (`GetTIFFProfile`), the full decode
(`readIntoPfsFrame`) and the thumbnail decode (`readIntoQImage`) with the
arithmetic CMYK fallback, and the five write functions of `TiffWriter`.

Conventions.
* A libtiff handle is the record `TIFF`.  A tag that `TIFFGetField` may not find
  is an `Option`; a failed `TIFFGetField` leaves the destination variable as it
  was, so the constructor is given the (indeterminate) prior content of the
  object's members as the argument `self`.
* Machine integers are `Nat`; the two places where the constructor does
  arithmetic (`width * height` in `uint32`, `nSamples - extra` stored in a
  `uint16`) reduce modulo `2^32` and `2^16` explicitly.
* The colour-management library is the record `Lcms` of its observable
  answers; profile and transform handles are described by what they were
  created from.
* What the sources leave open is a parameter: the integer a conversion yields
  where C++ leaves it undefined (`conv`, for a float that does not fit a
  qint16), and the bytes a failed scanline read leaves in the buffer (the field
  `failedReads` of the handle).
-/

namespace pfstiff

/-! ## libtiff constants (tiff.h) -/

/-- PLANARCONFIG_CONTIG of tiff.h: single image plane. -/
def PLANARCONFIG_CONTIG : Nat := 1
/-- PLANARCONFIG_SEPARATE of tiff.h: separate planes of data. -/
def PLANARCONFIG_SEPARATE : Nat := 2
/-- COMPRESSION_NONE of tiff.h. -/
def COMPRESSION_NONE : Nat := 1
/-- COMPRESSION_DEFLATE of tiff.h. -/
def COMPRESSION_DEFLATE : Nat := 32946
/-- COMPRESSION_SGILOG of tiff.h: SGI Log Luminance RLE. -/
def COMPRESSION_SGILOG : Nat := 34676
/-- COMPRESSION_SGILOG24 of tiff.h: SGI Log 24-bit packed. -/
def COMPRESSION_SGILOG24 : Nat := 34677
/-- PHOTOMETRIC_RGB of tiff.h. -/
def PHOTOMETRIC_RGB : Nat := 2
/-- PHOTOMETRIC_SEPARATED of tiff.h: colour separations (CMYK). -/
def PHOTOMETRIC_SEPARATED : Nat := 5
/-- PHOTOMETRIC_LOGLUV of tiff.h: CIE Log2(L) (u',v'). -/
def PHOTOMETRIC_LOGLUV : Nat := 32845
/-- SGILOGDATAFMT_FLOAT of tiff.h: IEEE float samples. -/
def SGILOGDATAFMT_FLOAT : Nat := 0
/-- SAMPLEFORMAT_IEEEFP of tiff.h: IEEE floating point data. -/
def SAMPLEFORMAT_IEEEFP : Nat := 3

/-! ## The container handle -/

/-- State of an open libtiff handle, as far as pfstiff.cpp observes it.
Width, length and planar configuration are always answered by libtiff for an
open directory; every other tag may be missing.  `sgilogDataFmt` is the codec
pseudo-tag written with `TIFFSetField`; the chromaticities, white point and
transfer function are kept as the raw words libtiff hands over (they are only
passed on to the colour-management library); `scanlines` holds the raw bytes of each
row (`none`: the row cannot be read); `failedReads` lists, for each row that
cannot be read, the bytes the failed read has put into the caller's buffer,
from offset 0 on, before it gave up (libtiff does not say what a buffer holds
after an error); `rowsRead` records, most recent first, the rows requested
with `TIFFReadScanline`. -/
structure TIFF where
  imageWidth : Nat
  imageLength : Nat
  planarConfig : Nat
  compression : Option Nat := none
  photometric : Option Nat := none
  extraSamples : Option Nat := none
  samplesPerPixel : Option Nat := none
  bitsPerSample : Option Nat := none
  stonits : Option ℚ := none
  iccProfile : Option (List Nat) := none
  primaryChromaticities : Option (List Nat) := none
  whitePoint : Option (List Nat) := none
  transferFunction : List (List Nat) := []
  sgilogDataFmt : Option Nat := none
  sampleFormat : Option Nat := none
  scanlines : List (Option (List Nat)) := []
  failedReads : List (List Nat) := []
  rowsRead : List Nat := []
deriving DecidableEq, Repr

/-- TIFFGetField on a tag: when the tag is present the destination receives its
value and the call answers 1 (`true`); otherwise the destination keeps the
value `old` it had and the call answers 0. -/
def TIFFGetField {α : Type} (tag : Option α) (old : α) : Bool × α :=
  match tag with
  | some v => (true, v)
  | none => (false, old)

/-- TIFFGetFieldDefaulted on a tag for which libtiff holds no default value,
as is the case of the photometric tag: it answers as TIFFGetField does. -/
def TIFFGetFieldDefaulted {α : Type} (tag : Option α) (old : α) : Bool × α :=
  TIFFGetField tag old

/-- TIFFSetField (tif, TIFFTAG_SGILOGDATAFMT, fmt) on a directory whose codec
is the LogLuv one (tif_luv.c).  The codec records the data format and, so that
the rest of the library knows the size of the data passed between it and its
caller, sets the bits per sample and the sample format of the directory to the
layout of that format: 32 bits and IEEE floating point for
SGILOGDATAFMT_FLOAT, the one format pfstiff.cpp asks for.  The layouts of the
other formats are not followed here: for them only the data format is
recorded. -/
def TIFFSetField_SGILOGDATAFMT (tif : TIFF) (fmt : Nat) : TIFF :=
  if fmt = SGILOGDATAFMT_FLOAT then
    { tif with sgilogDataFmt := some fmt, bitsPerSample := some 32,
               sampleFormat := some SAMPLEFORMAT_IEEEFP }
  else { tif with sgilogDataFmt := some fmt }

/-- What the caller's buffer holds after a read that failed having stored the
bytes `written` from offset 0 on: those bytes, as far as the buffer reaches,
then the bytes the buffer held before. -/
def leftAfterFailure (written buf : List Nat) : List Nat :=
  written.take buf.length ++ buf.drop written.length

/-- TIFFReadScanline (tif, buf, row): answers 1 and fills the buffer with the
row, or answers -1, the buffer then holding what the failed read left in it
(`failedReads`); either way the request is recorded in the handle. -/
def TIFFReadScanline (tif : TIFF) (buf : List Nat) (row : Nat) : Int × List Nat × TIFF :=
  let tif' := { tif with rowsRead := row :: tif.rowsRead }
  match tif.scanlines.getD row none with
  | some bytes => (1, bytes, tif')
  | none => (-1, leftAfterFailure (tif.failedReads.getD row []) buf, tif')

/-! ## The reader object -/

/-- Modelled from the spec: the member `TypeOfData` is declared in pfstiff.h,
which is not among the sources; its enumerators are the four that pfstiff.cpp
assigns and switches on (the spec's sample kinds Byte, Word, Float, with the
LogLuv float kind apart). -/
inductive DataType where
  | FLOATLOGLUV
  | FLOAT
  | WORD
  | BYTE
deriving DecidableEq, Repr

/-- Modelled from the spec: the member `ColorSpace` is declared in pfstiff.h,
which is not among the sources; its enumerators are the two that pfstiff.cpp
assigns and compares with. -/
inductive ColorSpaceType where
  | RGB
  | CMYK
deriving DecidableEq, Repr

/-- Modelled from the spec: the data members of class TiffReader (declared in
pfstiff.h, which is not among the sources), with the widths libtiff imposes on
the destinations of `TIFFGetField`: `width`, `height` are uint32; `comp`,
`phot`, `bps`, `nSamples` are uint16. -/
structure TiffReader where
  width : Nat
  height : Nat
  comp : Nat
  phot : Nat
  TypeOfData : DataType
  ColorSpace : ColorSpaceType
  bps : Nat
  nSamples : Nat
  has_alpha : Bool
  stonits : ℚ
  writeOnDisk : Bool
deriving DecidableEq, Repr

/-- The std::runtime_error thrown by the constructor, one constructor per throw
site of the reader and of the writer, named after the error kinds of the
design (section 7); `InvalidPrecondition` is the failure of an `assert`.
`OutOfMemory` is the failed allocation of the strip buffer in the three writers
of a pfs::Frame (lines 753, 807, 981) and `OutOfMemoryLdr` the one in
write8bitTiff and write16bitTiff (lines 865, 928), whose message differs. -/
inductive FormatError where
  | CouldNotOpen
  | IllegalImageSize
  | UnsupportedPlanarConfig
  | UnspecifiedPhotometric
  | UnsupportedCompression
  | UnsupportedChannelCount
  | UnsupportedBitDepth
  | UnsupportedPhotometric
  | InvalidPrecondition
  | CouldNotOpenForWriting
  | OutOfMemory
  | OutOfMemoryLdr
deriving DecidableEq, Repr

/-- The message carried by each exception (the argument of std::runtime_error). -/
def FormatError.what : FormatError → String
  | .CouldNotOpen => "TIFF: could not open file for reading."
  | .IllegalImageSize => "TIFF: illegal image size."
  | .UnsupportedPlanarConfig => "TIFF: unsupported planar configuration"
  | .UnspecifiedPhotometric => "TIFF: unspecified photometric type"
  | .UnsupportedCompression => "TIFF: only support SGILOG compressed LogLuv data"
  | .UnsupportedChannelCount => "TIFF: unsupported samples per pixel for RGB"
  | .UnsupportedBitDepth => "TIFF: unsupported bits per sample for RGB"
  | .UnsupportedPhotometric => "TIFF: unsupported photometric type"
  | .InvalidPrecondition => "Assertion failed"
  | .CouldNotOpenForWriting => "TIFF: could not open file for writing."
  | .OutOfMemory => "TIFF: error allocating buffer."
  | .OutOfMemoryLdr => "TIFF: error allocating buffer"

/-- The subtraction `nSamples - extra_samples_per_pixel` of line 220, done in
`int` and stored in the uint16 member `bps`. -/
def baseChannels (nSamples extra : Nat) : Nat :=
  (((nSamples : Int) - (extra : Int)) % 65536).toNat

/-- The `switch (bps)` of lines 235-249 and 260-274: 8 is BYTE, 16 is WORD and
the default label is FLOAT. -/
def typeOfBps (bps : Nat) : DataType :=
  if bps = 8 then .BYTE else if bps = 16 then .WORD else .FLOAT

/-- Lines 283-284, the tail of the constructor: the STONITS tag, 1.0 when the
tag is missing. -/
def readStonits (tif : TIFF) (old : ℚ) : ℚ :=
  let g := TIFFGetField tif.stonits old
  if !g.1 then 1 else g.2

/-- The constructor `TiffReader::TiffReader`, its body (lines 165-285) on an open handle.
`self` is the content of the members before the body runs and `wod` the
constructor argument of that name.  The answer pairs the outcome (the
constructed reader, or the exception thrown) with the handle as the body
leaves it.  The members are followed as local values and gathered into the
object where the body ends; a member that a path never assigns keeps the
value it has in `self`. -/
def TiffReader.new (tif : TIFF) (wod : Bool) (self : TiffReader) :
    Except FormatError TiffReader × TIFF :=
  let width := tif.imageWidth
  let height := tif.imageLength
  if (width * height) % 2 ^ 32 ≤ 0 then
    (.error .IllegalImageSize, tif)
  else
  let planar := tif.planarConfig
  if planar ≠ PLANARCONFIG_CONTIG then
    (.error .UnsupportedPlanarConfig, tif)
  else
  let gc := TIFFGetField tif.compression self.comp
  let comp := if !gc.1 then COMPRESSION_NONE else gc.2
  let gp := TIFFGetFieldDefaulted tif.photometric self.phot
  let phot := gp.2
  if !gp.1 then
    (.error .UnspecifiedPhotometric, tif)
  else
  if phot = PHOTOMETRIC_LOGLUV then
    if comp ≠ COMPRESSION_SGILOG ∧ comp ≠ COMPRESSION_SGILOG24 then
      (.error .UnsupportedCompression, tif)
    else
    let nSamples := (TIFFGetField tif.samplesPerPixel self.nSamples).2
    let tif := TIFFSetField_SGILOGDATAFMT tif SGILOGDATAFMT_FLOAT
    (.ok { width := width, height := height, comp := comp, phot := phot,
           TypeOfData := .FLOATLOGLUV, ColorSpace := self.ColorSpace,
           bps := self.bps, nSamples := nSamples, has_alpha := self.has_alpha,
           stonits := readStonits tif self.stonits, writeOnDisk := wod }, tif)
  else if phot = PHOTOMETRIC_RGB then
    let ge := TIFFGetField tif.extraSamples 0
    let extra_samples_per_pixel := if ge.1 ≠ true then 0 else ge.2
    let nSamples := (TIFFGetField tif.samplesPerPixel self.nSamples).2
    let bps := baseChannels nSamples extra_samples_per_pixel
    let has_alpha := decide (extra_samples_per_pixel = 1)
    if bps ≠ 3 then
      (.error .UnsupportedChannelCount, tif)
    else
    let gb := TIFFGetField tif.bitsPerSample bps
    let bps := gb.2
    if !gb.1 ∨ (bps ≠ 8 ∧ bps ≠ 16 ∧ bps ≠ 32) then
      (.error .UnsupportedBitDepth, tif)
    else
    (.ok { width := width, height := height, comp := comp, phot := phot,
           TypeOfData := typeOfBps bps, ColorSpace := .RGB,
           bps := bps, nSamples := nSamples, has_alpha := has_alpha,
           stonits := readStonits tif self.stonits, writeOnDisk := wod }, tif)
  else if phot = PHOTOMETRIC_SEPARATED then
    let nSamples := (TIFFGetField tif.samplesPerPixel self.nSamples).2
    let bps := (TIFFGetField tif.bitsPerSample self.bps).2
    (.ok { width := width, height := height, comp := comp, phot := phot,
           TypeOfData := typeOfBps bps, ColorSpace := .CMYK,
           bps := bps, nSamples := nSamples, has_alpha := self.has_alpha,
           stonits := readStonits tif self.stonits, writeOnDisk := wod }, tif)
  else
    (.error .UnsupportedPhotometric, tif)

/-- The constructor from the result of `TIFFOpen`: a null handle throws at
line 164 before any tag is looked at. -/
def TiffReader.open (opened : Option TIFF) (wod : Bool) (self : TiffReader) :
    Except FormatError TiffReader :=
  match opened with
  | none => .error .CouldNotOpen
  | some tif => (TiffReader.new tif wod self).1

/-- Whether an optional tag value fits the uint16 that libtiff hands over. -/
def fits16 (tag : Option Nat) : Bool :=
  match tag with
  | some v => decide (v < 65536)
  | none => true

/-- The handle holds values of the C types libtiff declares for them: uint32
for the image dimensions, uint16 for the other numeric tags read here. -/
def TIFF.wellTyped (tif : TIFF) : Prop :=
  tif.imageWidth < 2 ^ 32 ∧ tif.imageLength < 2 ^ 32 ∧ tif.planarConfig < 65536 ∧
  fits16 tif.compression = true ∧ fits16 tif.photometric = true ∧
  fits16 tif.extraSamples = true ∧ fits16 tif.samplesPerPixel = true ∧
  fits16 tif.bitsPerSample = true

instance (tif : TIFF) : Decidable tif.wellTyped := by
  unfold TIFF.wellTyped; infer_instance

/-- The members of the reader hold values of their C types. -/
def TiffReader.wellTyped (self : TiffReader) : Prop :=
  self.width < 2 ^ 32 ∧ self.height < 2 ^ 32 ∧ self.comp < 65536 ∧
  self.phot < 65536 ∧ self.bps < 65536 ∧ self.nSamples < 65536

instance (self : TiffReader) : Decidable self.wellTyped := by
  unfold TiffReader.wellTyped; infer_instance

/-! ## The colour-management library (lcms2) -/

/-- The pixel layouts of lcms2.h that pfstiff.cpp names. -/
inductive CmsFormat where
  | TYPE_RGB_8
  | TYPE_RGBA_8
  | TYPE_RGB_16
  | TYPE_RGBA_16
  | TYPE_CMYK_8
  | TYPE_CMYK_16
deriving DecidableEq, Repr

/-- INTENT_PERCEPTUAL of lcms2.h. -/
def INTENT_PERCEPTUAL : Nat := 0

/-- A profile handle (cmsHPROFILE), described by the call that made it:
`cmsOpenProfileFromMem` on a byte blob, `cmsCreateRGBProfile` on a white point,
primaries and three tone curves, or `cmsCreate_sRGBProfile`. -/
inductive CmsProfile where
  | fromMem (bytes : List Nat)
  | rgb (whitePoint primaries : List Nat) (curves : List (List Nat))
  | sRGB
deriving DecidableEq, Repr

/-- A transform handle (cmsHTRANSFORM), described by the arguments of the
`cmsCreateTransform` call that made it. -/
structure CmsTransform where
  input : CmsProfile
  inputFormat : CmsFormat
  output : CmsProfile
  outputFormat : CmsFormat
  intent : Nat
  flags : Nat
deriving DecidableEq, Repr

/-- The answers of the colour-management library: which byte blobs parse as a
profile, which colorimetric descriptions give an RGB profile, which transforms
can be built, and what a built transform does to a scanline of `n` pixels. -/
structure Lcms where
  parses : List Nat → Bool
  rgbProfileBuilt : List Nat → List Nat → List (List Nat) → Bool
  transformBuilt : CmsTransform → Bool
  doTransform : CmsTransform → List Nat → Nat → List Nat

/-- The call cmsOpenProfileFromMem: a handle, or NULL (`none`). -/
def cmsOpenProfileFromMem (cms : Lcms) (bytes : List Nat) : Option CmsProfile :=
  if cms.parses bytes then some (.fromMem bytes) else none

/-- The call cmsCreateRGBProfile: a handle, or NULL (`none`). -/
def cmsCreateRGBProfile (cms : Lcms) (whitePoint primaries : List Nat)
    (curves : List (List Nat)) : Option CmsProfile :=
  if cms.rgbProfileBuilt whitePoint primaries curves then
    some (.rgb whitePoint primaries curves)
  else none

/-- The call cmsCreate_sRGBProfile, the built-in reference profile. -/
def cmsCreate_sRGBProfile : CmsProfile := .sRGB

/-- The call cmsCreateTransform: a handle, or NULL (`none`). -/
def cmsCreateTransform (cms : Lcms) (input : CmsProfile) (inputFormat : CmsFormat)
    (output : CmsProfile) (outputFormat : CmsFormat) (intent flags : Nat) :
    Option CmsTransform :=
  let t : CmsTransform := ⟨input, inputFormat, output, outputFormat, intent, flags⟩
  if cms.transformBuilt t then some t else none

/-- The function GetTIFFProfile (lines 56-117).  The embedded ICC profile is
tried first; when the tag is missing or the blob does not parse, the
colorimetric tags are tried: with both the primary chromaticities and the
white point present, an RGB profile is built from them and the (defaulted)
transfer function, 256 entries per curve. -/
def GetTIFFProfile (cms : Lcms) (tif : TIFF) : Option CmsProfile :=
  let embedded :=
    match tif.iccProfile with
    | some bytes => cmsOpenProfileFromMem cms bytes
    | none => none
  match embedded with
  | some hProfile => some hProfile
  | none =>
    match tif.primaryChromaticities with
    | some chr =>
      match tif.whitePoint with
      | some wp =>
        cmsCreateRGBProfile cms (wp.take 2) (chr.take 6)
          (tif.transferFunction.map (List.take 256))
      | none => none
    | none => none

/-- The layouts chosen in `TiffReader::readIntoPfsFrame` (lines 309-332), input
first. -/
def TiffReader.readIntoPfsFrame.cmsFormats (self : TiffReader) : CmsFormat × CmsFormat :=
  if self.ColorSpace = .RGB ∧ self.TypeOfData = .WORD then
    (.TYPE_RGB_16, .TYPE_RGB_16)
  else if self.ColorSpace = .RGB ∧ self.TypeOfData = .BYTE then
    (.TYPE_RGB_8, .TYPE_RGB_8)
  else if self.ColorSpace = .CMYK ∧ self.TypeOfData = .WORD then
    (.TYPE_CMYK_16, .TYPE_RGBA_16)
  else
    (.TYPE_CMYK_8, .TYPE_RGBA_8)

/-- The head of `TiffReader::readIntoPfsFrame` (lines 292-340): the value of
`xform` when the scanline loop starts; `doTransform` is true exactly when it is
not null. -/
def TiffReader.readIntoPfsFrame.xform (cms : Lcms) (self : TiffReader) (tif : TIFF) :
    Option CmsTransform :=
  match GetTIFFProfile cms tif with
  | some hIn =>
    let hsRGB := cmsCreate_sRGBProfile
    let fmt := TiffReader.readIntoPfsFrame.cmsFormats self
    cmsCreateTransform cms hIn fmt.1 hsRGB fmt.2 INTENT_PERCEPTUAL 0
  | none => none

/-- The flag `doTransform` of readIntoPfsFrame when the scanline loop starts. -/
def TiffReader.readIntoPfsFrame.doTransform (cms : Lcms) (self : TiffReader)
    (tif : TIFF) : Bool :=
  (TiffReader.readIntoPfsFrame.xform cms self tif).isSome

/-- The layouts chosen in `TiffReader::readIntoQImage` (lines 542-560), input
first: the initial values are kept when no rule matches. -/
def TiffReader.readIntoQImage.cmsFormats (self : TiffReader) : CmsFormat × CmsFormat :=
  if self.has_alpha = true ∧ self.ColorSpace = .RGB ∧ self.TypeOfData = .BYTE then
    (.TYPE_RGBA_8, .TYPE_RGBA_8)
  else if self.has_alpha = false ∧ self.ColorSpace = .RGB ∧ self.TypeOfData = .BYTE then
    (.TYPE_RGB_8, .TYPE_RGBA_8)
  else if self.ColorSpace = .CMYK ∧ self.TypeOfData = .BYTE then
    (.TYPE_CMYK_8, .TYPE_RGBA_8)
  else
    (.TYPE_CMYK_8, .TYPE_RGBA_8)

/-- The head of `TiffReader::readIntoQImage` (lines 527-564): the value of
`xform` when the scanline loop starts. -/
def TiffReader.readIntoQImage.xform (cms : Lcms) (self : TiffReader) (tif : TIFF) :
    Option CmsTransform :=
  let hsRGB := cmsCreate_sRGBProfile
  match GetTIFFProfile cms tif with
  | some hIn =>
    let fmt := TiffReader.readIntoQImage.cmsFormats self
    cmsCreateTransform cms hIn fmt.1 hsRGB fmt.2 INTENT_PERCEPTUAL 0
  | none => none

/-! ## Single-precision arithmetic -/

/-- A single-precision value (C `float`, IEEE-754 binary32).  Every finite
binary32 number is an integer multiple of 2^-149, and `fin n` is the value
n * 2^-149; the negative zero, the two infinities and not-a-number stand
apart. -/
inductive F32 where
  | fin (n : Int)
  | negZero
  | inf (neg : Bool)
  | nan
deriving DecidableEq, Repr

/-- The float whose IEEE-754 binary32 word is `w`: the view of four bytes of a
scanline through a `float*`. -/
def F32.ofBits (w : Nat) : F32 :=
  let s := w / 2 ^ 31 % 2
  let e := w / 2 ^ 23 % 256
  let m := w % 2 ^ 23
  if e = 255 then
    if m = 0 then .inf (decide (s = 1)) else .nan
  else
    let mag : Nat := if e = 0 then m else (2 ^ 23 + m) * 2 ^ (e - 1)
    if s = 1 then (if mag = 0 then .negZero else .fin (-(mag : Int))) else .fin mag

/-- The spacing of binary32 values around the magnitude `q0` (in units of
2^-149): 1 below 2^24, doubling with every further binade.  The first argument
bounds the number of halvings. -/
def F32.ulpOf : Nat → Nat → Nat
  | 0, _ => 1
  | fuel + 1, q0 => if q0 < 2 ^ 24 then 1 else 2 * F32.ulpOf fuel (q0 / 2)

/-- Rounding of the exact magnitude `N / D` (in units of 2^-149) to the nearest
binary32 value, ties to even, with the sign `neg`; overflow gives infinity. -/
def F32.round (neg : Bool) (N D : Nat) : F32 :=
  let q0 := N / D
  let ulp := F32.ulpOf q0 q0
  let d := D * ulp
  let q := N / d
  let r := N % d
  let q' := if 2 * r < d then q else if d < 2 * r then q + 1 else if q % 2 = 0 then q else q + 1
  let mag := q' * ulp
  if 2 ^ 149 * 2 ^ 128 ≤ mag then .inf neg
  else if mag = 0 then (if neg then .negZero else .fin 0)
  else .fin (if neg then -(mag : Int) else mag)

/-- Sign and magnitude (in units of 2^-149) of a finite value. -/
def F32.finite? : F32 → Option (Bool × Nat)
  | .fin n => some (decide (n < 0), n.natAbs)
  | .negZero => some (true, 0)
  | _ => none

/-- The sign bit of a value (false for not-a-number). -/
def F32.signBit : F32 → Bool
  | .fin n => decide (n < 0)
  | .negZero => true
  | .inf neg => neg
  | .nan => false

/-- Conversion of an unsigned integer to float (exact below 2^24). -/
def F32.ofNat (v : Nat) : F32 := F32.round false (v * 2 ^ 149) 1

/-- IEEE-754 single-precision multiplication, round to nearest even. -/
def F32.mul (x y : F32) : F32 :=
  match x.finite?, y.finite? with
  | some (sx, mx), some (sy, my) => F32.round (sx != sy) (mx * my) (2 ^ 149)
  | some (_, mx), none =>
    if y = .nan then .nan else if mx = 0 then .nan else .inf (x.signBit != y.signBit)
  | none, some (_, my) =>
    if x = .nan then .nan else if my = 0 then .nan else .inf (x.signBit != y.signBit)
  | none, none =>
    if x = .nan ∨ y = .nan then .nan else .inf (x.signBit != y.signBit)

/-- IEEE-754 single-precision division, round to nearest even. -/
def F32.div (x y : F32) : F32 :=
  match x.finite?, y.finite? with
  | some (sx, mx), some (sy, my) =>
    if my = 0 then (if mx = 0 then .nan else .inf (sx != sy))
    else F32.round (sx != sy) (mx * 2 ^ 149) my
  | some (sx, _), none =>
    if y = .nan then .nan else (if (sx != y.signBit) then .negZero else .fin 0)
  | none, some (_, _) =>
    if x = .nan then .nan else .inf (x.signBit != y.signBit)
  | none, none => .nan

/-- Truncation toward zero of a finite value to an integer; 0 for the values
that have none. -/
def F32.trunc : F32 → Int
  | .fin n => Int.tdiv n (2 ^ 149)
  | _ => 0

/-- The constant DIV_255 of line 153, `1.f/255.f`. -/
def DIV_255 : F32 := F32.div (F32.ofNat 1) (F32.ofNat 255)

/-- The constant DIV_256 of line 154, `1.f/256.f`. -/
def DIV_256 : F32 := F32.div (F32.ofNat 1) (F32.ofNat 256)

/-- The literal `2.2f` of lines 469-471: the binary32 value nearest to 11/5. -/
def F32.c2_2 : F32 := F32.round false (11 * 2 ^ 149) 5

/-- The C math library, as far as pfstiff.cpp calls it: `powf`, with the two
values that Annex F of the C standard fixes for it and that the decode relies
on: pow(+1, y) is 1 for every y, and pow(+0, y) is +0 for a positive y that
is not an integer. -/
structure Libm where
  powf : F32 → F32 → F32
  powf_one : ∀ y, powf (F32.ofNat 1) y = F32.ofNat 1
  powf_zero : ∀ n : Int, 0 < n → n % 2 ^ 149 ≠ 0 → powf (.fin 0) (.fin n) = .fin 0

/-- The gamma decode of lines 469-471 for a byte `b`:
`powf(b * DIV_255, 2.2f)`. -/
def gammaDecode (libm : Libm) (b : Nat) : F32 :=
  libm.powf (F32.mul (F32.ofNat b) DIV_255) F32.c2_2

/-! ## The arithmetic CMYK to RGB fallback -/

/-- Wraparound of an `int` result to 32 bits, two's complement. -/
def wrapInt32 (x : Int) : Int := (x + 2 ^ 31) % 2 ^ 32 - 2 ^ 31

/-- The body of the loop of `transform_to_rgb` (lines 126-133) at index `i`:
the four samples are read from `ScanLineIn`, then the four results are stored
into `ScanLineOut`.  The operands are promoted to `int`; the store into an
`unsigned char` keeps the low 8 bits. -/
def transform_to_rgb.pixel (ScanLineIn ScanLineOut : List Nat) (i : Nat) : List Nat :=
  let C : Int := ScanLineIn.getD (i + 0) 0
  let M : Int := ScanLineIn.getD (i + 1) 0
  let Y : Int := ScanLineIn.getD (i + 2) 0
  let K : Int := ScanLineIn.getD (i + 3) 0
  let out := ScanLineOut.set (i + 0) ((Int.tdiv ((255 - C) * (255 - K)) 255) % 256).toNat
  let out := out.set (i + 1) ((Int.tdiv ((255 - M) * (255 - K)) 255) % 256).toNat
  let out := out.set (i + 2) ((Int.tdiv ((255 - Y) * (255 - K)) 255) % 256).toNat
  out.set (i + 3) 255

/-- The loop of `transform_to_rgb` (line 124) from index `i` on: `i` is a
uint32 and advances by `nSamples` modulo 2^32.  With `aliased` the input and
the output pointer name the same buffer, as at every call site, and a read
sees the stores made before it.  The first argument bounds the number of
iterations; `none` means the bound was reached. -/
def transform_to_rgb.loop (aliased : Bool) (size nSamples : Nat) :
    Nat → Nat → List Nat → List Nat → Option (List Nat)
  | 0, _, _, _ => none
  | fuel + 1, i, ScanLineIn, ScanLineOut =>
    if i < size then
      let src := if aliased then ScanLineOut else ScanLineIn
      transform_to_rgb.loop aliased size nSamples fuel ((i + nSamples) % 2 ^ 32)
        ScanLineIn (transform_to_rgb.pixel src ScanLineOut i)
    else some ScanLineOut

/-- The function `transform_to_rgb` (lines 121-135): the content of the output
buffer when the loop ends.  The index takes at most 2^32 values, so a loop that
has not ended after 2^32 iterations never ends: the answer is then `none`. -/
def transform_to_rgb (aliased : Bool) (ScanLineIn ScanLineOut : List Nat)
    (size nSamples : Nat) : Option (List Nat) :=
  transform_to_rgb.loop aliased size nSamples (2 ^ 32 + 1) 0 ScanLineIn ScanLineOut

/-- The body of the loop of `transform_to_rgb_16` (lines 142-149) at index
`i`, on uint16 samples.  The operands are promoted to `int`, the product is an
`int` (wrapped to 32 bits when it exceeds the range), the division truncates,
and the store into a uint16 keeps the low 16 bits. -/
def transform_to_rgb_16.pixel (ScanLineIn ScanLineOut : List Nat) (i : Nat) : List Nat :=
  let C : Int := ScanLineIn.getD (i + 0) 0
  let M : Int := ScanLineIn.getD (i + 1) 0
  let Y : Int := ScanLineIn.getD (i + 2) 0
  let K : Int := ScanLineIn.getD (i + 3) 0
  let out := ScanLineOut.set (i + 0)
    ((Int.tdiv (wrapInt32 ((65535 - C) * (65535 - K))) 65535) % 65536).toNat
  let out := out.set (i + 1)
    ((Int.tdiv (wrapInt32 ((65535 - M) * (65535 - K))) 65535) % 65536).toNat
  let out := out.set (i + 2)
    ((Int.tdiv (wrapInt32 ((65535 - Y) * (65535 - K))) 65535) % 65536).toNat
  out.set (i + 3) 65535

/-- The loop of `transform_to_rgb_16` (line 140) from index `i` on, as
`transform_to_rgb.loop`; the caller passes the bound `size/2`. -/
def transform_to_rgb_16.loop (aliased : Bool) (bound nSamples : Nat) :
    Nat → Nat → List Nat → List Nat → Option (List Nat)
  | 0, _, _, _ => none
  | fuel + 1, i, ScanLineIn, ScanLineOut =>
    if i < bound then
      let src := if aliased then ScanLineOut else ScanLineIn
      transform_to_rgb_16.loop aliased bound nSamples fuel ((i + nSamples) % 2 ^ 32)
        ScanLineIn (transform_to_rgb_16.pixel src ScanLineOut i)
    else some ScanLineOut

/-- The function `transform_to_rgb_16` (lines 137-151); `size` is a byte count
and the buffers hold uint16 samples. -/
def transform_to_rgb_16 (aliased : Bool) (ScanLineIn ScanLineOut : List Nat)
    (size nSamples : Nat) : Option (List Nat) :=
  transform_to_rgb_16.loop aliased (size / 2) nSamples (2 ^ 32 + 1) 0 ScanLineIn ScanLineOut

/-! ## The full decode: `TiffReader::readIntoPfsFrame` -/

/-- TIFFScanlineSize (tif): the byte size of a row of a contiguous image,
bits-per-sample times width times samples-per-pixel, rounded up to bytes, with
libtiff's defaults (1 and 1) for missing tags.  A LogLuv directory switched to
SGILOGDATAFMT_FLOAT delivers 32-bit samples. -/
def TIFFScanlineSize (tif : TIFF) : Nat :=
  let bits :=
    if tif.photometric = some PHOTOMETRIC_LOGLUV ∧
        tif.sgilogDataFmt = some SGILOGDATAFMT_FLOAT then 32
    else tif.bitsPerSample.getD 1
  (bits * tif.imageWidth * tif.samplesPerPixel.getD 1 + 7) / 8

/-- Modelled from the spec: pfs::Frame with its X, Y, Z channels (Libpfs/frame.h
is not among the sources), `three same-sized planar float channels` held as
flat row-major sequences of width x height floats. -/
structure Frame where
  width : Nat
  height : Nat
  X : List F32
  Y : List F32
  Z : List F32
deriving DecidableEq, Repr

/-- Modelled from the spec: `new pfs::Frame (width, height)` followed by
`createXYZChannels` (Libpfs/frame.h is not among the sources): three channels
of width x height floats; the content of a fresh channel is taken as +0. -/
def Frame.new (width height : Nat) : Frame :=
  { width := width, height := height,
    X := List.replicate (width * height) (.fin 0),
    Y := List.replicate (width * height) (.fin 0),
    Z := List.replicate (width * height) (.fin 0) }

/-- Conversion of a uint32 to `int`, as in `const int image_width = width`. -/
def toInt32 (w : Nat) : Int :=
  if w % 2 ^ 32 < 2 ^ 31 then ((w % 2 ^ 32 : Nat) : Int) else ((w % 2 ^ 32 : Nat) : Int) - 2 ^ 32

/-- The stores `P[row * image_width + i] = v i` for `i` from 0 below
`image_width` into one channel; the index is computed in unsigned 32-bit
arithmetic. -/
def storeRow (plane : List F32) (row image_width : Nat) (v : Nat → F32) : List F32 :=
  (List.range image_width).foldl
    (fun P i => P.set ((row * image_width + i) % 2 ^ 32) (v i)) plane

/-- The number of bytes of one sample of each kind. -/
def DataType.bytes : DataType → Nat
  | .FLOATLOGLUV => 4
  | .FLOAT => 4
  | .WORD => 2
  | .BYTE => 1

/-- The state the scanline loop of readIntoPfsFrame carries from row to row:
the handle, the two row buffers (`buf`, `buf2`, held as sequences of samples of
the reader's kind) and the three channels. -/
structure ReadState where
  tif : TIFF
  buf : List Nat
  buf2 : List Nat
  X : List F32
  Y : List F32
  Z : List F32

/-- The transform stage of one row (lines 430-441 and 455-466), after the
scanline has been read into `buf`: the buffer the row is then unpacked from,
followed by the new contents of `buf` and `buf2`.  With a transform
(`doTransform`) it is applied from `buf` into `buf2` and the pointers are
swapped; without one a CMYK row goes through the arithmetic fallback in place.
Float rows (lines 411-423) have no such stage.  `none`: the fallback loop does
not end. -/
def TiffReader.readIntoPfsFrame.active (cms : Lcms) (self : TiffReader)
    (xform : Option CmsTransform) (scanlinesize : Nat) (buf buf2 : List Nat) :
    Option (List Nat × List Nat × List Nat) :=
  match self.TypeOfData with
  | .FLOAT => some (buf, buf, buf2)
  | .FLOATLOGLUV => some (buf, buf, buf2)
  | .WORD =>
    match xform with
    | some t =>
      let out := cms.doTransform t buf (self.width % 2 ^ 32)
      some (out, buf, out)
    | none =>
      if self.ColorSpace = .CMYK then
        match transform_to_rgb_16 true buf buf scanlinesize self.nSamples with
        | some out => some (out, out, buf2)
        | none => none
      else some (buf, buf, buf2)
  | .BYTE =>
    match xform with
    | some t =>
      let out := cms.doTransform t buf (self.width % 2 ^ 32)
      some (out, buf, out)
    | none =>
      if self.ColorSpace = .CMYK then
        match transform_to_rgb true buf buf scanlinesize self.nSamples with
        | some out => some (out, out, buf2)
        | none => none
      else some (buf, buf, buf2)

/-- The conversion of one sample to the float stored in a channel: a float
sample is copied (lines 419-421), a uint16 is converted (lines 444-446), a
byte goes through the gamma decode (lines 469-471). -/
def TiffReader.readIntoPfsFrame.sample (libm : Libm) (kind : DataType) (s : Nat) : F32 :=
  match kind with
  | .FLOAT => F32.ofBits s
  | .FLOATLOGLUV => F32.ofBits s
  | .WORD => F32.ofNat s
  | .BYTE => gammaDecode libm s

/-- One iteration of the scanline loop (lines 409-476) for the row `row`: the
scanline is read (the answer of TIFFReadScanline is not looked at), the
transform stage runs, and the samples at offsets 0, 1, 2 of every pixel, at
stride nSamples, are stored into X, Y, Z. -/
def TiffReader.readIntoPfsFrame.row (cms : Lcms) (libm : Libm) (self : TiffReader)
    (xform : Option CmsTransform) (scanlinesize : Nat) (st : ReadState) (row : Nat) :
    Option ReadState :=
  let image_width := (toInt32 self.width).toNat
  let rd := TIFFReadScanline st.tif st.buf row
  match TiffReader.readIntoPfsFrame.active cms self xform scanlinesize rd.2.1 st.buf2 with
  | none => none
  | some (act, buf, buf2) =>
    some
      { tif := rd.2.2, buf := buf, buf2 := buf2,
        X := storeRow st.X row image_width (fun i =>
          TiffReader.readIntoPfsFrame.sample libm self.TypeOfData
            (act.getD (i * self.nSamples) 0)),
        Y := storeRow st.Y row image_width (fun i =>
          TiffReader.readIntoPfsFrame.sample libm self.TypeOfData
            (act.getD (i * self.nSamples + 1) 0)),
        Z := storeRow st.Z row image_width (fun i =>
          TiffReader.readIntoPfsFrame.sample libm self.TypeOfData
            (act.getD (i * self.nSamples + 2) 0)) }

/-- The scanline loop over the rows listed, in order. -/
def TiffReader.readIntoPfsFrame.rows (cms : Lcms) (libm : Libm) (self : TiffReader)
    (xform : Option CmsTransform) (scanlinesize : Nat) :
    ReadState → List Nat → Option ReadState
  | st, [] => some st
  | st, row :: rest =>
    match TiffReader.readIntoPfsFrame.row cms libm self xform scanlinesize st row with
    | none => none
    | some st' => TiffReader.readIntoPfsFrame.rows cms libm self xform scanlinesize st' rest

/-- What a decode leaves: the frame returned, or the failure, and the handle. -/
structure Decoded where
  result : Except FormatError Frame
  tif : TIFF

/-- The state of `TiffReader::readIntoPfsFrame` when its scanline loop ends
(lines 377-477), for the value `xform` of the transform handle: the frame and
the row buffers are created and the rows 0 to height-1 are decoded in order.
The progress signals are not modelled.  `none`: the loop does not end. -/
def TiffReader.readIntoPfsFrame.scan (cms : Lcms) (libm : Libm) (self : TiffReader)
    (tif : TIFF) (xform : Option CmsTransform) : Option ReadState :=
  let frame := Frame.new self.width self.height
  let scanlinesize := TIFFScanlineSize tif % 2 ^ 32
  let buf := List.replicate (scanlinesize / self.TypeOfData.bytes) 0
  let buf2 := if xform.isSome then List.replicate (scanlinesize / self.TypeOfData.bytes) 0 else []
  TiffReader.readIntoPfsFrame.rows cms libm self xform scanlinesize
    { tif := tif, buf := buf, buf2 := buf2, X := frame.X, Y := frame.Y, Z := frame.Z }
    (List.range self.height)

/-- The part of `TiffReader::readIntoPfsFrame` after the transform has been
set up (lines 377-517), for the value `xform` of the transform handle: the
scanline loop, then the frame is returned.  With writeOnDisk the two `assert`s
of lines 481-482 come first (the thumbnail file written there is outside this
model and leaves the frame alone).  `none`: the decode does not end. -/
def TiffReader.readIntoPfsFrame.decode (cms : Lcms) (libm : Libm) (self : TiffReader)
    (tif : TIFF) (xform : Option CmsTransform) : Option Decoded :=
  match TiffReader.readIntoPfsFrame.scan cms libm self tif xform with
  | none => none
  | some st =>
    if self.writeOnDisk = true ∧
        (self.TypeOfData = .FLOAT ∨ self.TypeOfData = .FLOATLOGLUV) then
      some { result := .error .InvalidPrecondition, tif := st.tif }
    else
      some { result := .ok { width := self.width, height := self.height,
                             X := st.X, Y := st.Y, Z := st.Z },
             tif := st.tif }

/-- The channel of a loop state by number: 0 is X, 1 is Y, 2 is Z. -/
def ReadState.chan (st : ReadState) (c : Nat) : List F32 :=
  if c = 0 then st.X else if c = 1 then st.Y else st.Z

/-- The condition under which the arithmetic fallback loops end when they are
used (no transform, CMYK, byte or word samples): the stride is at least 1 and
the index cannot wrap around before it reaches the bound. -/
def fallbackEnds (self : TiffReader) (xform : Option CmsTransform) (scanlinesize : Nat) : Prop :=
  xform = none → self.ColorSpace = .CMYK →
    (self.TypeOfData = .BYTE → 1 ≤ self.nSamples ∧ scanlinesize + self.nSamples ≤ 2 ^ 32) ∧
    (self.TypeOfData = .WORD → 1 ≤ self.nSamples ∧ scanlinesize / 2 + self.nSamples ≤ 2 ^ 32)

/-- The function `TiffReader::readIntoPfsFrame` (lines 287-517). -/
def TiffReader.readIntoPfsFrame (cms : Lcms) (libm : Libm) (self : TiffReader)
    (tif : TIFF) : Option Decoded :=
  TiffReader.readIntoPfsFrame.decode cms libm self tif
    (TiffReader.readIntoPfsFrame.xform cms self tif)

/-! ## The writer: `TiffWriter` -/

/-- The content of an encoded strip, in the samples of its encoding. -/
inductive StripData where
  | floats (samples : List F32)
  | words (samples : List Nat)
  | bytes (samples : List Nat)
deriving DecidableEq, Repr

/-- State of a libtiff handle opened for writing: the tags set so far and
the strips written so far, oldest first, each with its index. -/
structure TIFFOut where
  imageWidth : Option Nat := none
  imageLength : Option Nat := none
  planarConfig : Option Nat := none
  samplesPerPixel : Option Nat := none
  rowsPerStrip : Option Nat := none
  extraSamples : Option Nat := none
  compression : Option Nat := none
  photometric : Option Nat := none
  bitsPerSample : Option Nat := none
  sgilogDataFmt : Option Nat := none
  sampleFormat : Option Nat := none
  stonits : Option ℚ := none
  iccProfile : Option (List Nat) := none
  strips : List (Nat × StripData) := []
deriving DecidableEq, Repr

/-- TIFFStripSize (tif): the byte size of a strip, the rows of a strip (at most
the image length) times the byte size of a row, with libtiff's defaults for
missing tags. -/
def TIFFStripSize (tif : TIFFOut) : Nat :=
  let rows := min (tif.rowsPerStrip.getD (2 ^ 32 - 1)) (tif.imageLength.getD 0)
  rows * ((tif.bitsPerSample.getD 1 * tif.imageWidth.getD 0 * tif.samplesPerPixel.getD 1 + 7) / 8)

/-- TIFFNumberOfStrips (tif) of a contiguous image: image length over rows per
strip, rounded up; one strip when rows-per-strip was never set. -/
def TIFFNumberOfStrips (tif : TIFFOut) : Nat :=
  let rps := tif.rowsPerStrip.getD (2 ^ 32 - 1)
  if rps = 2 ^ 32 - 1 then 1 else (tif.imageLength.getD 0 + rps - 1) / rps

/-- TIFFWriteEncodedStrip (tif, s, data, size).  `fails s` is what the library
does with strip `s`: `none`, the strip is appended and the byte count `size` is
answered; `some code`, the write fails, nothing is appended and `code` is
answered.  libtiff documents -1 as its answer for an error
(TIFFWriteEncodedStrip(3TIFF): -1 is returned if an error was encountered,
otherwise the value of size); the code is left open here. -/
def TIFFWriteEncodedStrip (fails : Nat → Option Int) (tif : TIFFOut) (s : Nat)
    (data : StripData) (size : Nat) : Int × TIFFOut :=
  match fails s with
  | some code => (code, tif)
  | none => (size, { tif with strips := tif.strips ++ [(s, data)] })

/-- Modelled from the spec: QImage of Qt, as far as the codec uses it: a width,
a height and the row-major 32-bit ARGB pixels. -/
structure QImage where
  width : Nat
  height : Nat
  pixels : List Nat
deriving DecidableEq, Repr

/-- Modelled from the spec: the data members of class TiffWriter (declared in
pfstiff.h, which is not among the sources). -/
structure TiffWriter where
  tif : TIFFOut
  ldrimage : Option QImage
  pixmap : Option (List Nat)
  pfsFrame : Option Frame
  width : Nat
  height : Nat
deriving DecidableEq, Repr

/-- The constructor `TiffWriter::TiffWriter (filename, pfs::Frame*)` (lines
664-682), from the result of `TIFFOpen (filename, "w")`. -/
def TiffWriter.ofFrame (opened : Option TIFFOut) (f : Frame) : Except FormatError TiffWriter :=
  match opened with
  | none => .error .CouldNotOpenForWriting
  | some tif =>
    .ok { tif := { tif with imageWidth := some f.width, imageLength := some f.height,
                            planarConfig := some PLANARCONFIG_CONTIG,
                            samplesPerPixel := some 3, rowsPerStrip := some 1 },
          ldrimage := none, pixmap := none, pfsFrame := some f,
          width := f.width, height := f.height }

/-- What a write operation leaves: the value returned (0, or -1) or the
exception thrown, the handle, and whether the strip buffer was released with
`_TIFFfree`. -/
structure Written where
  code : Except FormatError Int
  tif : TIFFOut
  strip_buf_freed : Bool

/-- The strip loop common to the write functions (for instance lines 758-776):
for every strip index listed, in order, the strip buffer is packed and the
strip is written; the first write that answers 0 stops the loop.  The answer
tells whether the loop ran to its end and gives the handle and the buffer as
left. -/
def writeStrips {β : Type} (fails : Nat → Option Int) (strip_size : Nat) (pack : β → Nat → β)
    (view : β → StripData) : TIFFOut → β → List Nat → Bool × TIFFOut × β
  | tif, buf, [] => (true, tif, buf)
  | tif, buf, s :: rest =>
    let buf' := pack buf s
    let w := TIFFWriteEncodedStrip fails tif s (view buf') strip_size
    if w.1 = 0 then (false, w.2, buf')
    else writeStrips fails strip_size pack view w.2 buf' rest

/-- The inner loop of writeFloatTiff and writeLogLuvTiff (lines 760-765): for
every column the three channel samples of row `s` are stored at 3col, 3col+1,
3col+2 of the strip buffer; the channel index is computed in unsigned 32-bit
arithmetic. -/
def packFloats (width : Nat) (X Y Z : List F32) (strip_buf : List F32) (s : Nat) : List F32 :=
  (List.range width).foldl
    (fun b col =>
      ((b.set (3 * col + 0) (X.getD ((s * width + col) % 2 ^ 32) (.fin 0))).set (3 * col + 1)
        (Y.getD ((s * width + col) % 2 ^ 32) (.fin 0))).set (3 * col + 2)
        (Z.getD ((s * width + col) % 2 ^ 32) (.fin 0)))
    strip_buf

/-- The function `TiffWriter::writeFloatTiff` (lines 729-779).  `alloc size`
tells whether `_TIFFmalloc (size)` answers a buffer, `fails s` what the write
of strip `s` does.  The strip buffer is held as floats and its fresh
content is taken as +0.  The progress signals are not modelled. -/
def TiffWriter.writeFloatTiff (alloc : Nat → Bool) (fails : Nat → Option Int)
    (self : TiffWriter) :
    Written :=
  match self.pfsFrame with
  | none => { code := .error .InvalidPrecondition, tif := self.tif, strip_buf_freed := false }
  | some frame =>
    let tif : TIFFOut :=
      { self.tif with compression := some COMPRESSION_DEFLATE,
                      photometric := some PHOTOMETRIC_RGB, bitsPerSample := some 32 }
    let strip_size := TIFFStripSize tif
    let strips_num := TIFFNumberOfStrips tif
    if alloc strip_size = false then
      { code := .error .OutOfMemory, tif := tif, strip_buf_freed := false }
    else
      let strip_buf : List F32 := List.replicate (strip_size / 4) (.fin 0)
      let r := writeStrips fails strip_size (packFloats self.width frame.X frame.Y frame.Z)
        StripData.floats tif strip_buf (List.range strips_num)
      if r.1 then { code := .ok 0, tif := r.2.1, strip_buf_freed := true }
      else { code := .ok (-1), tif := r.2.1, strip_buf_freed := false }

/-- Wraparound of an integer to a signed 16-bit value, two's complement. -/
def wrapInt16 (x : Int) : Int := (x + 2 ^ 15) % 2 ^ 16 - 2 ^ 15

/-- Whether the conversion of a float to qint16 is defined: the value is finite
and its truncation toward zero lies in -32768..32767. -/
def F32.fitsQint16 : F32 → Bool
  | .fin n => decide (-32768 ≤ Int.tdiv n (2 ^ 149) ∧ Int.tdiv n (2 ^ 149) ≤ 32767)
  | .negZero => true
  | _ => false

/-- The cast `(qint16) x` of a float (lines 990-992).  The conversion truncates
toward zero; ISO C++ defines it only when the truncated value can be
represented in a qint16.  For every other float (a truncated value outside
-32768..32767, an infinity, not-a-number) the behaviour is undefined, and
`conv x` stands for the integer the compiled conversion then produces, of which
the qint16 keeps the low 16 bits. -/
def castQint16 (conv : F32 → Int) (x : F32) : Int :=
  if x.fitsQint16 then F32.trunc x else wrapInt16 (conv x)

/-- One conversion a compiler may emit for the cast, used as a value of `conv`
(it is not part of pfstiff.cpp): the x86-64 instruction `cvttss2si` with a
32-bit destination, which gives the truncated value when it fits an `int` and
the integer indefinite value -2^31 for every other float. -/
def cvttss2si : F32 → Int
  | .fin n =>
    if -(2 ^ 31) ≤ Int.tdiv n (2 ^ 149) ∧ Int.tdiv n (2 ^ 149) < 2 ^ 31 then
      Int.tdiv n (2 ^ 149)
    else -(2 ^ 31)
  | .negZero => 0
  | _ => -(2 ^ 31)

/-- The store of a qint16 into a quint16 element: the same 16 bits read as
unsigned. -/
def toQuint16 (x : Int) : Nat := (x % 2 ^ 16).toNat

/-- The inner loop of writePFSFrame16bitTiff (lines 988-993). -/
def packWords (conv : F32 → Int) (width : Nat) (X Y Z : List F32) (strip_buf : List Nat)
    (s : Nat) : List Nat :=
  (List.range width).foldl
    (fun b col =>
      ((b.set (3 * col + 0)
          (toQuint16 (castQint16 conv (X.getD ((s * width + col) % 2 ^ 32) (.fin 0))))).set
        (3 * col + 1)
          (toQuint16 (castQint16 conv (Y.getD ((s * width + col) % 2 ^ 32) (.fin 0))))).set
        (3 * col + 2)
          (toQuint16 (castQint16 conv (Z.getD ((s * width + col) % 2 ^ 32) (.fin 0)))))
    strip_buf

/-- The function `TiffWriter::writePFSFrame16bitTiff` (lines 957-1008), with
the conventions of `writeFloatTiff`; the strip buffer is held as uint16.
`conv` is what the conversion to qint16 produces where C++ leaves it
undefined (`castQint16`). -/
def TiffWriter.writePFSFrame16bitTiff (conv : F32 → Int) (alloc : Nat → Bool)
    (fails : Nat → Option Int) (self : TiffWriter) : Written :=
  match self.pfsFrame with
  | none => { code := .error .InvalidPrecondition, tif := self.tif, strip_buf_freed := false }
  | some frame =>
    let tif : TIFFOut :=
      { self.tif with compression := some COMPRESSION_DEFLATE,
                      photometric := some PHOTOMETRIC_RGB, bitsPerSample := some 16 }
    let strip_size := TIFFStripSize tif
    let strips_num := TIFFNumberOfStrips tif
    if alloc strip_size = false then
      { code := .error .OutOfMemory, tif := tif, strip_buf_freed := false }
    else
      let strip_buf : List Nat := List.replicate (strip_size / 2) 0
      let r := writeStrips fails strip_size (packWords conv self.width frame.X frame.Y frame.Z)
        StripData.words tif strip_buf (List.range strips_num)
      if r.1 then { code := .ok 0, tif := r.2.1, strip_buf_freed := true }
      else { code := .ok (-1), tif := r.2.1, strip_buf_freed := false }

/-! ## The other writers -/

/-- The constructor `TiffWriter::TiffWriter (filename, const quint16 *pix, w, h)`
(lines 684-702), from the result of `TIFFOpen (filename, "w")`. -/
def TiffWriter.ofPixmap (opened : Option TIFFOut) (pix : List Nat) (w h : Nat) :
    Except FormatError TiffWriter :=
  match opened with
  | none => .error .CouldNotOpenForWriting
  | some tif =>
    .ok { tif := { tif with imageWidth := some w, imageLength := some h,
                            planarConfig := some PLANARCONFIG_CONTIG,
                            samplesPerPixel := some 3, rowsPerStrip := some 1 },
          ldrimage := none, pixmap := some pix, pfsFrame := none,
          width := w, height := h }

/-- The constructor `TiffWriter::TiffWriter (filename, QImage *f)` (lines
704-726): four samples per pixel, one of them an extra sample (the tag holds
the count 1; its type, associated alpha, is not kept). -/
def TiffWriter.ofQImage (opened : Option TIFFOut) (f : QImage) : Except FormatError TiffWriter :=
  match opened with
  | none => .error .CouldNotOpenForWriting
  | some tif =>
    .ok { tif := { tif with imageWidth := some f.width, imageLength := some f.height,
                            planarConfig := some PLANARCONFIG_CONTIG,
                            samplesPerPixel := some 4, extraSamples := some 1,
                            rowsPerStrip := some 1 },
          ldrimage := some f, pixmap := none, pfsFrame := none,
          width := f.width, height := f.height }

/-- The function `TiffWriter::writeLogLuvTiff` (lines 781-833), with the
conventions of `writeFloatTiff`.  Setting the codec pseudo-tag SGILOGDATAFMT to
float makes libtiff set 32 bits per sample, which is what sizes the strip, and
the IEEE floating point sample format, as `TIFFSetField_SGILOGDATAFMT` does on
a handle opened for reading. -/
def TiffWriter.writeLogLuvTiff (alloc : Nat → Bool) (fails : Nat → Option Int)
    (self : TiffWriter) : Written :=
  match self.pfsFrame with
  | none => { code := .error .InvalidPrecondition, tif := self.tif, strip_buf_freed := false }
  | some frame =>
    let tif : TIFFOut :=
      { self.tif with compression := some COMPRESSION_SGILOG,
                      photometric := some PHOTOMETRIC_LOGLUV,
                      sgilogDataFmt := some SGILOGDATAFMT_FLOAT, bitsPerSample := some 32,
                      sampleFormat := some SAMPLEFORMAT_IEEEFP, stonits := some 1 }
    let strip_size := TIFFStripSize tif
    let strips_num := TIFFNumberOfStrips tif
    if alloc strip_size = false then
      { code := .error .OutOfMemory, tif := tif, strip_buf_freed := false }
    else
      let strip_buf : List F32 := List.replicate (strip_size / 4) (.fin 0)
      let r := writeStrips fails strip_size (packFloats self.width frame.X frame.Y frame.Z)
        StripData.floats tif strip_buf (List.range strips_num)
      if r.1 then { code := .ok 0, tif := r.2.1, strip_buf_freed := true }
      else { code := .ok (-1), tif := r.2.1, strip_buf_freed := false }

/-- Modelled from the spec: qRgba of Qt (qrgb.h is not among the sources): the
32-bit ARGB word of four components, each taken modulo 256. -/
def qRgba (r g b a : Nat) : Nat :=
  (a % 256) * 2 ^ 24 + (r % 256) * 2 ^ 16 + (g % 256) * 2 ^ 8 + b % 256

/-- Modelled from the spec: qRed of Qt, bits 16 to 23 of a pixel. -/
def qRed (rgb : Nat) : Nat := rgb / 2 ^ 16 % 256
/-- Modelled from the spec: qGreen of Qt, bits 8 to 15 of a pixel. -/
def qGreen (rgb : Nat) : Nat := rgb / 2 ^ 8 % 256
/-- Modelled from the spec: qBlue of Qt, bits 0 to 7 of a pixel. -/
def qBlue (rgb : Nat) : Nat := rgb % 256
/-- Modelled from the spec: qAlpha of Qt, bits 24 to 31 of a 32-bit pixel. -/
def qAlpha (rgb : Nat) : Nat := rgb / 2 ^ 24 % 256

/-- The inner loop of write8bitTiff (lines 874-880): for every column the four
components of pixel `width * s + col` are stored at 4col to 4col+3 of the strip
buffer; the pixel index is computed in unsigned 32-bit arithmetic. -/
def packBytes (width : Nat) (ldrpixels : List Nat) (strip_buf : List Nat) (s : Nat) : List Nat :=
  (List.range width).foldl
    (fun b col =>
      (((b.set (4 * col + 0) (qRed (ldrpixels.getD ((width * s + col) % 2 ^ 32) 0))).set
        (4 * col + 1) (qGreen (ldrpixels.getD ((width * s + col) % 2 ^ 32) 0))).set
        (4 * col + 2) (qBlue (ldrpixels.getD ((width * s + col) % 2 ^ 32) 0))).set
        (4 * col + 3) (qAlpha (ldrpixels.getD ((width * s + col) % 2 ^ 32) 0)))
    strip_buf

/-- The function `TiffWriter::write8bitTiff` (lines 835-893), with the
conventions of `writeFloatTiff`.  `profile` is the byte blob that
cmsSaveProfileToMem leaves for the sRGB profile (empty when it fails); the
ICC tag is set to it before the other tags.  The `throw` of line 840 is behind
the `assert` of line 838.  The strip buffer is held as bytes. -/
def TiffWriter.write8bitTiff (profile : List Nat) (alloc : Nat → Bool)
    (fails : Nat → Option Int) (self : TiffWriter) : Written :=
  match self.ldrimage with
  | none => { code := .error .InvalidPrecondition, tif := self.tif, strip_buf_freed := false }
  | some ldrimage =>
    let tif : TIFFOut := { self.tif with iccProfile := some profile }
    let tif : TIFFOut :=
      { tif with compression := some COMPRESSION_DEFLATE,
                 photometric := some PHOTOMETRIC_RGB, bitsPerSample := some 8 }
    let strip_size := TIFFStripSize tif
    let strips_num := TIFFNumberOfStrips tif
    if alloc strip_size = false then
      { code := .error .OutOfMemoryLdr, tif := tif, strip_buf_freed := false }
    else
      let strip_buf : List Nat := List.replicate strip_size 0
      let r := writeStrips fails strip_size (packBytes self.width ldrimage.pixels)
        StripData.bytes tif strip_buf (List.range strips_num)
      if r.1 then { code := .ok 0, tif := r.2.1, strip_buf_freed := true }
      else { code := .ok (-1), tif := r.2.1, strip_buf_freed := false }

/-- The inner loop of write16bitTiff (lines 936-941): three words per column,
copied from the interleaved pixmap; the pixmap index is computed in unsigned
32-bit arithmetic. -/
def packPixmap (width : Nat) (pixmap : List Nat) (strip_buf : List Nat) (s : Nat) : List Nat :=
  (List.range width).foldl
    (fun b col =>
      ((b.set (3 * col) (pixmap.getD ((3 * (width * s + col)) % 2 ^ 32) 0)).set (3 * col + 1)
        (pixmap.getD ((3 * (width * s + col) + 1) % 2 ^ 32) 0)).set (3 * col + 2)
        (pixmap.getD ((3 * (width * s + col) + 2) % 2 ^ 32) 0))
    strip_buf

/-- The function `TiffWriter::write16bitTiff` (lines 895-955), with the
conventions of `write8bitTiff`; the strip buffer is held as uint16. -/
def TiffWriter.write16bitTiff (profile : List Nat) (alloc : Nat → Bool)
    (fails : Nat → Option Int) (self : TiffWriter) : Written :=
  match self.pixmap with
  | none => { code := .error .InvalidPrecondition, tif := self.tif, strip_buf_freed := false }
  | some pixmap =>
    let tif : TIFFOut := { self.tif with iccProfile := some profile }
    let tif : TIFFOut :=
      { tif with compression := some COMPRESSION_DEFLATE,
                 photometric := some PHOTOMETRIC_RGB, bitsPerSample := some 16 }
    let strip_size := TIFFStripSize tif
    let strips_num := TIFFNumberOfStrips tif
    if alloc strip_size = false then
      { code := .error .OutOfMemoryLdr, tif := tif, strip_buf_freed := false }
    else
      let strip_buf : List Nat := List.replicate (strip_size / 2) 0
      let r := writeStrips fails strip_size (packPixmap self.width pixmap)
        StripData.words tif strip_buf (List.range strips_num)
      if r.1 then { code := .ok 0, tif := r.2.1, strip_buf_freed := true }
      else { code := .ok (-1), tif := r.2.1, strip_buf_freed := false }

/-! ## The thumbnail decode: `TiffReader::readIntoQImage` -/

/-- Modelled from the spec: `new QImage (width, height, QImage::Format_ARGB32)`:
width x height pixels; the content of a fresh image is taken as 0. -/
def QImage.new (width height : Nat) : QImage :=
  { width := width, height := height, pixels := List.replicate (width * height) 0 }

/-- The stores `qImageData[x] = v x` for `x` from 0 below `width` into row `y`
of the image (`scanLine (y)` is the address of that row). -/
def storeScanLine (pixels : List Nat) (y width : Nat) (v : Nat → Nat) : List Nat :=
  (List.range width).foldl (fun P x => P.set (y * width + x) (v x)) pixels

/-- The state the scanline loop of readIntoQImage carries from row to row: the
handle, the vectors `buffer` and `bufferConverted`, and the pixels of the
image. -/
structure ThumbState where
  tif : TIFF
  buffer : List Nat
  bufferConverted : List Nat
  pixels : List Nat

/-- One iteration of the scanline loop of readIntoQImage (lines 617-660) for
the row `y`.  The scanline is read into `buffer` (the answer of
TIFFReadScanline is not looked at).  With a transform the row is converted into
`bufferConverted` and the pixels are taken from it at stride 4 (`x << 2`, a
uint); without one a CMYK row goes through transform_to_rgb in place and the
pixels are taken from `buffer` at stride nSamples (`x * nSamples`, unsigned).
The alpha is the fourth byte when has_alpha is set and 0xFF otherwise.
`none`: the fallback loop does not end. -/
def TiffReader.readIntoQImage.row (cms : Lcms) (self : TiffReader)
    (xform : Option CmsTransform) (scanlinesize : Nat) (st : ThumbState) (y : Nat) :
    Option ThumbState :=
  let rd := TIFFReadScanline st.tif st.buffer y
  match xform with
  | some t =>
    let conv := cms.doTransform t rd.2.1 (self.width % 2 ^ 32)
    some
      { tif := rd.2.2, buffer := rd.2.1, bufferConverted := conv,
        pixels := storeScanLine st.pixels y self.width (fun x =>
          qRgba (conv.getD (x * 4 % 2 ^ 32) 0) (conv.getD (x * 4 % 2 ^ 32 + 1) 0)
            (conv.getD (x * 4 % 2 ^ 32 + 2) 0)
            (if self.has_alpha then conv.getD (x * 4 % 2 ^ 32 + 3) 0 else 255)) }
  | none =>
    let act : Option (List Nat) :=
      if self.ColorSpace = .CMYK then
        transform_to_rgb true rd.2.1 rd.2.1 scanlinesize self.nSamples
      else some rd.2.1
    match act with
    | none => none
    | some buf =>
      some
        { tif := rd.2.2, buffer := buf, bufferConverted := st.bufferConverted,
          pixels := storeScanLine st.pixels y self.width (fun x =>
            qRgba (buf.getD (x * self.nSamples % 2 ^ 32) 0)
              (buf.getD ((x * self.nSamples % 2 ^ 32 + 1) % 2 ^ 32) 0)
              (buf.getD ((x * self.nSamples % 2 ^ 32 + 2) % 2 ^ 32) 0)
              (if self.has_alpha then buf.getD ((x * self.nSamples % 2 ^ 32 + 3) % 2 ^ 32) 0
               else 255)) }

/-- The scanline loop of readIntoQImage over the rows listed, in order. -/
def TiffReader.readIntoQImage.rows (cms : Lcms) (self : TiffReader)
    (xform : Option CmsTransform) (scanlinesize : Nat) :
    ThumbState → List Nat → Option ThumbState
  | st, [] => some st
  | st, y :: rest =>
    match TiffReader.readIntoQImage.row cms self xform scanlinesize st y with
    | none => none
    | some st' => TiffReader.readIntoQImage.rows cms self xform scanlinesize st' rest

/-- What the thumbnail decode leaves: the image returned, or the failure, and
the handle. -/
structure Thumb where
  result : Except FormatError QImage
  tif : TIFF

/-- The function `TiffReader::readIntoQImage` (lines 520-662).  The `assert`
of line 523 comes first; then the transform is set up, the image and the two
vectors are created (`bufferConverted` has `width << 2` bytes when there is a
transform) and the rows 0 to height-1 are decoded in order.  `none`: the decode
does not end. -/
def TiffReader.readIntoQImage (cms : Lcms) (self : TiffReader) (tif : TIFF) : Option Thumb :=
  if self.TypeOfData ≠ .BYTE then
    some { result := .error .InvalidPrecondition, tif := tif }
  else
    let xform := TiffReader.readIntoQImage.xform cms self tif
    let toReturn := QImage.new self.width self.height
    let scanlinesize := TIFFScanlineSize tif % 2 ^ 32
    let buffer := List.replicate scanlinesize 0
    let bufferConverted := if xform.isSome then List.replicate (self.width * 4 % 2 ^ 32) 0 else []
    match TiffReader.readIntoQImage.rows cms self xform scanlinesize
        { tif := tif, buffer := buffer, bufferConverted := bufferConverted,
          pixels := toReturn.pixels } (List.range self.height) with
    | none => none
    | some st =>
      some { result := .ok { width := self.width, height := self.height, pixels := st.pixels },
             tif := st.tif }

/-! ## Samples per pixel of a layout, and the indices a fallback loop visits -/

/-- The number of samples a pixel takes in a layout of lcms2.h: the channels of
the colour space plus the extra channel of the RGBA layouts. -/
def CmsFormat.samples : CmsFormat → Nat
  | .TYPE_RGB_8 => 3
  | .TYPE_RGBA_8 => 4
  | .TYPE_RGB_16 => 3
  | .TYPE_RGBA_16 => 4
  | .TYPE_CMYK_8 => 4
  | .TYPE_CMYK_16 => 4

/-- The values the index takes in the body of the loop
`for (uint32 i = 0; i < bound; i += nSamples)` of transform_to_rgb (bound
`size`) and transform_to_rgb_16 (bound `size/2`), from `i` on, in order.  The
first argument bounds the number of iterations; `none` means the bound was
reached. -/
def fallbackIndices (bound nSamples : Nat) : Nat → Nat → Option (List Nat)
  | 0, _ => none
  | fuel + 1, i =>
    if i < bound then
      (fallbackIndices bound nSamples fuel ((i + nSamples) % 2 ^ 32)).map (fun l => i :: l)
    else some []

/-! ## Closed form of the 8-bit fallback, used to state its lemmas -/

/-- The value the 8-bit fallback leaves at position k of a buffer of
four-sample pixels whose original content is `orig`. -/
def rgbOf (orig : List Nat) (k : Nat) : Nat :=
  if k % 4 = 3 then 255
  else (255 - orig.getD k 0) * (255 - orig.getD (k - k % 4 + 3) 0) / 255

/-! ## Concrete containers used as test inputs -/

/-- Arbitrary prior content of the members of a reader under construction. -/
def self0 : TiffReader :=
  { width := 0, height := 0, comp := 0, phot := 0, TypeOfData := .FLOAT,
    ColorSpace := .RGB, bps := 0, nSamples := 0, has_alpha := false,
    stonits := 0, writeOnDisk := false }

/-- A 2x2 container of 8-bit RGB stored in separate planes. -/
def tifPlanar : TIFF :=
  { imageWidth := 2, imageLength := 2, planarConfig := PLANARCONFIG_SEPARATE,
    photometric := some PHOTOMETRIC_RGB, samplesPerPixel := some 3,
    bitsPerSample := some 8 }

/-- A 2x2 contiguous container with the given photometric, compression,
samples-per-pixel, extra-samples and bits-per-sample tags. -/
def tifOf (phot comp spp extra bps : Option Nat) : TIFF :=
  { imageWidth := 2, imageLength := 2, planarConfig := PLANARCONFIG_CONTIG,
    photometric := phot, compression := comp, samplesPerPixel := spp,
    extraSamples := extra, bitsPerSample := bps }

/-- A colour-management library that parses no byte blob as a profile but
builds every RGB profile and every transform it is asked for; a built
transform copies its input. -/
def cmsNoParse : Lcms :=
  { parses := fun _ => false,
    rgbProfileBuilt := fun _ _ _ => true,
    transformBuilt := fun _ => true,
    doTransform := fun _ buf _ => buf }

/-- A colour-management library that accepts every request; a built transform
copies its input. -/
def cmsAccepting : Lcms :=
  { parses := fun _ => true,
    rgbProfileBuilt := fun _ _ _ => true,
    transformBuilt := fun _ => true,
    doTransform := fun _ buf _ => buf }

/-- A 2x2 contiguous 8-bit CMYK container that carries the colorimetric tags
(six chromaticity words, two white-point words) and the given ICC blob. -/
def tifColorimetric (icc : Option (List Nat)) : TIFF :=
  { imageWidth := 2, imageLength := 2, planarConfig := PLANARCONFIG_CONTIG,
    photometric := some PHOTOMETRIC_SEPARATED, samplesPerPixel := some 4,
    bitsPerSample := some 8, iccProfile := icc,
    primaryChromaticities := some [1, 2, 3, 4, 5, 6], whitePoint := some [7, 8] }

/-- A 2x2 contiguous 8-bit RGB container with an embedded ICC blob, with the
given samples per pixel and extra-samples tag. -/
def tifRgb8Icc (spp : Nat) (extra : Option Nat) : TIFF :=
  { imageWidth := 2, imageLength := 2, planarConfig := PLANARCONFIG_CONTIG,
    photometric := some PHOTOMETRIC_RGB, samplesPerPixel := some spp,
    extraSamples := extra, bitsPerSample := some 8, iccProfile := some [0, 1, 2, 3] }

/-- A stand-in for the C math library whose `powf` returns its first argument;
it has the two values Annex F fixes. -/
def libmStub : Libm :=
  { powf := fun x _ => x,
    powf_one := fun _ => rfl,
    powf_zero := fun _ _ _ => rfl }

/-- A 1x1 contiguous 8-bit RGB container whose only row cannot be read. -/
def tifUnreadable : TIFF :=
  { imageWidth := 1, imageLength := 1, planarConfig := PLANARCONFIG_CONTIG,
    photometric := some PHOTOMETRIC_RGB, samplesPerPixel := some 3,
    bitsPerSample := some 8, scanlines := [none] }

/-- A 2x1 contiguous 32-bit float RGB container: the pixels (1.0, 2.0, 3.0)
and (4.0, 5.0, 6.0), as IEEE-754 words. -/
def tifFloat : TIFF :=
  { imageWidth := 2, imageLength := 1, planarConfig := PLANARCONFIG_CONTIG,
    photometric := some PHOTOMETRIC_RGB, samplesPerPixel := some 3,
    bitsPerSample := some 32,
    scanlines := [some [1065353216, 1073741824, 1077936128,
                        1082130432, 1084227584, 1086324736]] }

/-- The reader the constructor makes of `tifFloat`. -/
def rdFloat : TiffReader :=
  { width := 2, height := 1, comp := 1, phot := 2, TypeOfData := .FLOAT,
    ColorSpace := .RGB, bps := 32, nSamples := 3, has_alpha := false,
    stonits := 1, writeOnDisk := false }

/-- A 1x1 contiguous 8-bit CMYK container with the pixel (255, 10, 20, 30)
and the given ICC blob. -/
def tifCyan (icc : Option (List Nat)) : TIFF :=
  { imageWidth := 1, imageLength := 1, planarConfig := PLANARCONFIG_CONTIG,
    photometric := some PHOTOMETRIC_SEPARATED, samplesPerPixel := some 4,
    bitsPerSample := some 8, iccProfile := icc, scanlines := [some [255, 10, 20, 30]] }

/-- The reader the constructor makes of `tifCyan`. -/
def rdCyan : TiffReader :=
  { width := 1, height := 1, comp := 1, phot := 5, TypeOfData := .BYTE,
    ColorSpace := .CMYK, bps := 8, nSamples := 4, has_alpha := false,
    stonits := 1, writeOnDisk := false }

/-- A colour-management library that parses every profile and builds no
transform. -/
def cmsNoTransform : Lcms :=
  { parses := fun _ => true,
    rgbProfileBuilt := fun _ _ _ => true,
    transformBuilt := fun _ => false,
    doTransform := fun _ buf _ => buf }

/-- The reader the constructor makes of `tifUnreadable`. -/
def rdUnreadable : TiffReader :=
  { width := 1, height := 1, comp := 1, phot := 2, TypeOfData := .BYTE,
    ColorSpace := .RGB, bps := 8, nSamples := 3, has_alpha := false,
    stonits := 1, writeOnDisk := false }

/-- A 1x1 frame with the samples 65535.0, 1.5 and -1.0. -/
def frameWords : Frame :=
  { width := 1, height := 1, X := [.fin (65535 * 2 ^ 149)], Y := [.fin (3 * 2 ^ 148)],
    Z := [.fin (-(2 ^ 149))] }

/-- A 2x1 contiguous 16-bit RGB container with a row of six words. -/
def tifWord : TIFF :=
  { imageWidth := 2, imageLength := 1, planarConfig := PLANARCONFIG_CONTIG,
    photometric := some PHOTOMETRIC_RGB, samplesPerPixel := some 3,
    bitsPerSample := some 16, scanlines := [some [1, 2, 3, 4, 5, 6]] }

/-- The reader the constructor makes of `tifWord`. -/
def rdWord : TiffReader :=
  { width := 2, height := 1, comp := 1, phot := 2, TypeOfData := .WORD,
    ColorSpace := .RGB, bps := 16, nSamples := 3, has_alpha := false,
    stonits := 1, writeOnDisk := false }

/-- A 2x1 contiguous 8-bit RGB container with alpha (4 samples per pixel, 1
extra sample), an embedded ICC blob and a row of two pixels. -/
def tifRgba8 : TIFF :=
  { imageWidth := 2, imageLength := 1, planarConfig := PLANARCONFIG_CONTIG,
    photometric := some PHOTOMETRIC_RGB, samplesPerPixel := some 4,
    extraSamples := some 1, bitsPerSample := some 8, iccProfile := some [0, 1, 2, 3],
    scanlines := [some [10, 20, 30, 40, 50, 60, 70, 80]] }

/-- A contiguous container of the given width and height that carries no other
tag. -/
def tifSized (w h : Nat) : TIFF :=
  { imageWidth := w, imageLength := h, planarConfig := PLANARCONFIG_CONTIG }

/-- The reader the constructor makes of `tifRgba8`. -/
def rdRgba8 : TiffReader :=
  { width := 2, height := 1, comp := 1, phot := 2, TypeOfData := .BYTE,
    ColorSpace := .RGB, bps := 8, nSamples := 4, has_alpha := true,
    stonits := 1, writeOnDisk := false }

/-- The answers of a container whose write of strip `k` fails with `code` and
whose other writes succeed. -/
def failsAt (k : Nat) (code : Int) : Nat → Option Int :=
  fun s => if s = k then some code else none

/-- A frame of one column and two rows. -/
def frameTwoRows : Frame :=
  { width := 1, height := 2, X := [.fin 1, .fin 4], Y := [.fin 2, .fin 5],
    Z := [.fin 3, .fin 6] }

/-- An image of one column and two rows: the pixels (A,R,G,B) = (255,16,32,48)
and (128,64,80,96). -/
def imgTwoRows : QImage :=
  { width := 1, height := 2, pixels := [4279246896, 2151698528] }

/-- A 1x1 contiguous 8-bit RGB container with the pixel (10, 20, 30) and no
profile. -/
def tifRgb8 : TIFF :=
  { imageWidth := 1, imageLength := 1, planarConfig := PLANARCONFIG_CONTIG,
    photometric := some PHOTOMETRIC_RGB, samplesPerPixel := some 3,
    bitsPerSample := some 8, scanlines := [some [10, 20, 30]] }

/-- The reader the constructor makes of `tifRgb8`. -/
def rdRgb8 : TiffReader :=
  { width := 1, height := 1, comp := 1, phot := 2, TypeOfData := .BYTE,
    ColorSpace := .RGB, bps := 8, nSamples := 3, has_alpha := false,
    stonits := 1, writeOnDisk := false }

/-- A 1x1 contiguous 8-bit RGB container whose only row cannot be read, the
failed read having stored the bytes 9, 8, 7 in the caller's buffer. -/
def tifHalfRead : TIFF :=
  { imageWidth := 1, imageLength := 1, planarConfig := PLANARCONFIG_CONTIG,
    photometric := some PHOTOMETRIC_RGB, samplesPerPixel := some 3,
    bitsPerSample := some 8, scanlines := [none], failedReads := [[9, 8, 7]] }

/-- A colour-management library that parses every blob, builds every RGB
profile, and builds every transform except those that read a CMYK layout
through a profile made by cmsCreateRGBProfile (lcms2 checks the colour space
of the input layout against that of the input profile); a built transform
copies its input. -/
def cmsColorChecked : Lcms :=
  { parses := fun _ => true,
    rgbProfileBuilt := fun _ _ _ => true,
    transformBuilt := fun t =>
      match t.input, t.inputFormat with
      | .rgb _ _ _, .TYPE_CMYK_8 => false
      | .rgb _ _ _, .TYPE_CMYK_16 => false
      | _, _ => true,
    doTransform := fun _ buf _ => buf }

/-- A 1x1 contiguous 8-bit CMYK container with the pixel (255, 10, 20, 30), no
ICC blob, and the colorimetric tags (six chromaticity words, two white-point
words). -/
def tifCyanColorimetric : TIFF :=
  { imageWidth := 1, imageLength := 1, planarConfig := PLANARCONFIG_CONTIG,
    photometric := some PHOTOMETRIC_SEPARATED, samplesPerPixel := some 4,
    bitsPerSample := some 8, primaryChromaticities := some [1, 2, 3, 4, 5, 6],
    whitePoint := some [7, 8], scanlines := [some [255, 10, 20, 30]] }

/-- A 1x1 frame with the samples 3000000000.0, -3000000000.0 and
4294967808.0, none of which can be represented in a qint16. -/
def frameBig : Frame :=
  { width := 1, height := 1, X := [.fin (3000000000 * 2 ^ 149)],
    Y := [.fin (-(3000000000 * 2 ^ 149))], Z := [.fin (4294967808 * 2 ^ 149)] }

/-! ## Helper lemmas -/

/-- With both operands in range and no borrow, the stored difference is the
plain difference. -/
theorem baseChannels_eq_sub (n e : Nat) (hle : e ≤ n) (hn : n < 65536) :
    baseChannels n e = n - e := by
  unfold baseChannels
  omega

/-- The RGB branch of the constructor, in closed form: the channel-count
check, then the bit-depth check, then the constructed reader. -/
theorem new_rgb (tif : TIFF) (wod : Bool) (self : TiffReader)
    (hsize : (tif.imageWidth * tif.imageLength) % 2 ^ 32 ≠ 0)
    (hplanar : tif.planarConfig = PLANARCONFIG_CONTIG)
    (hphot : tif.photometric = some PHOTOMETRIC_RGB) :
    TiffReader.new tif wod self =
      if baseChannels (tif.samplesPerPixel.getD self.nSamples) (tif.extraSamples.getD 0) ≠ 3 then
        (.error .UnsupportedChannelCount, tif)
      else
        match tif.bitsPerSample with
        | none => (.error .UnsupportedBitDepth, tif)
        | some b =>
          if b ≠ 8 ∧ b ≠ 16 ∧ b ≠ 32 then (.error .UnsupportedBitDepth, tif)
          else
            (.ok { width := tif.imageWidth, height := tif.imageLength,
                   comp := tif.compression.getD COMPRESSION_NONE, phot := PHOTOMETRIC_RGB,
                   TypeOfData := typeOfBps b, ColorSpace := .RGB, bps := b,
                   nSamples := tif.samplesPerPixel.getD self.nSamples,
                   has_alpha := decide (tif.extraSamples.getD 0 = 1),
                   stonits := tif.stonits.getD 1, writeOnDisk := wod }, tif) := by
  have hs : ¬ tif.imageWidth * tif.imageLength % 4294967296 = 0 := by simpa using hsize
  have hne : PHOTOMETRIC_RGB ≠ PHOTOMETRIC_LOGLUV := by decide
  unfold TiffReader.new
  cases hn : tif.samplesPerPixel <;> cases he : tif.extraSamples <;>
    cases hb : tif.bitsPerSample <;> cases hc : tif.compression <;>
    cases hst : tif.stonits <;>
    simp [hs, hplanar, hphot, hn, he, hb, hc, hst, TIFFGetFieldDefaulted, TIFFGetField, hne, readStonits]

/-- The CMYK branch of the constructor, in closed form: no check is made and
`has_alpha` keeps its prior content. -/
theorem new_cmyk (tif : TIFF) (wod : Bool) (self : TiffReader)
    (hsize : (tif.imageWidth * tif.imageLength) % 2 ^ 32 ≠ 0)
    (hplanar : tif.planarConfig = PLANARCONFIG_CONTIG)
    (hphot : tif.photometric = some PHOTOMETRIC_SEPARATED) :
    TiffReader.new tif wod self =
      (.ok { width := tif.imageWidth, height := tif.imageLength,
             comp := tif.compression.getD COMPRESSION_NONE, phot := PHOTOMETRIC_SEPARATED,
             TypeOfData := typeOfBps (tif.bitsPerSample.getD self.bps), ColorSpace := .CMYK,
             bps := tif.bitsPerSample.getD self.bps,
             nSamples := tif.samplesPerPixel.getD self.nSamples,
             has_alpha := self.has_alpha,
             stonits := tif.stonits.getD 1, writeOnDisk := wod }, tif) := by
  have hs : ¬ tif.imageWidth * tif.imageLength % 4294967296 = 0 := by simpa using hsize
  have hne : PHOTOMETRIC_SEPARATED ≠ PHOTOMETRIC_LOGLUV := by decide
  have hne2 : PHOTOMETRIC_SEPARATED ≠ PHOTOMETRIC_RGB := by decide
  unfold TiffReader.new
  cases hn : tif.samplesPerPixel <;> cases hb : tif.bitsPerSample <;>
    cases hc : tif.compression <;> cases hst : tif.stonits <;>
    simp [hs, hplanar, hphot, hn, hb, hc, hst, TIFFGetFieldDefaulted, TIFFGetField, hne, hne2, readStonits]

/-- A constructor that returns a reader has passed the size and planar checks. -/
theorem new_ok_checks (tif : TIFF) (wod : Bool) (self r : TiffReader)
    (hr : (TiffReader.new tif wod self).1 = .ok r) :
    (tif.imageWidth * tif.imageLength) % 2 ^ 32 ≠ 0 ∧
    tif.planarConfig = PLANARCONFIG_CONTIG := by
  by_cases hs : tif.imageWidth * tif.imageLength % 4294967296 = 0
  · unfold TiffReader.new at hr
    simp [hs] at hr
  · by_cases hp : tif.planarConfig = PLANARCONFIG_CONTIG
    · exact ⟨by simpa using hs, hp⟩
    · unfold TiffReader.new at hr
      simp [hs, hp] at hr

/-- The samples-per-pixel value the constructor ends up with is a uint16 when
the tag and the prior content of the member are. -/
theorem nSamples_lt (tif : TIFF) (self : TiffReader) (ht : tif.wellTyped)
    (hself : self.wellTyped) : tif.samplesPerPixel.getD self.nSamples < 65536 := by
  obtain ⟨_, _, _, _, _, _, h7, _⟩ := ht
  obtain ⟨_, _, _, _, _, h6⟩ := hself
  cases hn : tif.samplesPerPixel with
  | none => simpa using h6
  | some n =>
    rw [hn] at h7
    simpa [fits16] using h7

/-! ## Classification: `TiffReader::TiffReader` -/

/-- C1: for every container that passes the image-size check and whose planar
configuration is not contiguous, the constructor throws the
unsupported-planar-configuration error whatever the photometric, compression,
samples-per-pixel and bits-per-sample tags are; the handle is left exactly as
it was, in particular no scanline has been requested. -/
theorem C1_planar_rejected (tif : TIFF) (wod : Bool) (self : TiffReader)
    (hsize : (tif.imageWidth * tif.imageLength) % 2 ^ 32 ≠ 0)
    (hplanar : tif.planarConfig ≠ PLANARCONFIG_CONTIG) :
    (TiffReader.new tif wod self).1 = .error .UnsupportedPlanarConfig ∧
    (TiffReader.new tif wod self).2 = tif ∧
    (TiffReader.new tif wod self).2.rowsRead = tif.rowsRead := by
  have h : TiffReader.new tif wod self = (.error .UnsupportedPlanarConfig, tif) := by
    have hs : ¬ tif.imageWidth * tif.imageLength % 4294967296 = 0 := by simpa using hsize
    unfold TiffReader.new
    simp [hs, hplanar]
  simp [h]

/-- C1 at the 2x2 RGB container stored in separate planes. -/
theorem C1_planar_rejected_witness :
    (tifPlanar.imageWidth * tifPlanar.imageLength) % 2 ^ 32 ≠ 0 ∧
    tifPlanar.planarConfig ≠ PLANARCONFIG_CONTIG ∧
    (TiffReader.new tifPlanar false self0).1 = .error .UnsupportedPlanarConfig ∧
    (TiffReader.new tifPlanar false self0).2 = tifPlanar ∧
    (TiffReader.new tifPlanar false self0).2.rowsRead = tifPlanar.rowsRead :=
  ⟨by decide, by decide, C1_planar_rejected tifPlanar false self0 (by decide) (by decide)⟩

/-- C2: for every contiguous container of legal size, the constructor
succeeds only if the photometric tag is RGB, SEPARATED (CMYK) or LOGLUV, and
for every other photometric value it throws the unsupported-photometric
error. -/
theorem C2_photometric_supported (tif : TIFF) (wod : Bool) (self : TiffReader)
    (hsize : (tif.imageWidth * tif.imageLength) % 2 ^ 32 ≠ 0)
    (hplanar : tif.planarConfig = PLANARCONFIG_CONTIG) :
    (∀ r, (TiffReader.new tif wod self).1 = .ok r →
      tif.photometric = some PHOTOMETRIC_RGB ∨
      tif.photometric = some PHOTOMETRIC_SEPARATED ∨
      tif.photometric = some PHOTOMETRIC_LOGLUV) ∧
    (∀ p, tif.photometric = some p → p ≠ PHOTOMETRIC_RGB →
      p ≠ PHOTOMETRIC_SEPARATED → p ≠ PHOTOMETRIC_LOGLUV →
      (TiffReader.new tif wod self).1 = .error .UnsupportedPhotometric) := by
  have hs : ¬ tif.imageWidth * tif.imageLength % 4294967296 = 0 := by simpa using hsize
  constructor
  · intro r hr
    cases hp : tif.photometric with
    | none =>
      unfold TiffReader.new at hr
      simp [hs, hplanar, hp, TIFFGetFieldDefaulted, TIFFGetField] at hr
    | some p =>
      by_cases h1 : p = PHOTOMETRIC_RGB
      · exact Or.inl (by rw [h1])
      · by_cases h2 : p = PHOTOMETRIC_SEPARATED
        · exact Or.inr (Or.inl (by rw [h2]))
        · by_cases h3 : p = PHOTOMETRIC_LOGLUV
          · exact Or.inr (Or.inr (by rw [h3]))
          · unfold TiffReader.new at hr
            simp [hs, hplanar, hp, TIFFGetFieldDefaulted, TIFFGetField, h1, h2, h3] at hr
  · intro p hp h1 h2 h3
    unfold TiffReader.new
    simp [hs, hplanar, hp, TIFFGetFieldDefaulted, TIFFGetField, h1, h2, h3]

/-- C2 at a 2x2 container whose photometric tag is 1 (min-is-black greyscale). -/
theorem C2_photometric_supported_witness :
    ((tifOf (some 1) none (some 1) none (some 8)).imageWidth *
      (tifOf (some 1) none (some 1) none (some 8)).imageLength) % 2 ^ 32 ≠ 0 ∧
    (tifOf (some 1) none (some 1) none (some 8)).planarConfig = PLANARCONFIG_CONTIG ∧
    (TiffReader.new (tifOf (some 1) none (some 1) none (some 8)) false self0).1 =
      .error .UnsupportedPhotometric :=
  ⟨by decide, by decide,
    (C2_photometric_supported (tifOf (some 1) none (some 1) none (some 8)) false self0
      (by decide) (by decide)).2 1 rfl (by decide) (by decide) (by decide)⟩

/-- C3: for every contiguous container of legal size whose photometric tag is
LOGLUV, the constructor succeeds if and only if the compression tag is SGILOG
or SGILOG24; with any other compression, or none recorded, it throws the
unsupported-compression error; on success the sample kind is FLOATLOGLUV. -/
theorem C3_logluv_compression (tif : TIFF) (wod : Bool) (self : TiffReader)
    (hsize : (tif.imageWidth * tif.imageLength) % 2 ^ 32 ≠ 0)
    (hplanar : tif.planarConfig = PLANARCONFIG_CONTIG)
    (hphot : tif.photometric = some PHOTOMETRIC_LOGLUV) :
    ((∃ r, (TiffReader.new tif wod self).1 = .ok r) ↔
      (tif.compression = some COMPRESSION_SGILOG ∨
       tif.compression = some COMPRESSION_SGILOG24)) ∧
    (¬ (tif.compression = some COMPRESSION_SGILOG ∨
        tif.compression = some COMPRESSION_SGILOG24) →
      (TiffReader.new tif wod self).1 = .error .UnsupportedCompression) ∧
    (∀ r, (TiffReader.new tif wod self).1 = .ok r → r.TypeOfData = .FLOATLOGLUV) := by
  have hs : ¬ tif.imageWidth * tif.imageLength % 4294967296 = 0 := by simpa using hsize
  cases hc : tif.compression with
  | none =>
    unfold TiffReader.new
    simp [hs, hplanar, hphot, hc, TIFFGetFieldDefaulted, TIFFGetField, COMPRESSION_NONE, COMPRESSION_SGILOG,
      COMPRESSION_SGILOG24]
  | some c =>
    by_cases h1 : c = COMPRESSION_SGILOG
    · unfold TiffReader.new
      simp [hs, hplanar, hphot, hc, TIFFGetFieldDefaulted, TIFFGetField, h1]
    · by_cases h2 : c = COMPRESSION_SGILOG24
      · unfold TiffReader.new
        simp [hs, hplanar, hphot, hc, TIFFGetFieldDefaulted, TIFFGetField, h2]
      · unfold TiffReader.new
        simp [hs, hplanar, hphot, hc, TIFFGetFieldDefaulted, TIFFGetField, h1, h2]

/-- C3 at the 2x2 LogLuv container compressed with plain DEFLATE. -/
theorem C3_logluv_compression_witness :
    ((tifOf (some PHOTOMETRIC_LOGLUV) (some COMPRESSION_DEFLATE) (some 3) none none).imageWidth *
      (tifOf (some PHOTOMETRIC_LOGLUV) (some COMPRESSION_DEFLATE) (some 3) none none).imageLength)
        % 2 ^ 32 ≠ 0 ∧
    (tifOf (some PHOTOMETRIC_LOGLUV) (some COMPRESSION_DEFLATE) (some 3) none none).planarConfig =
      PLANARCONFIG_CONTIG ∧
    (tifOf (some PHOTOMETRIC_LOGLUV) (some COMPRESSION_DEFLATE) (some 3) none none).photometric =
      some PHOTOMETRIC_LOGLUV ∧
    (TiffReader.new (tifOf (some PHOTOMETRIC_LOGLUV) (some COMPRESSION_DEFLATE) (some 3) none none)
      false self0).1 = .error .UnsupportedCompression :=
  ⟨by decide, by decide, by decide,
    (C3_logluv_compression
      (tifOf (some PHOTOMETRIC_LOGLUV) (some COMPRESSION_DEFLATE) (some 3) none none) false self0
      (by decide) (by decide) (by decide)).2.1 (by decide)⟩

/-- C4: for every contiguous RGB container of legal size whose base channel
count (samples per pixel minus extra samples, as the constructor computes it)
is 3, the constructor throws the unsupported-bit-depth error exactly when the
bits-per-sample tag is missing or is not 8, 16 or 32; otherwise it succeeds,
with sample kind BYTE for 8, WORD for 16 and FLOAT for 32. -/
theorem C4_rgb_bit_depth (tif : TIFF) (wod : Bool) (self : TiffReader)
    (hsize : (tif.imageWidth * tif.imageLength) % 2 ^ 32 ≠ 0)
    (hplanar : tif.planarConfig = PLANARCONFIG_CONTIG)
    (hphot : tif.photometric = some PHOTOMETRIC_RGB)
    (hbase : baseChannels (tif.samplesPerPixel.getD self.nSamples)
      (tif.extraSamples.getD 0) = 3) :
    ((TiffReader.new tif wod self).1 = .error .UnsupportedBitDepth ↔
      (tif.bitsPerSample = none ∨
       ∃ b, tif.bitsPerSample = some b ∧ b ≠ 8 ∧ b ≠ 16 ∧ b ≠ 32)) ∧
    (tif.bitsPerSample = some 8 →
      ∃ r, (TiffReader.new tif wod self).1 = .ok r ∧ r.TypeOfData = .BYTE) ∧
    (tif.bitsPerSample = some 16 →
      ∃ r, (TiffReader.new tif wod self).1 = .ok r ∧ r.TypeOfData = .WORD) ∧
    (tif.bitsPerSample = some 32 →
      ∃ r, (TiffReader.new tif wod self).1 = .ok r ∧ r.TypeOfData = .FLOAT) := by
  have hnew := new_rgb tif wod self hsize hplanar hphot
  rw [hnew]
  cases hb : tif.bitsPerSample with
  | none => simp [hbase]
  | some b =>
    by_cases h8 : b = 8
    · simp [hbase, h8, typeOfBps]
    · by_cases h16 : b = 16
      · simp [hbase, h16, typeOfBps]
      · by_cases h32 : b = 32
        · simp [hbase, h32, typeOfBps]
        · simp [hbase, h8, h16, h32]

/-- C4 at the 2x2 RGB container with 3 samples per pixel and 12 bits per sample. -/
theorem C4_rgb_bit_depth_witness :
    ((tifOf (some PHOTOMETRIC_RGB) none (some 3) none (some 12)).imageWidth *
      (tifOf (some PHOTOMETRIC_RGB) none (some 3) none (some 12)).imageLength) % 2 ^ 32 ≠ 0 ∧
    (tifOf (some PHOTOMETRIC_RGB) none (some 3) none (some 12)).planarConfig =
      PLANARCONFIG_CONTIG ∧
    (tifOf (some PHOTOMETRIC_RGB) none (some 3) none (some 12)).photometric =
      some PHOTOMETRIC_RGB ∧
    baseChannels ((tifOf (some PHOTOMETRIC_RGB) none (some 3) none (some 12)).samplesPerPixel.getD
      self0.nSamples)
      ((tifOf (some PHOTOMETRIC_RGB) none (some 3) none (some 12)).extraSamples.getD 0) = 3 ∧
    (TiffReader.new (tifOf (some PHOTOMETRIC_RGB) none (some 3) none (some 12)) false self0).1 =
      .error .UnsupportedBitDepth :=
  ⟨by decide, by decide, by decide, by decide,
    (C4_rgb_bit_depth (tifOf (some PHOTOMETRIC_RGB) none (some 3) none (some 12)) false self0
      (by decide) (by decide) (by decide) (by decide)).1.mpr
      (Or.inr ⟨12, by decide, by decide, by decide, by decide⟩)⟩

/-- C5: for every contiguous RGB container of legal size, if samples per pixel
minus the extra-samples count (0 when the tag is missing) is not 3, the
constructor throws the unsupported-channel-count error, and it does so whatever
the bits-per-sample tag is, present or not, legal or not: the channel count is
checked first.  The difference is the one the constructor stores in its uint16
member; it is the plain difference whenever the extra samples do not exceed
the samples per pixel. -/
theorem C5_rgb_channel_count (tif : TIFF) (wod : Bool) (self : TiffReader)
    (hsize : (tif.imageWidth * tif.imageLength) % 2 ^ 32 ≠ 0)
    (hplanar : tif.planarConfig = PLANARCONFIG_CONTIG)
    (hphot : tif.photometric = some PHOTOMETRIC_RGB) :
    (baseChannels (tif.samplesPerPixel.getD self.nSamples) (tif.extraSamples.getD 0) ≠ 3 →
      (TiffReader.new tif wod self).1 = .error .UnsupportedChannelCount) ∧
    (∀ n, tif.samplesPerPixel = some n → n < 65536 → tif.extraSamples.getD 0 ≤ n →
      n - tif.extraSamples.getD 0 ≠ 3 →
      (TiffReader.new tif wod self).1 = .error .UnsupportedChannelCount) := by
  have hnew := new_rgb tif wod self hsize hplanar hphot
  have h1 : baseChannels (tif.samplesPerPixel.getD self.nSamples) (tif.extraSamples.getD 0) ≠ 3 →
      (TiffReader.new tif wod self).1 = .error .UnsupportedChannelCount := by
    intro hb
    rw [hnew]
    simp [hb]
  refine ⟨h1, ?_⟩
  intro n hn hlt hle hne
  apply h1
  rw [hn, Option.getD_some, baseChannels_eq_sub n _ hle hlt]
  exact hne

/-- C5 at the 2x2 RGB container with 4 samples per pixel, no extra sample and 12 bits per sample: the channel count is reported, not the bit depth. -/
theorem C5_rgb_channel_count_witness :
    ((tifOf (some PHOTOMETRIC_RGB) none (some 4) none (some 12)).imageWidth *
      (tifOf (some PHOTOMETRIC_RGB) none (some 4) none (some 12)).imageLength) % 2 ^ 32 ≠ 0 ∧
    (tifOf (some PHOTOMETRIC_RGB) none (some 4) none (some 12)).planarConfig =
      PLANARCONFIG_CONTIG ∧
    (tifOf (some PHOTOMETRIC_RGB) none (some 4) none (some 12)).photometric =
      some PHOTOMETRIC_RGB ∧
    (TiffReader.new (tifOf (some PHOTOMETRIC_RGB) none (some 4) none (some 12)) false self0).1 =
      .error .UnsupportedChannelCount :=
  ⟨by decide, by decide, by decide,
    (C5_rgb_channel_count (tifOf (some PHOTOMETRIC_RGB) none (some 4) none (some 12)) false self0
      (by decide) (by decide) (by decide)).1 (by decide)⟩

/-- C6, as stated, fails: the 2x2 RGB container with 5 samples per pixel, 2
extra samples and 8 bits per sample is not rejected; the constructor returns
a BYTE RGB reader with 5 samples per pixel and no alpha. -/
theorem C6_counterexample :
    (tifOf (some PHOTOMETRIC_RGB) none (some 5) (some 2) (some 8)).extraSamples = some 2 ∧
    ∃ r, (TiffReader.new (tifOf (some PHOTOMETRIC_RGB) none (some 5) (some 2) (some 8))
        false self0).1 = .ok r ∧
      r.ColorSpace = .RGB ∧ r.TypeOfData = .BYTE ∧ r.nSamples = 5 ∧ r.has_alpha = false := by
  refine ⟨rfl, ?_⟩
  rw [new_rgb _ _ _ (by decide) (by decide) (by decide)]
  simp [tifOf, baseChannels, typeOfBps]

/-- C6, amended: for every contiguous RGB container of legal size whose
extra-samples count is greater than 1, the count itself is never a reason to
reject: the constructor throws the unsupported-channel-count error when the
base channel count is not 3, and when it is 3 and bits per sample is 8, 16 or
32 it returns an RGB reader without alpha that keeps all the samples per
pixel. -/
theorem C6_extra_samples_accepted (tif : TIFF) (wod : Bool) (self : TiffReader) (e : Nat)
    (hsize : (tif.imageWidth * tif.imageLength) % 2 ^ 32 ≠ 0)
    (hplanar : tif.planarConfig = PLANARCONFIG_CONTIG)
    (hphot : tif.photometric = some PHOTOMETRIC_RGB)
    (he : tif.extraSamples = some e) (hgt : 1 < e) :
    (baseChannels (tif.samplesPerPixel.getD self.nSamples) e ≠ 3 →
      (TiffReader.new tif wod self).1 = .error .UnsupportedChannelCount) ∧
    (baseChannels (tif.samplesPerPixel.getD self.nSamples) e = 3 →
      ∀ b, tif.bitsPerSample = some b → (b = 8 ∨ b = 16 ∨ b = 32) →
      ∃ r, (TiffReader.new tif wod self).1 = .ok r ∧ r.ColorSpace = .RGB ∧
        r.TypeOfData = typeOfBps b ∧ r.has_alpha = false ∧
        r.nSamples = tif.samplesPerPixel.getD self.nSamples) := by
  have hnew := new_rgb tif wod self hsize hplanar hphot
  rw [he, Option.getD_some] at hnew
  have hne1 : e ≠ 1 := by omega
  constructor
  · intro hb
    rw [hnew]
    simp [hb]
  · intro hb b hbps hlegal
    rw [hnew, hbps]
    rcases hlegal with h | h | h <;> simp [hb, h, hne1]

/-- C6, amended, at the 2x2 RGB container with 5 samples per pixel, 2 extra samples and 8 bits per sample. -/
theorem C6_extra_samples_accepted_witness :
    ((tifOf (some PHOTOMETRIC_RGB) none (some 5) (some 2) (some 8)).imageWidth *
      (tifOf (some PHOTOMETRIC_RGB) none (some 5) (some 2) (some 8)).imageLength) % 2 ^ 32 ≠ 0 ∧
    (1 : Nat) < 2 ∧
    ∃ r, (TiffReader.new (tifOf (some PHOTOMETRIC_RGB) none (some 5) (some 2) (some 8))
        false self0).1 = .ok r ∧ r.ColorSpace = .RGB ∧
      r.TypeOfData = typeOfBps 8 ∧ r.has_alpha = false ∧
      r.nSamples = (tifOf (some PHOTOMETRIC_RGB) none (some 5) (some 2)
        (some 8)).samplesPerPixel.getD self0.nSamples :=
  ⟨by decide, by decide,
    (C6_extra_samples_accepted (tifOf (some PHOTOMETRIC_RGB) none (some 5) (some 2) (some 8))
      false self0 2 (by decide) (by decide) (by decide) rfl (by decide)).2 (by decide) 8 rfl
      (Or.inl rfl)⟩

/-- C7, the code at the failing input: the 2x2 CMYK container with 4 samples
per pixel and 12 bits per sample is not rejected; the constructor returns a
CMYK reader whose sample kind is FLOAT, the default label of the switch. -/
theorem C7_cmyk_bit_depth_unchecked :
    ∃ r, (TiffReader.new (tifOf (some PHOTOMETRIC_SEPARATED) none (some 4) none (some 12))
        false self0).1 = .ok r ∧
      r.ColorSpace = .CMYK ∧ r.bps = 12 ∧ r.TypeOfData = .FLOAT := by
  rw [new_cmyk _ _ _ (by decide) (by decide) (by decide)]
  simp [tifOf, typeOfBps]

/-- C8, as stated, fails twice: the RGB container with 5 samples per pixel of
which 2 are extra is classified with 5 samples per pixel and no alpha, and the
CMYK container with 4 samples per pixel (the prior content of has_alpha being
false) is classified with 4 samples per pixel and no alpha. -/
theorem C8_counterexample :
    (∃ r, (TiffReader.new (tifOf (some PHOTOMETRIC_RGB) none (some 5) (some 2) (some 8))
        false self0).1 = .ok r ∧ r.ColorSpace = .RGB ∧
      r.nSamples - (if r.has_alpha then 1 else 0) ≠ 3) ∧
    (∃ r, (TiffReader.new (tifOf (some PHOTOMETRIC_SEPARATED) none (some 4) none (some 8))
        false self0).1 = .ok r ∧ r.ColorSpace = .CMYK ∧
      r.nSamples - (if r.has_alpha then 1 else 0) ≠ 3) := by
  constructor
  · rw [new_rgb _ _ _ (by decide) (by decide) (by decide)]
    simp [tifOf, baseChannels, typeOfBps]
  · rw [new_cmyk _ _ _ (by decide) (by decide) (by decide)]
    simp [tifOf, self0]

/-- C8, amended: every reader the constructor returns for an RGB container
with at most one extra sample (values being of their C types) has colour space
RGB and satisfies samplesPerPixel - (hasAlpha ? 1 : 0) = 3. -/
theorem C8_rgb_samples_invariant (tif : TIFF) (wod : Bool) (self r : TiffReader)
    (ht : tif.wellTyped) (hself : self.wellTyped)
    (hphot : tif.photometric = some PHOTOMETRIC_RGB)
    (hextra : tif.extraSamples.getD 0 ≤ 1)
    (hr : (TiffReader.new tif wod self).1 = .ok r) :
    r.ColorSpace = .RGB ∧ r.nSamples - (if r.has_alpha then 1 else 0) = 3 := by
  obtain ⟨hsize, hplanar⟩ := new_ok_checks tif wod self r hr
  have hn := nSamples_lt tif self ht hself
  rw [new_rgb tif wod self hsize hplanar hphot] at hr
  by_cases hb : baseChannels (tif.samplesPerPixel.getD self.nSamples)
      (tif.extraSamples.getD 0) = 3
  · cases hbps : tif.bitsPerSample with
    | none => simp [hb, hbps] at hr
    | some b =>
      by_cases hlegal : b ≠ 8 ∧ b ≠ 16 ∧ b ≠ 32
      · simp [hb, hbps, hlegal] at hr
      · simp only [hb, hbps, hlegal, ne_eq, not_true_eq_false, if_false] at hr
        injection hr with hr
        subst hr
        refine ⟨rfl, ?_⟩
        simp only [decide_eq_true_eq]
        unfold baseChannels at hb
        split <;> omega
  · simp [hb] at hr

/-- C8, amended, at the 2x2 16-bit RGB container with 4 samples per pixel of which 1 is extra. -/
theorem C8_rgb_samples_invariant_witness :
    (tifOf (some PHOTOMETRIC_RGB) none (some 4) (some 1) (some 16)).wellTyped ∧
    self0.wellTyped ∧
    (tifOf (some PHOTOMETRIC_RGB) none (some 4) (some 1) (some 16)).extraSamples.getD 0 ≤ 1 ∧
    (TiffReader.new (tifOf (some PHOTOMETRIC_RGB) none (some 4) (some 1) (some 16)) true self0).1 =
      .ok { width := 2, height := 2, comp := 1, phot := 2, TypeOfData := .WORD,
            ColorSpace := .RGB, bps := 16, nSamples := 4, has_alpha := true,
            stonits := 1, writeOnDisk := true } ∧
    (4 : Nat) - (if true = true then 1 else 0) = 3 :=
  ⟨by decide, by decide, by decide, rfl,
    (C8_rgb_samples_invariant (tifOf (some PHOTOMETRIC_RGB) none (some 4) (some 1) (some 16))
      true self0
      { width := 2, height := 2, comp := 1, phot := 2, TypeOfData := .WORD,
        ColorSpace := .RGB, bps := 16, nSamples := 4, has_alpha := true,
        stonits := 1, writeOnDisk := true }
      (by decide) (by decide) (by decide) (by decide) rfl).2⟩

/-! ## Profile lookup and transform construction -/

/-- C9, as stated, fails: a CMYK container whose ICC tag is missing, and one
whose ICC blob does not parse, both carrying the chromaticity and white-point
tags, get the RGB profile built from those tags, and the full decode builds a
transform and sets doTransform. -/
theorem C9_counterexample :
    (tifColorimetric none).iccProfile = none ∧
    cmsOpenProfileFromMem cmsNoParse [9, 9] = none ∧
    GetTIFFProfile cmsNoParse (tifColorimetric none) = some (.rgb [7, 8] [1, 2, 3, 4, 5, 6] []) ∧
    GetTIFFProfile cmsNoParse (tifColorimetric (some [9, 9])) =
      some (.rgb [7, 8] [1, 2, 3, 4, 5, 6] []) ∧
    (∃ r, (TiffReader.new (tifColorimetric (some [9, 9])) false self0).1 = .ok r ∧
      TiffReader.readIntoPfsFrame.doTransform cmsNoParse r (tifColorimetric (some [9, 9])) = true ∧
      TiffReader.readIntoPfsFrame.xform cmsNoParse r (tifColorimetric (some [9, 9])) =
        some ⟨.rgb [7, 8] [1, 2, 3, 4, 5, 6] [], .TYPE_CMYK_8, .sRGB, .TYPE_RGBA_8,
          INTENT_PERCEPTUAL, 0⟩) := by
  refine ⟨rfl, rfl, rfl, rfl, ?_⟩
  rw [new_cmyk _ _ _ (by decide) (by decide) (by decide)]
  exact ⟨_, rfl, rfl, rfl⟩

/-- C9, amended: for every container whose embedded ICC profile is missing or
does not parse, (a) if the chromaticity tag or the white-point tag is missing
too, GetTIFFProfile returns no profile and both decodes have no transform, so
doTransform is false and the format-native path runs; (b) if both tags are
present, GetTIFFProfile returns what cmsCreateRGBProfile makes of them. -/
theorem C9_profile_fallback (cms : Lcms) (tif : TIFF) (self : TiffReader)
    (hicc : tif.iccProfile = none ∨
      ∃ bytes, tif.iccProfile = some bytes ∧ cmsOpenProfileFromMem cms bytes = none) :
    ((tif.primaryChromaticities = none ∨ tif.whitePoint = none) →
      GetTIFFProfile cms tif = none ∧
      TiffReader.readIntoPfsFrame.xform cms self tif = none ∧
      TiffReader.readIntoPfsFrame.doTransform cms self tif = false ∧
      TiffReader.readIntoQImage.xform cms self tif = none) ∧
    (∀ chr wp, tif.primaryChromaticities = some chr → tif.whitePoint = some wp →
      GetTIFFProfile cms tif =
        cmsCreateRGBProfile cms (wp.take 2) (chr.take 6)
          (tif.transferFunction.map (List.take 256))) := by
  have hemb : (match tif.iccProfile with
      | some bytes => cmsOpenProfileFromMem cms bytes
      | none => none) = none := by
    rcases hicc with h | ⟨bytes, h, hb⟩
    · rw [h]
    · rw [h]; exact hb
  constructor
  · intro hcol
    have hnone : GetTIFFProfile cms tif = none := by
      unfold GetTIFFProfile
      simp only [hemb]
      rcases hcol with h | h
      · rw [h]
      · rw [h]
        cases tif.primaryChromaticities <;> rfl
    simp [TiffReader.readIntoPfsFrame.doTransform, TiffReader.readIntoPfsFrame.xform,
      TiffReader.readIntoQImage.xform, hnone]
  · intro chr wp hchr hwp
    unfold GetTIFFProfile
    simp only [hemb, hchr, hwp]

/-- C9, amended, at the 2x2 CMYK container with neither an ICC profile nor colorimetric tags. -/
theorem C9_profile_fallback_witness :
    ((tifOf (some PHOTOMETRIC_SEPARATED) none (some 4) none (some 8)).iccProfile = none ∨
      ∃ bytes, (tifOf (some PHOTOMETRIC_SEPARATED) none (some 4) none (some 8)).iccProfile =
        some bytes ∧ cmsOpenProfileFromMem cmsAccepting bytes = none) ∧
    GetTIFFProfile cmsAccepting (tifOf (some PHOTOMETRIC_SEPARATED) none (some 4) none (some 8)) =
      none ∧
    TiffReader.readIntoPfsFrame.doTransform cmsAccepting self0
      (tifOf (some PHOTOMETRIC_SEPARATED) none (some 4) none (some 8)) = false :=
  ⟨Or.inl rfl,
    ((C9_profile_fallback cmsAccepting
      (tifOf (some PHOTOMETRIC_SEPARATED) none (some 4) none (some 8)) self0
      (Or.inl rfl)).1 (Or.inl rfl)).1,
    ((C9_profile_fallback cmsAccepting
      (tifOf (some PHOTOMETRIC_SEPARATED) none (some 4) none (some 8)) self0
      (Or.inl rfl)).1 (Or.inl rfl)).2.2.1⟩

/-- C10, as stated, fails: in readIntoPfsFrame, for the 8-bit RGB container
with a valid embedded profile and no alpha, the transform is built with output
layout TYPE_RGB_8, not TYPE_RGBA_8; and for the one with alpha (4 samples per
pixel, 1 extra) it is built with input layout TYPE_RGB_8, not TYPE_RGBA_8. -/
theorem C10_counterexample :
    (∃ r, (TiffReader.new (tifRgb8Icc 3 none) false self0).1 = .ok r ∧
      r.ColorSpace = .RGB ∧ r.TypeOfData = .BYTE ∧ r.has_alpha = false ∧
      TiffReader.readIntoPfsFrame.xform cmsAccepting r (tifRgb8Icc 3 none) =
        some ⟨.fromMem [0, 1, 2, 3], .TYPE_RGB_8, .sRGB, .TYPE_RGB_8, INTENT_PERCEPTUAL, 0⟩) ∧
    (∃ r, (TiffReader.new (tifRgb8Icc 4 (some 1)) false self0).1 = .ok r ∧
      r.ColorSpace = .RGB ∧ r.TypeOfData = .BYTE ∧ r.has_alpha = true ∧
      TiffReader.readIntoPfsFrame.xform cmsAccepting r (tifRgb8Icc 4 (some 1)) =
        some ⟨.fromMem [0, 1, 2, 3], .TYPE_RGB_8, .sRGB, .TYPE_RGB_8, INTENT_PERCEPTUAL, 0⟩) ∧
    CmsFormat.TYPE_RGB_8 ≠ CmsFormat.TYPE_RGBA_8 := by
  refine ⟨?_, ?_, by decide⟩
  · rw [new_rgb _ _ _ (by decide) (by decide) (by decide)]
    exact ⟨_, rfl, rfl, rfl, rfl, rfl⟩
  · rw [new_rgb _ _ _ (by decide) (by decide) (by decide)]
    exact ⟨_, rfl, rfl, rfl, rfl, rfl⟩

/-- C10, amended: when GetTIFFProfile finds a profile and the reader is RGB with
BYTE samples, the full decode (readIntoPfsFrame) without alpha asks for the
transform from that profile to sRGB with 8-bit RGB input and 8-bit RGB output,
perceptual intent; it is the thumbnail decode (readIntoQImage) that asks for
8-bit RGB input with 8-bit RGBA output without alpha and for 8-bit RGBA input
with 8-bit RGBA output with alpha. -/
theorem C10_rgb_byte_layouts (cms : Lcms) (tif : TIFF) (self : TiffReader)
    (hIn : CmsProfile) (hprof : GetTIFFProfile cms tif = some hIn)
    (hcs : self.ColorSpace = .RGB) (hty : self.TypeOfData = .BYTE) :
    (self.has_alpha = false →
      TiffReader.readIntoPfsFrame.xform cms self tif =
        cmsCreateTransform cms hIn .TYPE_RGB_8 .sRGB .TYPE_RGB_8 INTENT_PERCEPTUAL 0) ∧
    (self.has_alpha = false →
      TiffReader.readIntoQImage.xform cms self tif =
        cmsCreateTransform cms hIn .TYPE_RGB_8 .sRGB .TYPE_RGBA_8 INTENT_PERCEPTUAL 0) ∧
    (self.has_alpha = true →
      TiffReader.readIntoQImage.xform cms self tif =
        cmsCreateTransform cms hIn .TYPE_RGBA_8 .sRGB .TYPE_RGBA_8 INTENT_PERCEPTUAL 0) := by
  refine ⟨?_, ?_, ?_⟩
  · intro _
    simp [TiffReader.readIntoPfsFrame.xform, TiffReader.readIntoPfsFrame.cmsFormats, hprof,
      hcs, hty, cmsCreate_sRGBProfile]
  · intro ha
    simp [TiffReader.readIntoQImage.xform, TiffReader.readIntoQImage.cmsFormats, hprof,
      hcs, hty, ha, cmsCreate_sRGBProfile]
  · intro ha
    simp [TiffReader.readIntoQImage.xform, TiffReader.readIntoQImage.cmsFormats, hprof,
      hcs, hty, ha, cmsCreate_sRGBProfile]

/-- C10, amended, at the 2x2 8-bit RGB container with an embedded profile and no alpha. -/
theorem C10_rgb_byte_layouts_witness :
    GetTIFFProfile cmsAccepting (tifRgb8Icc 3 none) = some (.fromMem [0, 1, 2, 3]) ∧
    TiffReader.readIntoPfsFrame.xform cmsAccepting
      { self0 with ColorSpace := .RGB, TypeOfData := .BYTE, nSamples := 3 } (tifRgb8Icc 3 none) =
      cmsCreateTransform cmsAccepting (.fromMem [0, 1, 2, 3]) .TYPE_RGB_8 .sRGB .TYPE_RGB_8
        INTENT_PERCEPTUAL 0 :=
  ⟨rfl,
    (C10_rgb_byte_layouts cmsAccepting (tifRgb8Icc 3 none)
      { self0 with ColorSpace := .RGB, TypeOfData := .BYTE, nSamples := 3 }
      (.fromMem [0, 1, 2, 3]) rfl rfl rfl).1 rfl⟩

/-! ## Lemmas on the scanline loop of the full decode -/

theorem getD_set' {α : Type} (l : List α) (i k : Nat) (a d : α) :
    (l.set i a).getD k d = if i = k ∧ i < l.length then a else l.getD k d := by
  simp only [List.getD_eq_getElem?_getD, List.getElem?_set]
  by_cases h : i = k
  · subst h
    by_cases hl : i < l.length
    · simp [hl]
    · simp [hl]
      have : l[i]? = none := by simp; omega
      simp [this]
  · simp [h]

theorem foldl_set_length {α : Type} (f : Nat → Nat) (v : Nat → α) (l : List Nat) (P : List α) :
    (l.foldl (fun P i => P.set (f i) (v i)) P).length = P.length := by
  induction l generalizing P with
  | nil => rfl
  | cons x xs ih => simp [List.foldl_cons, ih]

theorem storeRow_length (plane : List F32) (row W : Nat) (v : Nat → F32) :
    (storeRow plane row W v).length = plane.length := by
  unfold storeRow
  exact foldl_set_length _ _ _ _

theorem storeRow_getD (plane : List F32) (row W : Nat) (v : Nat → F32) (k : Nat) (d : F32)
    (hw : row * W + W ≤ 2 ^ 32) (hl : row * W + W ≤ plane.length) :
    (storeRow plane row W v).getD k d =
      if row * W ≤ k ∧ k < row * W + W then v (k - row * W) else plane.getD k d := by
  unfold storeRow
  generalize row * W = a at *
  have key : ∀ n, n ≤ W →
      ((List.range n).foldl (fun P i => P.set ((a + i) % 2 ^ 32) (v i)) plane).getD k d =
        if a ≤ k ∧ k < a + n then v (k - a) else plane.getD k d := by
    intro n
    induction n with
    | zero =>
      intro _
      have : ¬ (a ≤ k ∧ k < a + 0) := by omega
      rw [List.range_zero, List.foldl_nil, if_neg this]
    | succ n ih =>
      intro hn
      rw [List.range_succ, List.foldl_append, List.foldl_cons, List.foldl_nil, getD_set',
        foldl_set_length, ih (by omega)]
      have hmod : (a + n) % 2 ^ 32 = a + n := by omega
      rw [hmod]
      by_cases h1 : a + n = k
      · have e : k - a = n := by omega
        rw [if_pos ⟨h1, by omega⟩, if_pos (by omega), e]
      · rw [if_neg (fun h => h1 h.1)]
        by_cases h2 : a ≤ k ∧ k < a + n
        · rw [if_pos h2, if_pos (by omega)]
        · rw [if_neg h2, if_neg (by omega)]
  exact key W (Nat.le_refl W)

theorem toInt32_toNat (w : Nat) (h : w < 2 ^ 31) : (toInt32 w).toNat = w := by
  unfold toInt32
  have : w % 2 ^ 32 = w := by omega
  rw [this, if_pos h]
  simp

theorem loop8_ends (a : Bool) (size n : Nat) (hn : 1 ≤ n) (hsz : size + n ≤ 2 ^ 32) :
    ∀ (fuel i : Nat) (inp out : List Nat), size - i < fuel →
      ∃ res, transform_to_rgb.loop a size n fuel i inp out = some res := by
  intro fuel
  induction fuel with
  | zero => intro i inp out h; omega
  | succ fuel ih =>
    intro i inp out hf
    unfold transform_to_rgb.loop
    by_cases hlt : i < size
    · rw [if_pos hlt]
      have hmod : (i + n) % 2 ^ 32 = i + n := by omega
      simp only [hmod]
      exact ih _ _ _ (by omega)
    · rw [if_neg hlt]
      exact ⟨out, rfl⟩

theorem loop16_ends (a : Bool) (bound n : Nat) (hn : 1 ≤ n) (hsz : bound + n ≤ 2 ^ 32) :
    ∀ (fuel i : Nat) (inp out : List Nat), bound - i < fuel →
      ∃ res, transform_to_rgb_16.loop a bound n fuel i inp out = some res := by
  intro fuel
  induction fuel with
  | zero => intro i inp out h; omega
  | succ fuel ih =>
    intro i inp out hf
    unfold transform_to_rgb_16.loop
    by_cases hlt : i < bound
    · rw [if_pos hlt]
      have hmod : (i + n) % 2 ^ 32 = i + n := by omega
      simp only [hmod]
      exact ih _ _ _ (by omega)
    · rw [if_neg hlt]
      exact ⟨out, rfl⟩

theorem active_some (cms : Lcms) (self : TiffReader) (xform : Option CmsTransform)
    (size : Nat) (hterm : fallbackEnds self xform size) (buf buf2 : List Nat) :
    ∃ r, TiffReader.readIntoPfsFrame.active cms self xform size buf buf2 = some r := by
  unfold TiffReader.readIntoPfsFrame.active
  cases hT : self.TypeOfData with
  | FLOAT => exact ⟨_, rfl⟩
  | FLOATLOGLUV => exact ⟨_, rfl⟩
  | WORD =>
    cases hx : xform with
    | some t => exact ⟨_, rfl⟩
    | none =>
      by_cases hc : self.ColorSpace = .CMYK
      · obtain ⟨hn, hs⟩ := (hterm hx hc).2 hT
        obtain ⟨res, hres⟩ := loop16_ends true (size / 2) self.nSamples hn hs
          (2 ^ 32 + 1) 0 buf buf (by omega)
        simp only [hc, if_true, transform_to_rgb_16, hres]
        exact ⟨_, rfl⟩
      · simp only [hc, if_false]
        exact ⟨_, rfl⟩
  | BYTE =>
    cases hx : xform with
    | some t => exact ⟨_, rfl⟩
    | none =>
      by_cases hc : self.ColorSpace = .CMYK
      · obtain ⟨hn, hs⟩ := (hterm hx hc).1 hT
        obtain ⟨res, hres⟩ := loop8_ends true size self.nSamples hn hs
          (2 ^ 32 + 1) 0 buf buf (by omega)
        simp only [hc, if_true, transform_to_rgb, hres]
        exact ⟨_, rfl⟩
      · simp only [hc, if_false]
        exact ⟨_, rfl⟩

theorem row_bound (r H W : Nat) (h : r < H) : r * W + W ≤ H * W := by
  have := Nat.mul_le_mul_right W (Nat.succ_le_of_lt h)
  rw [Nat.succ_mul] at this
  exact this

/-- One row, given what the transform stage answers. -/
theorem row_of_active (cms : Lcms) (libm : Libm) (self : TiffReader)
    (xform : Option CmsTransform) (size : Nat) (st : ReadState) (r : Nat)
    (act b b2 : List Nat)
    (h : TiffReader.readIntoPfsFrame.active cms self xform size
      (TIFFReadScanline st.tif st.buf r).2.1 st.buf2 = some (act, b, b2)) :
    ∃ st', TiffReader.readIntoPfsFrame.row cms libm self xform size st r = some st' ∧
      st'.tif = (TIFFReadScanline st.tif st.buf r).2.2 ∧
      ∀ c, c < 3 → st'.chan c = storeRow (st.chan c) r (toInt32 self.width).toNat
        (fun i => TiffReader.readIntoPfsFrame.sample libm self.TypeOfData
          (act.getD (i * self.nSamples + c) 0)) := by
  unfold TiffReader.readIntoPfsFrame.row
  simp only [h]
  refine ⟨_, rfl, rfl, ?_⟩
  intro c hc
  interval_cases c <;> simp [ReadState.chan]

theorem TIFFReadScanline_tif (tif : TIFF) (buf : List Nat) (r : Nat) :
    (TIFFReadScanline tif buf r).2.2 = { tif with rowsRead := r :: tif.rowsRead } := by
  unfold TIFFReadScanline
  cases tif.scanlines.getD r none <;> rfl

theorem TIFFReadScanline_buf (tif : TIFF) (buf dat : List Nat) (r : Nat)
    (h : tif.scanlines.getD r none = some dat) :
    (TIFFReadScanline tif buf r).2.1 = dat := by
  unfold TIFFReadScanline
  rw [h]

/-- The loop ends whenever the fallback loops do, whatever the scanline reads
answer, and every row listed is requested, in order. -/
theorem rows_some (cms : Lcms) (libm : Libm) (self : TiffReader)
    (xform : Option CmsTransform) (size : Nat) (hterm : fallbackEnds self xform size) :
    ∀ (rs : List Nat) (st : ReadState),
      ∃ st', TiffReader.readIntoPfsFrame.rows cms libm self xform size st rs = some st' ∧
        st'.tif = { st.tif with rowsRead := rs.reverse ++ st.tif.rowsRead } := by
  intro rs
  induction rs with
  | nil =>
    intro st
    exact ⟨st, rfl, by simp⟩
  | cons r rest ih =>
    intro st
    obtain ⟨⟨act, b, b2⟩, hact⟩ := active_some cms self xform size hterm
      (TIFFReadScanline st.tif st.buf r).2.1 st.buf2
    obtain ⟨st1, h1, htif, _⟩ := row_of_active cms libm self xform size st r act b b2 hact
    obtain ⟨st', h', htif'⟩ := ih st1
    refine ⟨st', ?_, ?_⟩
    · unfold TiffReader.readIntoPfsFrame.rows
      rw [h1]
      exact h'
    · rw [htif', htif, TIFFReadScanline_tif]
      simp

/-- The channels when the listed rows, all readable, have been decoded. -/
theorem rows_planes (cms : Lcms) (libm : Libm) (self : TiffReader)
    (xform : Option CmsTransform) (size : Nat) (scan : List (Option (List Nat)))
    (H L : Nat) (data actOf : Nat → List Nat) (d : F32)
    (hread : ∀ r, r < H → scan.getD r none = some (data r))
    (hact : ∀ r, r < H → ∀ b2, ∃ b b2', TiffReader.readIntoPfsFrame.active cms self xform size
      (data r) b2 = some (actOf r, b, b2'))
    (hL : H * (toInt32 self.width).toNat ≤ L)
    (h32 : H * (toInt32 self.width).toNat ≤ 2 ^ 32) :
    ∀ (rs : List Nat) (st : ReadState), rs.Nodup → (∀ r, r ∈ rs → r < H) →
      st.tif.scanlines = scan → (∀ c, c < 3 → (st.chan c).length = L) →
      ∃ st', TiffReader.readIntoPfsFrame.rows cms libm self xform size st rs = some st' ∧
        st'.tif = { st.tif with rowsRead := rs.reverse ++ st.tif.rowsRead } ∧
        (∀ c, c < 3 → (st'.chan c).length = L) ∧
        (∀ c, c < 3 → ∀ r, r ∈ rs → ∀ j, j < (toInt32 self.width).toNat →
          (st'.chan c).getD (r * (toInt32 self.width).toNat + j) d =
            TiffReader.readIntoPfsFrame.sample libm self.TypeOfData
              ((actOf r).getD (j * self.nSamples + c) 0)) ∧
        (∀ c, c < 3 → ∀ k,
          (∀ r, r ∈ rs → k < r * (toInt32 self.width).toNat ∨
            r * (toInt32 self.width).toNat + (toInt32 self.width).toNat ≤ k) →
          (st'.chan c).getD k d = (st.chan c).getD k d) := by
  intro rs
  induction rs with
  | nil =>
    intro st _ _ _ hlen
    refine ⟨st, rfl, by simp, hlen, ?_, ?_⟩
    · intro c _ r hr
      simp at hr
    · intro c _ k _
      rfl
  | cons r0 rest ih =>
    intro st hnd hH hsc hlen
    have hr0 : r0 < H := hH r0 (List.mem_cons_self _ _)
    have hnd' := List.nodup_cons.mp hnd
    have hbuf : (TIFFReadScanline st.tif st.buf r0).2.1 = data r0 :=
      TIFFReadScanline_buf _ _ _ _ (by rw [hsc]; exact hread r0 hr0)
    obtain ⟨b, b2', hact0⟩ := hact r0 hr0 st.buf2
    rw [← hbuf] at hact0
    obtain ⟨st1, h1, htif1, hchan1⟩ :=
      row_of_active cms libm self xform size st r0 (actOf r0) b b2' hact0
    have hsc1 : st1.tif.scanlines = scan := by
      rw [htif1, TIFFReadScanline_tif]
      exact hsc
    have hlen1 : ∀ c, c < 3 → (st1.chan c).length = L := by
      intro c hc
      rw [hchan1 c hc, storeRow_length]
      exact hlen c hc
    obtain ⟨st', h', htif', hlen', hin', hout'⟩ :=
      ih st1 hnd'.2 (fun r hr => hH r (List.mem_cons_of_mem _ hr)) hsc1 hlen1
    have hb0 := row_bound r0 H (toInt32 self.width).toNat hr0
    refine ⟨st', ?_, ?_, hlen', ?_, ?_⟩
    · unfold TiffReader.readIntoPfsFrame.rows
      rw [h1]
      exact h'
    · rw [htif', htif1, TIFFReadScanline_tif]
      simp
    · intro c hc r hr j hj
      rcases List.mem_cons.mp hr with hr | hr
      · subst hr
        have hmiss : ∀ r', r' ∈ rest →
            r * (toInt32 self.width).toNat + j < r' * (toInt32 self.width).toNat ∨
            r' * (toInt32 self.width).toNat + (toInt32 self.width).toNat ≤
              r * (toInt32 self.width).toNat + j := by
          intro r' hr'
          have hne : r' ≠ r := fun e => hnd'.1 (e ▸ hr')
          rcases Nat.lt_or_gt_of_ne hne with hlt | hgt
          · right
            have := row_bound r' r (toInt32 self.width).toNat hlt
            omega
          · left
            have := row_bound r r' (toInt32 self.width).toNat hgt
            omega
        rw [hout' c hc _ hmiss, hchan1 c hc,
          storeRow_getD _ _ _ _ _ _ (by omega) (by rw [hlen c hc]; omega)]
        have e : r * (toInt32 self.width).toNat + j - r * (toInt32 self.width).toNat = j := by omega
        rw [if_pos (by omega), e]
      · exact hin' c hc r hr j hj
    · intro c hc k hk
      have hk0 := hk r0 (List.mem_cons_self _ _)
      rw [hout' c hc k (fun r hr => hk r (List.mem_cons_of_mem _ hr)), hchan1 c hc,
        storeRow_getD _ _ _ _ _ _ (by omega) (by rw [hlen c hc]; omega)]
      rw [if_neg (by omega)]

/-! ## Lemmas on strips and on the float model -/

theorem list_ext_getD {α : Type} (l₁ l₂ : List α) (d : α) (hl : l₁.length = l₂.length)
    (h : ∀ k, k < l₁.length → l₁.getD k d = l₂.getD k d) : l₁ = l₂ := by
  apply List.ext_getElem hl
  intro n h1 h2
  have := h n h1
  rw [List.getD_eq_getElem _ _ h1, List.getD_eq_getElem _ _ h2] at this
  exact this

/-- A loop that stores three values per column at 3col, 3col+1, 3col+2. -/
theorem pack3_spec {α : Type} (f0 f1 f2 : Nat → α) (buf : List α) (W : Nat)
    (hl : 3 * W ≤ buf.length) (d : α) :
    ((List.range W).foldl
      (fun b col => ((b.set (3 * col) (f0 col)).set (3 * col + 1) (f1 col)).set
        (3 * col + 2) (f2 col)) buf).length = buf.length ∧
    ∀ k, ((List.range W).foldl
      (fun b col => ((b.set (3 * col) (f0 col)).set (3 * col + 1) (f1 col)).set
        (3 * col + 2) (f2 col)) buf).getD k d =
      if k < 3 * W then
        (if k % 3 = 0 then f0 (k / 3) else if k % 3 = 1 then f1 (k / 3) else f2 (k / 3))
      else buf.getD k d := by
  have key : ∀ n, n ≤ W →
      ((List.range n).foldl
        (fun b col => ((b.set (3 * col) (f0 col)).set (3 * col + 1) (f1 col)).set
          (3 * col + 2) (f2 col)) buf).length = buf.length ∧
      ∀ k, ((List.range n).foldl
        (fun b col => ((b.set (3 * col) (f0 col)).set (3 * col + 1) (f1 col)).set
          (3 * col + 2) (f2 col)) buf).getD k d =
        if k < 3 * n then
          (if k % 3 = 0 then f0 (k / 3) else if k % 3 = 1 then f1 (k / 3) else f2 (k / 3))
        else buf.getD k d := by
    intro n
    induction n with
    | zero =>
      intro _
      refine ⟨rfl, fun k => ?_⟩
      rw [List.range_zero, List.foldl_nil, if_neg (by omega)]
    | succ n ih =>
      intro hn
      obtain ⟨ihl, ihg⟩ := ih (by omega)
      rw [List.range_succ, List.foldl_append, List.foldl_cons, List.foldl_nil]
      generalize List.foldl
        (fun b col => ((b.set (3 * col) (f0 col)).set (3 * col + 1) (f1 col)).set
          (3 * col + 2) (f2 col)) buf (List.range n) = F at ihl ihg ⊢
      refine ⟨by simp [ihl], fun k => ?_⟩
      simp only [getD_set', List.length_set, ihl, ihg]
      by_cases h2 : 3 * n + 2 = k
      · have e1 : k / 3 = n := by omega
        have e2 : ¬ k % 3 = 0 := by omega
        have e3 : ¬ k % 3 = 1 := by omega
        rw [if_pos ⟨h2, by omega⟩, if_pos (by omega), if_neg e2, if_neg e3, e1]
      · rw [if_neg (fun h => h2 h.1)]
        by_cases h1 : 3 * n + 1 = k
        · have e1 : k / 3 = n := by omega
          have e2 : ¬ k % 3 = 0 := by omega
          have e3 : k % 3 = 1 := by omega
          rw [if_pos ⟨h1, by omega⟩, if_pos (by omega), if_neg e2, if_pos e3, e1]
        · rw [if_neg (fun h => h1 h.1)]
          by_cases h0 : 3 * n = k
          · have e1 : k / 3 = n := by omega
            have e2 : k % 3 = 0 := by omega
            rw [if_pos ⟨h0, by omega⟩, if_pos (by omega), if_pos e2, e1]
          · rw [if_neg (fun h => h0 h.1)]
            by_cases hk : k < 3 * n
            · rw [if_pos hk, if_pos (show k < 3 * (n + 1) by omega)]
            · rw [if_neg hk, if_neg (show ¬ k < 3 * (n + 1) by omega)]
  exact key W (Nat.le_refl W)

/-- A strip loop none of whose writes fails appends one strip per index, when
packing a strip does not depend on what the buffer held. -/
theorem writeStrips_ok {β : Type} (fails : Nat → Option Int) (size : Nat) (pack : β → Nat → β)
    (view : β → StripData) (content : Nat → β) (inv : β → Prop) (hsize : size ≠ 0)
    (hpack : ∀ b s, inv b → pack b s = content s) (hinv : ∀ s, inv (content s)) :
    ∀ (rs : List Nat) (tif : TIFFOut) (buf : β), inv buf → (∀ s, s ∈ rs → fails s = none) →
      (writeStrips fails size pack view tif buf rs).1 = true ∧
      (writeStrips fails size pack view tif buf rs).2.1 =
        { tif with strips := tif.strips ++ rs.map (fun s => (s, view (content s))) } := by
  intro rs
  induction rs with
  | nil =>
    intro tif buf _ _
    simp [writeStrips]
  | cons s rest ih =>
    intro tif buf hb hf
    have hs : fails s = none := hf s (List.mem_cons_self _ _)
    have hne : ¬ ((size : Int) = 0) := by omega
    unfold writeStrips
    simp only [TIFFWriteEncodedStrip, hs, hpack buf s hb, if_false, hne]
    obtain ⟨h1, h2⟩ := ih { tif with strips := tif.strips ++ [(s, view (content s))] }
      (content s) (hinv s) (fun s' hs' => hf s' (List.mem_cons_of_mem _ hs'))
    refine ⟨h1, ?_⟩
    rw [h2]
    simp

/-- Below 2^(24+m) the spacing is a power of two with exponent at most m. -/
theorem ulpOf_pow (m : Nat) : ∀ (fuel q : Nat), q ≤ fuel → q < 2 ^ (24 + m) →
    ∃ k, k ≤ m ∧ F32.ulpOf fuel q = 2 ^ k := by
  induction m with
  | zero =>
    intro fuel q _ hq
    refine ⟨0, Nat.le_refl 0, ?_⟩
    cases fuel with
    | zero => rfl
    | succ f =>
      unfold F32.ulpOf
      rw [if_pos (by simpa using hq)]
      rfl
  | succ m ih =>
    intro fuel q hf hq
    cases fuel with
    | zero => exact ⟨0, Nat.zero_le _, rfl⟩
    | succ f =>
      unfold F32.ulpOf
      by_cases h : q < 2 ^ 24
      · rw [if_pos h]
        exact ⟨0, Nat.zero_le _, rfl⟩
      · rw [if_neg h]
        have hq2 : q / 2 < 2 ^ (24 + m) := by
          have : 2 ^ (24 + (m + 1)) = 2 * 2 ^ (24 + m) := by
            rw [← Nat.add_assoc, Nat.pow_succ, Nat.mul_comm]
          omega
        obtain ⟨k, hk, hk'⟩ := ih f (q / 2) (by omega) hq2
        refine ⟨k + 1, by omega, ?_⟩
        rw [hk', Nat.pow_succ, Nat.mul_comm]

/-- The conversion to float of an integer below 2^24 is exact. -/
theorem ofNat_exact (v : Nat) (hv : v < 2 ^ 24) : F32.ofNat v = .fin ((v * 2 ^ 149 : Nat) : Int) := by
  unfold F32.ofNat F32.round
  simp only [Nat.div_one, Nat.one_mul]
  have hq : v * 2 ^ 149 < 2 ^ (24 + 149) := by
    rw [Nat.pow_add]
    exact Nat.mul_lt_mul_of_pos_right hv (Nat.two_pow_pos _)
  obtain ⟨k, hk, hulp⟩ := ulpOf_pow 149 (v * 2 ^ 149) (v * 2 ^ 149) (Nat.le_refl _) hq
  rw [hulp]
  have hsplit : v * 2 ^ 149 = (v * 2 ^ (149 - k)) * 2 ^ k := by
    rw [Nat.mul_assoc, ← Nat.pow_add]
    congr 2
    omega
  have hpos : 0 < 2 ^ k := Nat.two_pow_pos _
  have hmod : v * 2 ^ 149 % 2 ^ k = 0 := by
    rw [hsplit]
    exact Nat.mul_mod_left _ _
  have hdiv : v * 2 ^ 149 / 2 ^ k * 2 ^ k = v * 2 ^ 149 := by
    rw [hsplit, Nat.mul_div_cancel _ hpos]
  rw [hmod]
  have h0 : 2 * 0 < 2 ^ k := by omega
  rw [if_pos h0, hdiv]
  have hov : ¬ 2 ^ 149 * 2 ^ 128 ≤ v * 2 ^ 149 := by
    have h1 : v * 2 ^ 149 < 2 ^ 24 * 2 ^ 149 :=
      Nat.mul_lt_mul_of_pos_right hv (Nat.two_pow_pos _)
    have h2 : 2 ^ 24 * 2 ^ 149 ≤ 2 ^ 149 * 2 ^ 128 := by
      rw [Nat.mul_comm]
      exact Nat.mul_le_mul_left _ (by norm_num)
    omega
  rw [if_neg hov]
  by_cases hz : v * 2 ^ 149 = 0
  · rw [if_pos hz, hz]
    rfl
  · rw [if_neg hz]
    rfl

theorem trunc_fin (n : Int) : F32.trunc (.fin n) = Int.tdiv n (2 ^ 149) := rfl

theorem trunc_ofNat (v : Nat) (hv : v < 2 ^ 24) : F32.trunc (F32.ofNat v) = v := by
  rw [ofNat_exact v hv, trunc_fin]
  have h2 : ((2 : Int) ^ 149) = ((2 ^ 149 : Nat) : Int) := by norm_cast
  rw [h2, Int.tdiv_eq_ediv (Int.ofNat_nonneg _) (Int.ofNat_nonneg _), ← Int.ofNat_ediv,
    Nat.mul_div_cancel _ (Nat.two_pow_pos _)]

/-- Truncation toward zero keeps the sign and floors the magnitude. -/
theorem tdiv_sign_natAbs (n : Int) :
    Int.tdiv n (2 ^ 149) = n.sign * ((n.natAbs / 2 ^ 149 : Nat) : Int) := by
  have h2 : ((2 : Int) ^ 149) = ((2 ^ 149 : Nat) : Int) := by norm_cast
  rw [h2]
  rcases Int.natAbs_eq n with h | h
  · rw [h, Int.natAbs_ofNat]
    rcases Nat.eq_zero_or_pos n.natAbs with h0 | h0
    · rw [h0]
      simp
    · rw [Int.sign_eq_one_of_pos (by omega), Int.one_mul]
      rfl
  · rw [h, Int.natAbs_neg, Int.natAbs_ofNat, Int.neg_tdiv]
    rcases Nat.eq_zero_or_pos n.natAbs with h0 | h0
    · rw [h0]
      simp
    · rw [Int.sign_eq_neg_one_of_neg (by omega)]
      have : Int.tdiv ((n.natAbs : Nat) : Int) ((2 ^ 149 : Nat) : Int) =
          ((n.natAbs / 2 ^ 149 : Nat) : Int) := rfl
      rw [this]
      omega

/-- The word stored for a sample whose conversion is defined. -/
theorem toQuint16_castQint16 (conv : F32 → Int) (x : F32) (hx : x.fitsQint16 = true) :
    toQuint16 (castQint16 conv x) = (F32.trunc x % 65536).toNat := by
  unfold toQuint16 castQint16
  rw [if_pos hx]
  rfl

/-! ## The decode of float rows, and the arithmetic fallback -/

theorem chan_length (st : ReadState) (L : Nat) (hx : st.X.length = L) (hy : st.Y.length = L)
    (hz : st.Z.length = L) (c : Nat) (hc : c < 3) : (st.chan c).length = L := by
  interval_cases c <;> simp [ReadState.chan, hx, hy, hz]

/-- The scanline loop ends whenever the fallback loops do, whatever the
scanline reads answer, and requests every row once, in order. -/
theorem scan_some (cms : Lcms) (libm : Libm) (self : TiffReader) (tif : TIFF)
    (xform : Option CmsTransform)
    (hterm : fallbackEnds self xform (TIFFScanlineSize tif % 2 ^ 32)) :
    ∃ st, TiffReader.readIntoPfsFrame.scan cms libm self tif xform = some st ∧
      st.tif = { tif with rowsRead := (List.range self.height).reverse ++ tif.rowsRead } := by
  unfold TiffReader.readIntoPfsFrame.scan
  exact rows_some cms libm self xform _ hterm _ _

/-- The channels when the scanline loop ends, all rows being readable: the
sample at row r, column j of channel c comes from offset c of pixel j of the
buffer row r was unpacked from. -/
theorem scan_planes (cms : Lcms) (libm : Libm) (self : TiffReader) (tif : TIFF)
    (xform : Option CmsTransform) (data actOf : Nat → List Nat) (d : F32)
    (hW : self.width < 2 ^ 31) (h32 : self.width * self.height ≤ 2 ^ 32)
    (hread : ∀ r, r < self.height → tif.scanlines.getD r none = some (data r))
    (hact : ∀ r, r < self.height → ∀ b2, ∃ b b2',
      TiffReader.readIntoPfsFrame.active cms self xform (TIFFScanlineSize tif % 2 ^ 32)
        (data r) b2 = some (actOf r, b, b2')) :
    ∃ st, TiffReader.readIntoPfsFrame.scan cms libm self tif xform = some st ∧
      st.tif = { tif with rowsRead := (List.range self.height).reverse ++ tif.rowsRead } ∧
      (∀ c, c < 3 → (st.chan c).length = self.width * self.height) ∧
      ∀ c, c < 3 → ∀ r, r < self.height → ∀ j, j < self.width →
        (st.chan c).getD (r * self.width + j) d =
          TiffReader.readIntoPfsFrame.sample libm self.TypeOfData
            ((actOf r).getD (j * self.nSamples + c) 0) := by
  have hWn := toInt32_toNat self.width hW
  have hL : self.height * (toInt32 self.width).toNat ≤ self.width * self.height := by
    rw [hWn, Nat.mul_comm]
  have hL32 : self.height * (toInt32 self.width).toNat ≤ 2 ^ 32 := by
    rw [hWn, Nat.mul_comm]
    exact h32
  obtain ⟨st, hst, htif, hlen, hin, _⟩ :=
    rows_planes cms libm self xform (TIFFScanlineSize tif % 2 ^ 32) tif.scanlines self.height
      (self.width * self.height) data actOf d hread hact hL hL32 (List.range self.height)
      (ReadState.mk tif
        (List.replicate (TIFFScanlineSize tif % 2 ^ 32 / self.TypeOfData.bytes) 0)
        (if xform.isSome then
          List.replicate (TIFFScanlineSize tif % 2 ^ 32 / self.TypeOfData.bytes) 0 else [])
        (Frame.new self.width self.height).X (Frame.new self.width self.height).Y
        (Frame.new self.width self.height).Z)
      (List.nodup_range _) (fun r hr => List.mem_range.mp hr) rfl
      (fun c hc => chan_length _ _ (by simp [Frame.new]) (by simp [Frame.new])
        (by simp [Frame.new]) c hc)
  refine ⟨st, hst, htif, hlen, ?_⟩
  intro c hc r hr j hj
  have := hin c hc r (List.mem_range.mpr hr) j (by rw [hWn]; exact hj)
  rw [hWn] at this
  exact this

theorem chan_X (st : ReadState) : st.chan 0 = st.X := rfl
theorem chan_Y (st : ReadState) : st.chan 1 = st.Y := rfl
theorem chan_Z (st : ReadState) : st.chan 2 = st.Z := rfl

/-- The transform stage of a float row hands the row on as it is. -/
theorem active_float (cms : Lcms) (self : TiffReader) (xform : Option CmsTransform)
    (size : Nat) (h : self.TypeOfData = .FLOAT ∨ self.TypeOfData = .FLOATLOGLUV)
    (buf buf2 : List Nat) :
    TiffReader.readIntoPfsFrame.active cms self xform size buf buf2 = some (buf, buf, buf2) := by
  unfold TiffReader.readIntoPfsFrame.active
  rcases h with h | h <;> rw [h]

/-- C14: for a reader of kind FLOAT or FLOATLOGLUV of width W and height H
whose rows are all readable, when the scanline loop of the full decode ends
the channels hold, at r*W+i, the floats found at offsets i*n, i*n+1, i*n+2 of
scanline r, copied as they are (n is samples per pixel; further samples of a
pixel are not looked at), and this for every value of the transform handle;
the frame returned holds these channels (the decode returns it unless the
reader writes the thumbnail on disk, which it refuses for float data). -/
theorem C14_float_verbatim (cms : Lcms) (libm : Libm) (self : TiffReader) (tif : TIFF)
    (xform : Option CmsTransform) (data : Nat → List Nat) (d : F32)
    (hkind : self.TypeOfData = .FLOAT ∨ self.TypeOfData = .FLOATLOGLUV)
    (hW : self.width < 2 ^ 31) (h32 : self.width * self.height ≤ 2 ^ 32)
    (hread : ∀ r, r < self.height → tif.scanlines.getD r none = some (data r)) :
    ∃ st, TiffReader.readIntoPfsFrame.scan cms libm self tif xform = some st ∧
      (∀ r, r < self.height → ∀ i, i < self.width →
        st.X.getD (r * self.width + i) d = F32.ofBits ((data r).getD (i * self.nSamples) 0) ∧
        st.Y.getD (r * self.width + i) d = F32.ofBits ((data r).getD (i * self.nSamples + 1) 0) ∧
        st.Z.getD (r * self.width + i) d = F32.ofBits ((data r).getD (i * self.nSamples + 2) 0)) ∧
      (self.writeOnDisk = false →
        ∃ dec, TiffReader.readIntoPfsFrame.decode cms libm self tif xform = some dec ∧
          dec.result = .ok { width := self.width, height := self.height,
                             X := st.X, Y := st.Y, Z := st.Z }) := by
  obtain ⟨st, hst, _, _, hin⟩ := scan_planes cms libm self tif xform data data d hW h32 hread
    (fun r _ b2 => ⟨data r, b2, active_float cms self xform _ hkind _ _⟩)
  have hs : ∀ s, TiffReader.readIntoPfsFrame.sample libm self.TypeOfData s = F32.ofBits s := by
    intro s
    unfold TiffReader.readIntoPfsFrame.sample
    rcases hkind with h | h <;> rw [h]
  refine ⟨st, hst, ?_, ?_⟩
  · intro r hr i hi
    have h0 := hin 0 (by decide) r hr i hi
    have h1 := hin 1 (by decide) r hr i hi
    have h2 := hin 2 (by decide) r hr i hi
    rw [hs] at h0 h1 h2
    rw [chan_X] at h0
    rw [chan_Y] at h1
    rw [chan_Z] at h2
    exact ⟨h0, h1, h2⟩
  · intro hwod
    unfold TiffReader.readIntoPfsFrame.decode
    rw [hst]
    simp [hwod]

theorem byteFallback_eq (c k : Nat) (hc : c ≤ 255) (hk : k ≤ 255) :
    ((Int.tdiv ((255 - (c : Int)) * (255 - (k : Int))) 255) % 256).toNat =
      (255 - c) * (255 - k) / 255 := by
  have h1 : (255 - (c : Int)) = ((255 - c : Nat) : Int) := by omega
  have h2 : (255 - (k : Int)) = ((255 - k : Nat) : Int) := by omega
  rw [h1, h2, ← Int.ofNat_mul]
  have hb : (255 - c) * (255 - k) ≤ 255 * 255 := Nat.mul_le_mul (by omega) (by omega)
  generalize (255 - c) * (255 - k) = x at hb ⊢
  rw [Int.tdiv_eq_ediv (by omega) (by omega)]
  omega

theorem pixel_getD (buf : List Nat) (p k : Nat) (hlen : 4 * p + 3 < buf.length)
    (hbytes : ∀ j, buf.getD j 0 ≤ 255) :
    (transform_to_rgb.pixel buf buf (4 * p)).getD k 0 =
      if 4 * p ≤ k ∧ k < 4 * p + 4 then rgbOf buf k else buf.getD k 0 := by
  unfold transform_to_rgb.pixel
  simp only [getD_set', List.length_set, Nat.add_zero]
  rw [byteFallback_eq _ _ (hbytes _) (hbytes _), byteFallback_eq _ _ (hbytes _) (hbytes _),
    byteFallback_eq _ _ (hbytes _) (hbytes _)]
  unfold rgbOf
  have l0 : 4 * p < buf.length := by omega
  have l1 : 4 * p + 1 < buf.length := by omega
  have l2 : 4 * p + 2 < buf.length := by omega
  by_cases hin : 4 * p ≤ k ∧ k < 4 * p + 4
  · have e2 : k - k % 4 + 3 = 4 * p + 3 := by omega
    rw [if_pos hin, e2]
    by_cases h3 : 4 * p + 3 = k
    · have : k % 4 = 3 := by omega
      rw [if_pos ⟨h3, hlen⟩, if_pos this]
    · have m3 : ¬ k % 4 = 3 := by omega
      rw [if_neg (fun h => h3 h.1), if_neg m3]
      by_cases h2 : 4 * p + 2 = k
      · rw [if_pos ⟨h2, l2⟩, h2]
      · rw [if_neg (fun h => h2 h.1)]
        by_cases h1 : 4 * p + 1 = k
        · rw [if_pos ⟨h1, l1⟩, h1]
        · rw [if_neg (fun h => h1 h.1)]
          have h0 : 4 * p = k := by omega
          rw [if_pos ⟨h0, l0⟩, h0]
  · rw [if_neg hin, if_neg (fun h => hin (by omega)), if_neg (fun h => hin (by omega)),
      if_neg (fun h => hin (by omega)), if_neg (fun h => hin (by omega))]

theorem rgbOf_le (orig : List Nat) (hbytes : ∀ j, orig.getD j 0 ≤ 255) (j : Nat) :
    rgbOf orig j ≤ 255 := by
  unfold rgbOf
  split
  · omega
  · have h1 := hbytes j
    have h2 := hbytes (j - j % 4 + 3)
    have hb : (255 - orig.getD j 0) * (255 - orig.getD (j - j % 4 + 3) 0) ≤ 255 * 255 :=
      Nat.mul_le_mul (by omega) (by omega)
    generalize (255 - orig.getD j 0) * (255 - orig.getD (j - j % 4 + 3) 0) = x at hb
    omega

/-- The loop of transform_to_rgb, run in place on W four-sample pixels from
pixel p on, ends and leaves the fallback value at every position. -/
theorem loop_spec (orig : List Nat) (W : Nat)
    (hsize : 4 * W + 4 ≤ 2 ^ 32) (hbytes : ∀ j, orig.getD j 0 ≤ 255) :
    ∀ (fuel p : Nat) (inp out : List Nat), p ≤ W → W - p < fuel → out.length = 4 * W →
      (∀ k, out.getD k 0 = if k < 4 * p then rgbOf orig k else orig.getD k 0) →
      ∃ res, transform_to_rgb.loop true (4 * W) 4 fuel (4 * p) inp out = some res ∧
        res.length = 4 * W ∧
        ∀ k, res.getD k 0 = if k < 4 * W then rgbOf orig k else orig.getD k 0 := by
  intro fuel
  induction fuel with
  | zero => intro p inp out _ h; omega
  | succ fuel ih =>
    intro p inp out hp hfuel hout hinv
    unfold transform_to_rgb.loop
    by_cases hlt : 4 * p < 4 * W
    · rw [if_pos hlt]
      have hmod : (4 * p + 4) % 2 ^ 32 = 4 * (p + 1) := by omega
      simp only [if_true, hmod]
      apply ih (p + 1) inp _ (by omega) (by omega)
      · unfold transform_to_rgb.pixel
        simp [hout]
      · intro k
        have hb : ∀ j, out.getD j 0 ≤ 255 := by
          intro j
          rw [hinv j]
          split
          · exact rgbOf_le orig hbytes j
          · exact hbytes j
        rw [pixel_getD out p k (by omega) hb]
        by_cases hin : 4 * p ≤ k ∧ k < 4 * p + 4
        · rw [if_pos hin, if_pos (by omega)]
          unfold rgbOf
          have a1 := hinv k
          have a2 := hinv (k - k % 4 + 3)
          rw [if_neg (by omega)] at a1 a2
          rw [a1, a2]
        · rw [if_neg hin, hinv k]
          by_cases hk : k < 4 * p
          · rw [if_pos hk, if_pos (by omega)]
          · rw [if_neg hk, if_neg (by omega)]
    · rw [if_neg hlt]
      refine ⟨out, rfl, hout, ?_⟩
      intro k
      rw [hinv k]
      have : p = W := by omega
      subst this
      rfl

theorem getD_le_of_forall (buf : List Nat) (B : Nat) (h : ∀ b, b ∈ buf → b ≤ B) (j : Nat) :
    buf.getD j 0 ≤ B := by
  by_cases hj : j < buf.length
  · rw [List.getD_eq_getElem _ _ hj]
    exact h _ (List.getElem_mem _)
  · rw [List.getD_eq_default _ _ (by omega)]
    exact Nat.zero_le _

/-- The function transform_to_rgb, run in place on a scanline of W
four-sample pixels of bytes. -/
theorem transform_to_rgb_spec (buf : List Nat) (W : Nat) (hlen : buf.length = 4 * W)
    (hsize : 4 * W + 4 ≤ 2 ^ 32) (hbytes : ∀ b, b ∈ buf → b ≤ 255) :
    ∃ out, transform_to_rgb true buf buf (4 * W) 4 = some out ∧ out.length = 4 * W ∧
      ∀ k, out.getD k 0 = if k < 4 * W then rgbOf buf k else buf.getD k 0 := by
  unfold transform_to_rgb
  have h := loop_spec buf W hsize (getD_le_of_forall buf 255 hbytes) (2 ^ 32 + 1) 0 buf buf
    (Nat.zero_le _) (by omega) hlen (fun k => by rw [if_neg (by omega)])
  simpa using h

set_option maxRecDepth 100000 in
theorem mul_255_DIV_255 : F32.mul (F32.ofNat 255) DIV_255 = F32.ofNat 1 := by decide

set_option maxRecDepth 100000 in
theorem mul_0_DIV_255 : F32.mul (F32.ofNat 0) DIV_255 = .fin 0 := by decide

set_option maxRecDepth 100000 in
theorem c2_2_eq : F32.c2_2 = .fin (9227469 * 2 ^ 127) := by decide

set_option maxRecDepth 100000 in
theorem ofNat_one_bits : F32.ofNat 1 = F32.ofBits 1065353216 := by decide

/-- The gamma decode of the byte 255 is 1.0f. -/
theorem gammaDecode_255 (libm : Libm) : gammaDecode libm 255 = F32.ofNat 1 := by
  unfold gammaDecode
  rw [mul_255_DIV_255]
  exact libm.powf_one _

/-- The gamma decode of the byte 0 is +0. -/
theorem gammaDecode_0 (libm : Libm) : gammaDecode libm 0 = .fin 0 := by
  unfold gammaDecode
  rw [mul_0_DIV_255, c2_2_eq]
  exact libm.powf_zero _ (by norm_num) (by norm_num)

/-- C15: for every 8-bit CMYK scanline of W pixels of 4 samples (the byte
size 4W, a uint32, leaving room for the last increment of the index),
transform_to_rgb run in place ends and replaces every pixel (C,M,Y,K) by
(floor((255-C)(255-K)/255), floor((255-M)(255-K)/255),
floor((255-Y)(255-K)/255), 255); a pixel with C=M=Y=K=0 becomes
(255,255,255,255), and the gamma decode of 255 is 1.0f. -/
theorem C15_transform_to_rgb (buf : List Nat) (W : Nat) (libm : Libm)
    (hlen : buf.length = 4 * W) (hsize : 4 * W + 4 ≤ 2 ^ 32)
    (hbytes : ∀ b, b ∈ buf → b ≤ 255) :
    ∃ out, transform_to_rgb true buf buf (4 * W) 4 = some out ∧ out.length = 4 * W ∧
      (∀ p, p < W →
        out.getD (4 * p) 0 =
          (255 - buf.getD (4 * p) 0) * (255 - buf.getD (4 * p + 3) 0) / 255 ∧
        out.getD (4 * p + 1) 0 =
          (255 - buf.getD (4 * p + 1) 0) * (255 - buf.getD (4 * p + 3) 0) / 255 ∧
        out.getD (4 * p + 2) 0 =
          (255 - buf.getD (4 * p + 2) 0) * (255 - buf.getD (4 * p + 3) 0) / 255 ∧
        out.getD (4 * p + 3) 0 = 255) ∧
      (∀ p, p < W → buf.getD (4 * p) 0 = 0 → buf.getD (4 * p + 1) 0 = 0 →
        buf.getD (4 * p + 2) 0 = 0 → buf.getD (4 * p + 3) 0 = 0 →
        out.getD (4 * p) 0 = 255 ∧ out.getD (4 * p + 1) 0 = 255 ∧
        out.getD (4 * p + 2) 0 = 255 ∧ out.getD (4 * p + 3) 0 = 255) ∧
      gammaDecode libm 255 = F32.ofNat 1 ∧ F32.ofNat 1 = F32.ofBits 1065353216 := by
  obtain ⟨out, hout, hl, hget⟩ := transform_to_rgb_spec buf W hlen hsize hbytes
  have hpix : ∀ p, p < W →
      out.getD (4 * p) 0 =
        (255 - buf.getD (4 * p) 0) * (255 - buf.getD (4 * p + 3) 0) / 255 ∧
      out.getD (4 * p + 1) 0 =
        (255 - buf.getD (4 * p + 1) 0) * (255 - buf.getD (4 * p + 3) 0) / 255 ∧
      out.getD (4 * p + 2) 0 =
        (255 - buf.getD (4 * p + 2) 0) * (255 - buf.getD (4 * p + 3) 0) / 255 ∧
      out.getD (4 * p + 3) 0 = 255 := by
    intro p hp
    have e0 : (4 * p) - (4 * p) % 4 + 3 = 4 * p + 3 := by omega
    have e1 : (4 * p + 1) - (4 * p + 1) % 4 + 3 = 4 * p + 3 := by omega
    have e2 : (4 * p + 2) - (4 * p + 2) % 4 + 3 = 4 * p + 3 := by omega
    refine ⟨?_, ?_, ?_, ?_⟩
    · rw [hget, if_pos (by omega)]
      unfold rgbOf
      rw [if_neg (by omega), e0]
    · rw [hget, if_pos (by omega)]
      unfold rgbOf
      rw [if_neg (by omega), e1]
    · rw [hget, if_pos (by omega)]
      unfold rgbOf
      rw [if_neg (by omega), e2]
    · rw [hget, if_pos (by omega)]
      unfold rgbOf
      rw [if_pos (by omega)]
  refine ⟨out, hout, hl, hpix, ?_, gammaDecode_255 libm, ofNat_one_bits⟩
  intro p hp h0 h1 h2 h3
  obtain ⟨a0, a1, a2, a3⟩ := hpix p hp
  rw [a0, a1, a2, a3, h0, h1, h2, h3]
  exact ⟨rfl, rfl, rfl, rfl⟩

/-- C15 on a scanline of one pixel (0,0,0,0). -/
theorem C15_transform_to_rgb_witness :
    transform_to_rgb true [0, 0, 0, 0] [0, 0, 0, 0] (4 * 1) 4 = some [255, 255, 255, 255] ∧
    ∃ out, transform_to_rgb true [0, 0, 0, 0] [0, 0, 0, 0] (4 * 1) 4 = some out ∧
      out.getD (4 * 0) 0 = 255 ∧ gammaDecode libmStub 255 = F32.ofNat 1 := by
  refine ⟨by decide, ?_⟩
  obtain ⟨out, h1, _, _, h3, h4, _⟩ :=
    C15_transform_to_rgb [0, 0, 0, 0] 1 libmStub rfl (by decide) (by decide)
  exact ⟨out, h1, (h3 0 (by decide) rfl rfl rfl rfl).1, h4⟩

/-- C16, the code at the failing input: on the 16-bit CMYK pixel (0,0,0,0)
the product 65535 * 65535 exceeds the range of `int`; wrapped to 32 bits it
is -131071, and transform_to_rgb_16 stores 65534 in the three colour
channels, where floor(65535 * 65535 / 65535) is 65535. -/
theorem C16_white_pixel_overflow :
    transform_to_rgb_16 true [0, 0, 0, 0] [0, 0, 0, 0] 8 4 = some [65534, 65534, 65534, 65535] ∧
    wrapInt32 ((65535 - 0) * (65535 - 0)) = -131071 ∧
    (65535 - 0) * (65535 - 0) / 65535 = 65535 := by
  decide

/-! ## The transform stage and the read errors -/

theorem xform_of_noprofile (cms : Lcms) (self : TiffReader) (tif : TIFF)
    (h : GetTIFFProfile cms tif = none) :
    TiffReader.readIntoPfsFrame.xform cms self tif = none := by
  unfold TiffReader.readIntoPfsFrame.xform
  rw [h]

theorem xform_of_profile (cms : Lcms) (self : TiffReader) (tif : TIFF) (hIn : CmsProfile)
    (h : GetTIFFProfile cms tif = some hIn) :
    TiffReader.readIntoPfsFrame.xform cms self tif =
      cmsCreateTransform cms hIn (TiffReader.readIntoPfsFrame.cmsFormats self).1 .sRGB
        (TiffReader.readIntoPfsFrame.cmsFormats self).2 INTENT_PERCEPTUAL 0 := by
  unfold TiffReader.readIntoPfsFrame.xform
  rw [h]
  rfl

/-- The decode, once the scanline loop has ended. -/
theorem decode_of_scan (cms : Lcms) (libm : Libm) (self : TiffReader) (tif : TIFF)
    (xform : Option CmsTransform) (st : ReadState)
    (h : TiffReader.readIntoPfsFrame.scan cms libm self tif xform = some st) :
    TiffReader.readIntoPfsFrame.decode cms libm self tif xform =
      some { result :=
               if self.writeOnDisk = true ∧
                   (self.TypeOfData = .FLOAT ∨ self.TypeOfData = .FLOATLOGLUV) then
                 .error .InvalidPrecondition
               else .ok { width := self.width, height := self.height,
                          X := st.X, Y := st.Y, Z := st.Z },
             tif := st.tif } := by
  unfold TiffReader.readIntoPfsFrame.decode
  rw [h]
  by_cases hc : self.writeOnDisk = true ∧
      (self.TypeOfData = .FLOAT ∨ self.TypeOfData = .FLOATLOGLUV)
  · simp only [if_pos hc]
  · simp only [if_neg hc]

/-- C11: in the full decode, when GetTIFFProfile finds a profile, the transform
is asked for with layouts that depend on the colour space and the sample kind
only: RGB with WORD gives TYPE_RGB_16 in and out, CMYK with WORD gives
TYPE_CMYK_16 in and TYPE_RGBA_16 out, and every combination that is none of
RGB with WORD, RGB with BYTE, CMYK with WORD (so CMYK with BYTE) gives
TYPE_CMYK_8 in and TYPE_RGBA_8 out; the intent is always perceptual. -/
theorem C11_layouts_by_kind (cms : Lcms) (tif : TIFF) (self : TiffReader) (hIn : CmsProfile)
    (hprof : GetTIFFProfile cms tif = some hIn) :
    (self.ColorSpace = .RGB → self.TypeOfData = .WORD →
      TiffReader.readIntoPfsFrame.xform cms self tif =
        cmsCreateTransform cms hIn .TYPE_RGB_16 .sRGB .TYPE_RGB_16 INTENT_PERCEPTUAL 0) ∧
    (self.ColorSpace = .CMYK → self.TypeOfData = .WORD →
      TiffReader.readIntoPfsFrame.xform cms self tif =
        cmsCreateTransform cms hIn .TYPE_CMYK_16 .sRGB .TYPE_RGBA_16 INTENT_PERCEPTUAL 0) ∧
    (¬ (self.ColorSpace = .RGB ∧ self.TypeOfData = .WORD) →
      ¬ (self.ColorSpace = .RGB ∧ self.TypeOfData = .BYTE) →
      ¬ (self.ColorSpace = .CMYK ∧ self.TypeOfData = .WORD) →
      TiffReader.readIntoPfsFrame.xform cms self tif =
        cmsCreateTransform cms hIn .TYPE_CMYK_8 .sRGB .TYPE_RGBA_8 INTENT_PERCEPTUAL 0) ∧
    (self.ColorSpace = .CMYK → self.TypeOfData = .BYTE →
      TiffReader.readIntoPfsFrame.xform cms self tif =
        cmsCreateTransform cms hIn .TYPE_CMYK_8 .sRGB .TYPE_RGBA_8 INTENT_PERCEPTUAL 0) ∧
    (∀ t, TiffReader.readIntoPfsFrame.xform cms self tif = some t →
      t.intent = INTENT_PERCEPTUAL) ∧
    (∀ other : TiffReader, other.ColorSpace = self.ColorSpace →
      other.TypeOfData = self.TypeOfData →
      TiffReader.readIntoPfsFrame.xform cms other tif =
        TiffReader.readIntoPfsFrame.xform cms self tif) := by
  refine ⟨?_, ?_, ?_, ?_, ?_, ?_⟩
  · intro hc ht
    rw [xform_of_profile cms self tif hIn hprof]
    simp [TiffReader.readIntoPfsFrame.cmsFormats, hc, ht]
  · intro hc ht
    rw [xform_of_profile cms self tif hIn hprof]
    simp [TiffReader.readIntoPfsFrame.cmsFormats, hc, ht]
  · intro h1 h2 h3
    rw [xform_of_profile cms self tif hIn hprof]
    simp only [TiffReader.readIntoPfsFrame.cmsFormats, if_neg h1, if_neg h2, if_neg h3]
  · intro hc ht
    rw [xform_of_profile cms self tif hIn hprof]
    simp [TiffReader.readIntoPfsFrame.cmsFormats, hc, ht]
  · intro t ht
    rw [xform_of_profile cms self tif hIn hprof] at ht
    unfold cmsCreateTransform at ht
    simp only at ht
    split at ht
    · injection ht with ht
      rw [← ht]
    · exact absurd ht (by simp)
  · intro other hc ht
    rw [xform_of_profile cms self tif hIn hprof, xform_of_profile cms other tif hIn hprof]
    simp only [TiffReader.readIntoPfsFrame.cmsFormats, hc, ht]

/-- C11 at the 8-bit RGB container with an embedded profile, read as CMYK with
WORD samples. -/
theorem C11_layouts_by_kind_witness :
    GetTIFFProfile cmsAccepting (tifRgb8Icc 3 none) = some (.fromMem [0, 1, 2, 3]) ∧
    TiffReader.readIntoPfsFrame.xform cmsAccepting
      { self0 with ColorSpace := .CMYK, TypeOfData := .WORD } (tifRgb8Icc 3 none) =
      cmsCreateTransform cmsAccepting (.fromMem [0, 1, 2, 3]) .TYPE_CMYK_16 .sRGB .TYPE_RGBA_16
        INTENT_PERCEPTUAL 0 :=
  ⟨rfl,
    (C11_layouts_by_kind cmsAccepting (tifRgb8Icc 3 none)
      { self0 with ColorSpace := .CMYK, TypeOfData := .WORD } (.fromMem [0, 1, 2, 3])
      rfl).2.1 rfl rfl⟩

/-- C12: when GetTIFFProfile finds a profile and cmsCreateTransform answers
NULL, the full decode is the decode with no transform: a row is unpacked from
the raw scanline for RGB and from the output of the arithmetic fallback for
CMYK; it ends whenever the fallback loops end, and it returns the frame (except
where the decode with no transform fails too: float data with the thumbnail
written on disk). -/
theorem C12_transform_failure_recovered (cms : Lcms) (libm : Libm) (self : TiffReader)
    (tif : TIFF) (hIn : CmsProfile) (hprof : GetTIFFProfile cms tif = some hIn)
    (hfail : cmsCreateTransform cms hIn (TiffReader.readIntoPfsFrame.cmsFormats self).1 .sRGB
      (TiffReader.readIntoPfsFrame.cmsFormats self).2 INTENT_PERCEPTUAL 0 = none)
    (hterm : fallbackEnds self none (TIFFScanlineSize tif % 2 ^ 32)) :
    TiffReader.readIntoPfsFrame cms libm self tif =
      TiffReader.readIntoPfsFrame.decode cms libm self tif none ∧
    (∃ dec, TiffReader.readIntoPfsFrame cms libm self tif = some dec ∧
      (¬ (self.writeOnDisk = true ∧
          (self.TypeOfData = .FLOAT ∨ self.TypeOfData = .FLOATLOGLUV)) →
        ∃ frame, dec.result = .ok frame)) ∧
    (∀ buf buf2, self.ColorSpace = .RGB →
      TiffReader.readIntoPfsFrame.active cms self none (TIFFScanlineSize tif % 2 ^ 32) buf buf2 =
        some (buf, buf, buf2)) ∧
    (∀ buf buf2, self.ColorSpace = .CMYK → self.TypeOfData = .BYTE →
      TiffReader.readIntoPfsFrame.active cms self none (TIFFScanlineSize tif % 2 ^ 32) buf buf2 =
        (transform_to_rgb true buf buf (TIFFScanlineSize tif % 2 ^ 32) self.nSamples).map
          (fun out => (out, out, buf2))) ∧
    (∀ buf buf2, self.ColorSpace = .CMYK → self.TypeOfData = .WORD →
      TiffReader.readIntoPfsFrame.active cms self none (TIFFScanlineSize tif % 2 ^ 32) buf buf2 =
        (transform_to_rgb_16 true buf buf (TIFFScanlineSize tif % 2 ^ 32) self.nSamples).map
          (fun out => (out, out, buf2))) := by
  have hx : TiffReader.readIntoPfsFrame.xform cms self tif = none := by
    rw [xform_of_profile cms self tif hIn hprof]
    exact hfail
  have heq : TiffReader.readIntoPfsFrame cms libm self tif =
      TiffReader.readIntoPfsFrame.decode cms libm self tif none := by
    unfold TiffReader.readIntoPfsFrame
    rw [hx]
  refine ⟨heq, ?_, ?_, ?_, ?_⟩
  · obtain ⟨st, hst, _⟩ := scan_some cms libm self tif none hterm
    rw [heq, decode_of_scan cms libm self tif none st hst]
    refine ⟨_, rfl, ?_⟩
    intro hn
    simp only [if_neg hn]
    exact ⟨_, rfl⟩
  · intro buf buf2 hc
    unfold TiffReader.readIntoPfsFrame.active
    cases self.TypeOfData <;> simp [hc]
  · intro buf buf2 hc ht
    unfold TiffReader.readIntoPfsFrame.active
    rw [ht]
    simp only [hc, if_true]
    cases transform_to_rgb true buf buf (TIFFScanlineSize tif % 2 ^ 32) self.nSamples <;> rfl
  · intro buf buf2 hc ht
    unfold TiffReader.readIntoPfsFrame.active
    rw [ht]
    simp only [hc, if_true]
    cases transform_to_rgb_16 true buf buf (TIFFScanlineSize tif % 2 ^ 32) self.nSamples <;> rfl

/-- C12 at the 1x1 CMYK container with a profile that parses, under a
colour-management library that builds no transform. -/
theorem C12_transform_failure_recovered_witness :
    GetTIFFProfile cmsNoTransform (tifCyan (some [1, 2])) = some (.fromMem [1, 2]) ∧
    TiffReader.readIntoPfsFrame cmsNoTransform libmStub rdCyan (tifCyan (some [1, 2])) =
      TiffReader.readIntoPfsFrame.decode cmsNoTransform libmStub rdCyan
        (tifCyan (some [1, 2])) none ∧
    ∃ dec, TiffReader.readIntoPfsFrame cmsNoTransform libmStub rdCyan
      (tifCyan (some [1, 2])) = some dec := by
  have h := C12_transform_failure_recovered cmsNoTransform libmStub rdCyan
    (tifCyan (some [1, 2])) (.fromMem [1, 2]) rfl rfl
    (fun _ _ => ⟨fun _ => ⟨by decide, by decide⟩, fun h => absurd h (by decide)⟩)
  obtain ⟨h1, ⟨dec, h2, _⟩, _⟩ := h
  exact ⟨rfl, h1, dec, h2⟩

/-- The fallback loops are not used by a reader of an RGB image. -/
theorem fallbackEnds_rgb (self : TiffReader) (xform : Option CmsTransform) (size : Nat)
    (h : self.ColorSpace = .RGB) : fallbackEnds self xform size := by
  intro _ hc
  rw [h] at hc
  exact absurd hc (by decide)

/-- The decode ends whenever the fallback loops do, and its handle has had
every row requested once, in order. -/
theorem decode_some (cms : Lcms) (libm : Libm) (self : TiffReader) (tif : TIFF)
    (xform : Option CmsTransform)
    (hterm : fallbackEnds self xform (TIFFScanlineSize tif % 2 ^ 32)) :
    ∃ st : ReadState, TiffReader.readIntoPfsFrame.decode cms libm self tif xform =
      some { result :=
               if self.writeOnDisk = true ∧
                   (self.TypeOfData = .FLOAT ∨ self.TypeOfData = .FLOATLOGLUV) then
                 .error .InvalidPrecondition
               else .ok { width := self.width, height := self.height,
                          X := st.X, Y := st.Y, Z := st.Z },
             tif := { tif with rowsRead := (List.range self.height).reverse ++ tif.rowsRead } } := by
  obtain ⟨st, hst, htif⟩ := scan_some cms libm self tif xform hterm
  refine ⟨st, ?_⟩
  rw [decode_of_scan cms libm self tif xform st hst, htif]

/-- C13, as stated, fails: the only row of the 1x1 RGB container
`tifUnreadable` cannot be read (TIFFReadScanline answers -1), and the full
decode of the reader the constructor made of it returns a frame of one pixel,
not an error. -/
theorem C13_counterexample :
    (TiffReader.new tifUnreadable false self0).1 = .ok rdUnreadable ∧
    (∀ buf, (TIFFReadScanline tifUnreadable buf 0).1 = -1) ∧
    ∃ dec frame, TiffReader.readIntoPfsFrame cmsAccepting libmStub rdUnreadable tifUnreadable =
        some dec ∧
      dec.result = .ok frame ∧ frame.width = 1 ∧ frame.height = 1 ∧
      frame.X.length = 1 ∧ dec.tif.rowsRead = [0] := by
  exact ⟨rfl, fun _ => rfl, _, _, rfl, rfl, rfl, rfl, rfl, rfl⟩

/-- C13, amended: the answer of a scanline read is not looked at.  A read of
a row that cannot be read answers -1; the iteration of the scanline loop goes
on all the same and unpacks the row from the buffer as the read left it,
through the transform stage, whatever the read answered; the full decode (its
fallback loops ending, and apart from float data with the thumbnail written on
disk) requests every row from 0 to height-1 once, in order, and returns a frame
of the size of the image; no error is raised. -/
theorem C13_read_errors_ignored (cms : Lcms) (libm : Libm) (self : TiffReader) (tif : TIFF)
    (hterm : fallbackEnds self (TiffReader.readIntoPfsFrame.xform cms self tif)
      (TIFFScanlineSize tif % 2 ^ 32))
    (hassert : ¬ (self.writeOnDisk = true ∧
      (self.TypeOfData = .FLOAT ∨ self.TypeOfData = .FLOATLOGLUV))) :
    (∀ buf r, tif.scanlines.getD r none = none → (TIFFReadScanline tif buf r).1 = -1) ∧
    (∀ (st : ReadState) (r : Nat),
      ∃ act b b2 st',
        TiffReader.readIntoPfsFrame.active cms self
          (TiffReader.readIntoPfsFrame.xform cms self tif) (TIFFScanlineSize tif % 2 ^ 32)
          (TIFFReadScanline st.tif st.buf r).2.1 st.buf2 = some (act, b, b2) ∧
        TiffReader.readIntoPfsFrame.row cms libm self
          (TiffReader.readIntoPfsFrame.xform cms self tif) (TIFFScanlineSize tif % 2 ^ 32)
          st r = some st' ∧
        st'.tif.rowsRead = r :: st.tif.rowsRead ∧
        ∀ c, c < 3 → st'.chan c = storeRow (st.chan c) r (toInt32 self.width).toNat
          (fun i => TiffReader.readIntoPfsFrame.sample libm self.TypeOfData
            (act.getD (i * self.nSamples + c) 0))) ∧
    ∃ dec frame, TiffReader.readIntoPfsFrame cms libm self tif = some dec ∧
      dec.result = .ok frame ∧ frame.width = self.width ∧ frame.height = self.height ∧
      dec.tif = { tif with rowsRead := (List.range self.height).reverse ++ tif.rowsRead } := by
  refine ⟨?_, ?_, ?_⟩
  · intro buf r h
    unfold TIFFReadScanline
    rw [h]
  · intro st r
    obtain ⟨⟨act, b, b2⟩, hact⟩ := active_some cms self _ _ hterm
      (TIFFReadScanline st.tif st.buf r).2.1 st.buf2
    obtain ⟨st1, h1, htif, hch⟩ := row_of_active cms libm self _ _ st r act b b2 hact
    refine ⟨act, b, b2, st1, hact, h1, ?_, hch⟩
    rw [htif, TIFFReadScanline_tif]
  · obtain ⟨st, hst⟩ := decode_some cms libm self tif _ hterm
    unfold TiffReader.readIntoPfsFrame
    rw [hst, if_neg hassert]
    exact ⟨_, _, rfl, rfl, rfl, rfl, rfl⟩

/-- C13, amended, at the container whose only row cannot be read and whose
failed read leaves the bytes 9, 8, 7 in the buffer: the read answers -1, the
decode returns a frame, and the red sample of its pixel is the gamma decode of
the byte 9 that the failed read left. -/
theorem C13_read_errors_ignored_witness :
    tifHalfRead.scanlines.getD 0 none = none ∧
    (TIFFReadScanline tifHalfRead [0, 0, 0] 0).1 = -1 ∧
    (∃ dec frame, TiffReader.readIntoPfsFrame cmsAccepting libmStub rdUnreadable tifHalfRead =
        some dec ∧ dec.result = .ok frame ∧ dec.tif.rowsRead = [0]) ∧
    ∃ dec frame, TiffReader.readIntoPfsFrame cmsAccepting libmStub rdUnreadable tifHalfRead =
        some dec ∧ dec.result = .ok frame ∧
      frame.X = [gammaDecode libmStub 9] ∧ frame.Y = [gammaDecode libmStub 8] ∧
      frame.Z = [gammaDecode libmStub 7] := by
  have h := C13_read_errors_ignored cmsAccepting libmStub rdUnreadable tifHalfRead
    (fallbackEnds_rgb _ _ _ rfl) (by decide)
  obtain ⟨h1, _, dec, frame, h2, h3, _, _, h4⟩ := h
  refine ⟨rfl, h1 [0, 0, 0] 0 rfl, ⟨dec, frame, h2, h3, ?_⟩, _, _, rfl, rfl, rfl, rfl, rfl⟩
  rw [h4]
  rfl

/-- C14 at the 2x1 float container and the reader the constructor makes of
it: the channels hold the six floats of the row, and the decode returns the
frame. -/
theorem C14_float_verbatim_witness :
    (TiffReader.new tifFloat false self0).1 = .ok rdFloat ∧
    ∃ st, TiffReader.readIntoPfsFrame.scan cmsAccepting libmStub rdFloat tifFloat none =
        some st ∧
      st.X.getD 1 (.fin 0) = F32.ofBits 1082130432 ∧
      st.Y.getD 1 (.fin 0) = F32.ofBits 1084227584 ∧
      st.Z.getD 1 (.fin 0) = F32.ofBits 1086324736 ∧
      ∃ dec, TiffReader.readIntoPfsFrame.decode cmsAccepting libmStub rdFloat tifFloat none =
          some dec ∧
        dec.result = .ok { width := 2, height := 1, X := st.X, Y := st.Y, Z := st.Z } := by
  obtain ⟨st, hst, hpl, hdec⟩ := C14_float_verbatim cmsAccepting libmStub rdFloat tifFloat none
    (fun _ => [1065353216, 1073741824, 1077936128, 1082130432, 1084227584, 1086324736])
    (.fin 0) (Or.inl rfl) (by decide) (by decide)
    (fun r hr => by
      have hr' : r < 1 := hr
      have : r = 0 := by omega
      subst this
      rfl)
  have h := hpl 0 (by decide) 1 (by decide)
  exact ⟨rfl, st, hst, h.1, h.2.1, h.2.2, hdec rfl⟩

/-! ## Byte rows -/

/-- The byte size of a row of an 8-bit container of four samples per pixel. -/
theorem scanlineSize_cmyk8 (tif : TIFF) (hphot : tif.photometric = some PHOTOMETRIC_SEPARATED)
    (hbps : tif.bitsPerSample = some 8) (hspp : tif.samplesPerPixel = some 4)
    (hW : tif.imageWidth < 2 ^ 30) :
    TIFFScanlineSize tif % 2 ^ 32 = 4 * tif.imageWidth := by
  unfold TIFFScanlineSize
  have hne : ¬ (tif.photometric = some PHOTOMETRIC_LOGLUV ∧
      tif.sgilogDataFmt = some SGILOGDATAFMT_FLOAT) := by
    rw [hphot]
    intro h
    exact absurd h.1 (by decide)
  simp only [if_neg hne, hbps, hspp, Option.getD_some]
  omega

/-- Without an embedded profile, GetTIFFProfile finds a profile only in a
container that has both colorimetric tags, and the profile is one made by
cmsCreateRGBProfile. -/
theorem profile_of_noicc (cms : Lcms) (tif : TIFF) (hicc : tif.iccProfile = none)
    (p : CmsProfile) (hp : GetTIFFProfile cms tif = some p) :
    (∃ wp pr cv, p = .rgb wp pr cv) ∧ tif.primaryChromaticities ≠ none ∧
    tif.whitePoint ≠ none := by
  unfold GetTIFFProfile at hp
  rw [hicc] at hp
  cases hchr : tif.primaryChromaticities with
  | none =>
    rw [hchr] at hp
    cases hp
  | some chr =>
    cases hwp : tif.whitePoint with
    | none =>
      rw [hchr, hwp] at hp
      cases hp
    | some wp =>
      rw [hchr, hwp] at hp
      by_cases hb : cms.rgbProfileBuilt (wp.take 2) (chr.take 6)
          (tif.transferFunction.map (List.take 256)) = true
      · simp only [cmsCreateRGBProfile, hb, if_true] at hp
        injection hp with hp
        exact ⟨⟨_, _, _, hp.symm⟩, by simp, by simp⟩
      · simp only [cmsCreateRGBProfile, hb] at hp
        cases hp

/-- The full decode of an 8-bit CMYK reader has no transform when the container
has no embedded profile and either lacks a colorimetric tag or is read with a
library that builds no transform reading CMYK pixels through an RGB profile. -/
theorem xform_of_noicc (cms : Lcms) (self : TiffReader) (tif : TIFF)
    (hicc : tif.iccProfile = none) (hc : self.ColorSpace = .CMYK) (hT : self.TypeOfData = .BYTE)
    (hlcms : tif.primaryChromaticities ≠ none → tif.whitePoint ≠ none →
      ∀ t : CmsTransform, (∃ wp pr cv, t.input = .rgb wp pr cv) →
        t.inputFormat = .TYPE_CMYK_8 → cms.transformBuilt t = false) :
    TiffReader.readIntoPfsFrame.xform cms self tif = none := by
  cases hp : GetTIFFProfile cms tif with
  | none => exact xform_of_noprofile cms self tif hp
  | some p =>
    rw [xform_of_profile cms self tif p hp]
    have hf : TiffReader.readIntoPfsFrame.cmsFormats self = (.TYPE_CMYK_8, .TYPE_RGBA_8) := by
      unfold TiffReader.readIntoPfsFrame.cmsFormats
      rw [hc, hT]
      rfl
    rw [hf]
    unfold cmsCreateTransform
    simp only
    rw [if_neg]
    obtain ⟨hrgb, h1, h2⟩ := profile_of_noicc cms tif hicc p hp
    rw [hlcms h1 h2 _ hrgb rfl]
    decide

/-- C17: for an 8-bit CMYK container of four samples per pixel (width below
2^30, at most 2^32 pixels) that has no embedded profile, whose rows are all
readable and hold C = 255 in every pixel, the full decode of the reader the
constructor made of it returns a frame whose X channel (red) is +0 at every
pixel, whatever M, Y and K are, and whether or not the container has the
colorimetric tags.  For a container that has both colorimetric tags, from
which GetTIFFProfile makes an RGB profile, the colour-management library is
any one that, as lcms2 does, builds no transform reading CMYK pixels through a
profile made by cmsCreateRGBProfile; for the other containers it is any
library. -/
theorem C17_full_cyan_red_zero (cms : Lcms) (libm : Libm) (tif : TIFF) (wod : Bool)
    (s0 self : TiffReader) (data : Nat → List Nat) (d : F32)
    (hnew : (TiffReader.new tif wod s0).1 = .ok self)
    (hphot : tif.photometric = some PHOTOMETRIC_SEPARATED)
    (hbps : tif.bitsPerSample = some 8) (hspp : tif.samplesPerPixel = some 4)
    (hicc : tif.iccProfile = none)
    (hlcms : tif.primaryChromaticities ≠ none → tif.whitePoint ≠ none →
      ∀ t : CmsTransform, (∃ wp pr cv, t.input = .rgb wp pr cv) →
        t.inputFormat = .TYPE_CMYK_8 → cms.transformBuilt t = false)
    (hW : tif.imageWidth < 2 ^ 30) (h32 : tif.imageWidth * tif.imageLength ≤ 2 ^ 32)
    (hread : ∀ r, r < tif.imageLength → tif.scanlines.getD r none = some (data r))
    (hlen : ∀ r, r < tif.imageLength → (data r).length = 4 * tif.imageWidth)
    (hbytes : ∀ r, r < tif.imageLength → ∀ b, b ∈ data r → b ≤ 255)
    (hC : ∀ r, r < tif.imageLength → ∀ i, i < tif.imageWidth → (data r).getD (4 * i) 0 = 255) :
    ∃ dec frame, TiffReader.readIntoPfsFrame cms libm self tif = some dec ∧
      dec.result = .ok frame ∧ frame.width = tif.imageWidth ∧
      frame.height = tif.imageLength ∧
      ∀ r, r < tif.imageLength → ∀ i, i < tif.imageWidth →
        frame.X.getD (r * tif.imageWidth + i) d = .fin 0 := by
  obtain ⟨hsize, hplanar⟩ := new_ok_checks tif wod s0 self hnew
  rw [new_cmyk tif wod s0 hsize hplanar hphot] at hnew
  simp only [hbps, hspp, Option.getD_some] at hnew
  injection hnew with hnew
  have hw : self.width = tif.imageWidth := by rw [← hnew]
  have hh : self.height = tif.imageLength := by rw [← hnew]
  have hT : self.TypeOfData = .BYTE := by rw [← hnew]; rfl
  have hn : self.nSamples = 4 := by rw [← hnew]
  have hc : self.ColorSpace = .CMYK := by rw [← hnew]
  have hx := xform_of_noicc cms self tif hicc hc hT hlcms
  have hwod : ¬ (self.writeOnDisk = true ∧
      (self.TypeOfData = .FLOAT ∨ self.TypeOfData = .FLOATLOGLUV)) := by
    rw [hT]
    simp
  have hsz := scanlineSize_cmyk8 tif hphot hbps hspp hW
  unfold TiffReader.readIntoPfsFrame
  rw [hx]
  obtain ⟨st, hst, _, _, hin⟩ := scan_planes cms libm self tif none data
    (fun r => (transform_to_rgb true (data r) (data r) (4 * tif.imageWidth) 4).getD [])
    d (by rw [hw]; omega) (by rw [hw, hh]; exact h32) (fun r hr => hread r (hh ▸ hr))
    (fun r hr b2 => by
      obtain ⟨out, hout, _, _⟩ := transform_to_rgb_spec (data r) tif.imageWidth
        (hlen r (hh ▸ hr)) (by omega) (hbytes r (hh ▸ hr))
      refine ⟨out, b2, ?_⟩
      unfold TiffReader.readIntoPfsFrame.active
      rw [hT]
      simp only [hc, hn, if_true, hsz, hout, Option.getD_some])
  rw [decode_of_scan cms libm self tif none st hst, if_neg hwod]
  refine ⟨_, _, rfl, rfl, hw, hh, ?_⟩
  intro r hr i hi
  have h0 := hin 0 (by decide) r (hh ▸ hr) i (hw ▸ hi)
  rw [chan_X, hw, hn, hT] at h0
  obtain ⟨out, hout, _, hget⟩ := transform_to_rgb_spec (data r) tif.imageWidth (hlen r hr)
    (by omega) (hbytes r hr)
  have hk : i * 4 + 0 = 4 * i := by omega
  have e3 : 4 * i - 4 * i % 4 + 3 = 4 * i + 3 := by omega
  have hval : out.getD (4 * i) 0 = 0 := by
    rw [hget, if_pos (by omega)]
    unfold rgbOf
    rw [if_neg (by omega), hC r hr i hi]
    simp
  show st.X.getD (r * tif.imageWidth + i) d = .fin 0
  rw [h0, hout, hk, Option.getD_some, hval]
  exact gammaDecode_0 libm

/-- The library `cmsColorChecked` builds no transform that reads CMYK pixels
through an RGB profile. -/
theorem cmsColorChecked_refuses (t : CmsTransform) (h : ∃ wp pr cv, t.input = .rgb wp pr cv)
    (hf : t.inputFormat = .TYPE_CMYK_8) : cmsColorChecked.transformBuilt t = false := by
  obtain ⟨wp, pr, cv, h⟩ := h
  unfold cmsColorChecked
  simp only [h, hf]

/-- C17 at a 1x1 CMYK container with the pixel (255, 10, 20, 30), no embedded
profile and the colorimetric tags, from which GetTIFFProfile makes an RGB
profile, under a library that checks the colour space; and at the same
container without the colorimetric tags, under a library that builds every
transform. -/
theorem C17_full_cyan_red_zero_witness :
    tifCyanColorimetric.iccProfile = none ∧
    GetTIFFProfile cmsColorChecked tifCyanColorimetric =
      some (.rgb [7, 8] [1, 2, 3, 4, 5, 6] []) ∧
    (∃ dec frame, TiffReader.readIntoPfsFrame cmsColorChecked libmStub rdCyan
        tifCyanColorimetric = some dec ∧
      dec.result = .ok frame ∧ frame.X.getD 0 (F32.ofNat 1) = .fin 0) ∧
    GetTIFFProfile cmsAccepting (tifCyan none) = none ∧
    ∃ dec frame, TiffReader.readIntoPfsFrame cmsAccepting libmStub rdCyan (tifCyan none) =
        some dec ∧
      dec.result = .ok frame ∧ frame.X.getD 0 (F32.ofNat 1) = .fin 0 := by
  obtain ⟨dec, frame, h1, h2, _, _, h3⟩ := C17_full_cyan_red_zero cmsColorChecked libmStub
    tifCyanColorimetric false self0 rdCyan (fun _ => [255, 10, 20, 30]) (F32.ofNat 1) rfl rfl rfl
    rfl rfl (fun _ _ => cmsColorChecked_refuses) (by decide) (by decide)
    (fun r hr => by
      have hr' : r < 1 := hr
      have : r = 0 := by omega
      subst this
      rfl)
    (fun _ _ => rfl) (fun _ _ b hb => by simp at hb; omega)
    (fun r _ i hi => by
      have hi' : i < 1 := hi
      have : i = 0 := by omega
      subst this
      rfl)
  obtain ⟨dec', frame', g1, g2, _, _, g3⟩ := C17_full_cyan_red_zero cmsAccepting libmStub
    (tifCyan none) false self0 rdCyan (fun _ => [255, 10, 20, 30]) (F32.ofNat 1) rfl rfl rfl
    rfl rfl (fun h _ => absurd rfl h) (by decide) (by decide)
    (fun r hr => by
      have hr' : r < 1 := hr
      have : r = 0 := by omega
      subst this
      rfl)
    (fun _ _ => rfl) (fun _ _ b hb => by simp at hb; omega)
    (fun r _ i hi => by
      have hi' : i < 1 := hi
      have : i = 0 := by omega
      subst this
      rfl)
  exact ⟨rfl, rfl, ⟨dec, frame, h1, h2, h3 0 (by decide) 0 (by decide)⟩, rfl,
    dec', frame', g1, g2, g3 0 (by decide) 0 (by decide)⟩

/-- C18: for a reader of kind BYTE (width below 2^31, at most 2^32 pixels)
whose rows are all readable, the decode returns a frame whose channels hold,
at r*W+i, the gamma decode powf (b * (1.f/255.f), 2.2f), computed in single
precision, of the byte b at offsets i*n, i*n+1, i*n+2 of the buffer row r is
unpacked from; and that buffer is the output of the colour transform when there
is one, the raw scanline when there is none and the image is RGB, and the
output of transform_to_rgb when there is none and the image is CMYK. -/
theorem C18_byte_gamma (cms : Lcms) (libm : Libm) (self : TiffReader) (tif : TIFF)
    (xform : Option CmsTransform) (data actOf : Nat → List Nat) (d : F32)
    (hkind : self.TypeOfData = .BYTE)
    (hW : self.width < 2 ^ 31) (h32 : self.width * self.height ≤ 2 ^ 32)
    (hread : ∀ r, r < self.height → tif.scanlines.getD r none = some (data r))
    (hact : ∀ r, r < self.height → ∀ b2, ∃ b b2',
      TiffReader.readIntoPfsFrame.active cms self xform (TIFFScanlineSize tif % 2 ^ 32)
        (data r) b2 = some (actOf r, b, b2')) :
    (∃ dec frame, TiffReader.readIntoPfsFrame.decode cms libm self tif xform = some dec ∧
      dec.result = .ok frame ∧
      ∀ r, r < self.height → ∀ i, i < self.width →
        frame.X.getD (r * self.width + i) d =
          libm.powf (F32.mul (F32.ofNat ((actOf r).getD (i * self.nSamples) 0)) DIV_255)
            F32.c2_2 ∧
        frame.Y.getD (r * self.width + i) d =
          libm.powf (F32.mul (F32.ofNat ((actOf r).getD (i * self.nSamples + 1) 0)) DIV_255)
            F32.c2_2 ∧
        frame.Z.getD (r * self.width + i) d =
          libm.powf (F32.mul (F32.ofNat ((actOf r).getD (i * self.nSamples + 2) 0)) DIV_255)
            F32.c2_2) ∧
    (∀ size buf buf2 t, xform = some t →
      TiffReader.readIntoPfsFrame.active cms self xform size buf buf2 =
        some (cms.doTransform t buf (self.width % 2 ^ 32), buf,
          cms.doTransform t buf (self.width % 2 ^ 32))) ∧
    (∀ size buf buf2, xform = none → self.ColorSpace = .RGB →
      TiffReader.readIntoPfsFrame.active cms self xform size buf buf2 = some (buf, buf, buf2)) ∧
    (∀ size buf buf2, xform = none → self.ColorSpace = .CMYK →
      TiffReader.readIntoPfsFrame.active cms self xform size buf buf2 =
        (transform_to_rgb true buf buf size self.nSamples).map (fun out => (out, out, buf2))) := by
  refine ⟨?_, ?_, ?_, ?_⟩
  · obtain ⟨st, hst, _, _, hin⟩ :=
      scan_planes cms libm self tif xform data actOf d hW h32 hread hact
    rw [decode_of_scan cms libm self tif xform st hst]
    refine ⟨_, _, rfl, if_neg (by simp [hkind]), ?_⟩
    intro r hr i hi
    have h0 := hin 0 (by decide) r hr i hi
    have h1 := hin 1 (by decide) r hr i hi
    have h2 := hin 2 (by decide) r hr i hi
    rw [chan_X, hkind] at h0
    rw [chan_Y, hkind] at h1
    rw [chan_Z, hkind] at h2
    exact ⟨h0, h1, h2⟩
  · intro size buf buf2 t ht
    unfold TiffReader.readIntoPfsFrame.active
    rw [hkind, ht]
  · intro size buf buf2 hx hc
    unfold TiffReader.readIntoPfsFrame.active
    rw [hkind, hx]
    simp [hc]
  · intro size buf buf2 hx hc
    unfold TiffReader.readIntoPfsFrame.active
    rw [hkind, hx]
    simp only [hc, if_true]
    cases transform_to_rgb true buf buf size self.nSamples <;> rfl

/-- C18 at the 1x1 CMYK container with the pixel (255, 10, 20, 30) and a
profile, under a colour-management library whose transform copies its input:
the channels hold the gamma decode of the bytes 255, 10, 20. -/
theorem C18_byte_gamma_witness :
    ∃ dec frame, TiffReader.readIntoPfsFrame cmsAccepting libmStub rdCyan
        (tifCyan (some [1, 2])) = some dec ∧
      dec.result = .ok frame ∧
      frame.X.getD 0 (.fin 0) =
        libmStub.powf (F32.mul (F32.ofNat 255) DIV_255) F32.c2_2 ∧
      frame.Y.getD 0 (.fin 0) =
        libmStub.powf (F32.mul (F32.ofNat 10) DIV_255) F32.c2_2 ∧
      frame.Z.getD 0 (.fin 0) =
        libmStub.powf (F32.mul (F32.ofNat 20) DIV_255) F32.c2_2 := by
  obtain ⟨⟨dec, frame, h1, h2, h3⟩, _⟩ := C18_byte_gamma cmsAccepting libmStub rdCyan
    (tifCyan (some [1, 2]))
    (TiffReader.readIntoPfsFrame.xform cmsAccepting rdCyan (tifCyan (some [1, 2])))
    (fun _ => [255, 10, 20, 30]) (fun _ => [255, 10, 20, 30]) (.fin 0) rfl
    (by decide) (by decide)
    (fun r hr => by
      have hr' : r < 1 := hr
      have : r = 0 := by omega
      subst this
      rfl)
    (fun _ _ _ => ⟨_, _, rfl⟩)
  exact ⟨dec, frame, h1, h2, h3 0 (by decide) 0 (by decide)⟩

/-! ## The writers -/

/-- A loop that stores three values per column into a buffer of 3W elements
leaves a buffer that does not depend on what the buffer held. -/
theorem pack3_content {α : Type} (f0 f1 f2 : Nat → α) (buf : List α) (W : Nat)
    (hl : buf.length = 3 * W) :
    (List.range W).foldl
      (fun b col => ((b.set (3 * col) (f0 col)).set (3 * col + 1) (f1 col)).set
        (3 * col + 2) (f2 col)) buf =
      (List.range (3 * W)).map
        (fun k => if k % 3 = 0 then f0 (k / 3) else if k % 3 = 1 then f1 (k / 3)
          else f2 (k / 3)) := by
  obtain ⟨h1, h2⟩ := pack3_spec f0 f1 f2 buf W (by omega) (f0 0)
  apply list_ext_getD _ _ (f0 0)
  · rw [h1, hl, List.length_map, List.length_range]
  · intro k hk
    rw [h1, hl] at hk
    rw [h2 k, if_pos hk, List.getD_eq_getElem _ _ (by simpa using hk)]
    simp

theorem map_range_getD {α : Type} (f : Nat → α) (n k : Nat) (d : α) (hk : k < n) :
    ((List.range n).map f).getD k d = f k := by
  rw [List.getD_eq_getElem _ _ (by simpa using hk)]
  simp

/-- The byte size of a strip of one row of three samples of `bits` bits, a
multiple of 8. -/
theorem stripSize_row (tif : TIFFOut) (W H b : Nat) (h1 : tif.imageWidth = some W)
    (h2 : tif.imageLength = some H) (h3 : tif.samplesPerPixel = some 3)
    (h4 : tif.rowsPerStrip = some 1) (h5 : tif.bitsPerSample = some (8 * b)) (hH : 0 < H) :
    TIFFStripSize tif = 3 * b * W := by
  unfold TIFFStripSize
  simp only [h1, h2, h3, h4, h5, Option.getD_some]
  have hm : min 1 H = 1 := by omega
  rw [hm, Nat.one_mul]
  have : 8 * b * W * 3 = 8 * (3 * b * W) := by ring
  rw [this]
  omega

theorem numberOfStrips_row (tif : TIFFOut) (H : Nat) (h2 : tif.imageLength = some H)
    (h4 : tif.rowsPerStrip = some 1) : TIFFNumberOfStrips tif = H := by
  unfold TIFFNumberOfStrips
  simp [h2, h4]

/-- The strip buffer after the inner loop of writeFloatTiff. -/
theorem packFloats_eq (W : Nat) (X Y Z : List F32) (b : List F32) (s : Nat)
    (hb : b.length = 3 * W) :
    packFloats W X Y Z b s =
      (List.range (3 * W)).map
        (fun k => if k % 3 = 0 then X.getD ((s * W + k / 3) % 2 ^ 32) (.fin 0)
          else if k % 3 = 1 then Y.getD ((s * W + k / 3) % 2 ^ 32) (.fin 0)
          else Z.getD ((s * W + k / 3) % 2 ^ 32) (.fin 0)) :=
  pack3_content (fun col => X.getD ((s * W + col) % 2 ^ 32) (.fin 0))
    (fun col => Y.getD ((s * W + col) % 2 ^ 32) (.fin 0))
    (fun col => Z.getD ((s * W + col) % 2 ^ 32) (.fin 0)) b W hb

/-- The strip buffer after the inner loop of writePFSFrame16bitTiff. -/
theorem packWords_eq (conv : F32 → Int) (W : Nat) (X Y Z : List F32) (b : List Nat) (s : Nat)
    (hb : b.length = 3 * W) :
    packWords conv W X Y Z b s =
      (List.range (3 * W)).map
        (fun k =>
          if k % 3 = 0 then toQuint16 (castQint16 conv (X.getD ((s * W + k / 3) % 2 ^ 32) (.fin 0)))
          else if k % 3 = 1 then
            toQuint16 (castQint16 conv (Y.getD ((s * W + k / 3) % 2 ^ 32) (.fin 0)))
          else toQuint16 (castQint16 conv (Z.getD ((s * W + k / 3) % 2 ^ 32) (.fin 0)))) :=
  pack3_content
    (fun col => toQuint16 (castQint16 conv (X.getD ((s * W + col) % 2 ^ 32) (.fin 0))))
    (fun col => toQuint16 (castQint16 conv (Y.getD ((s * W + col) % 2 ^ 32) (.fin 0))))
    (fun col => toQuint16 (castQint16 conv (Z.getD ((s * W + col) % 2 ^ 32) (.fin 0)))) b W hb

/-- The function writeFloatTiff, when the buffer is allocated and no write
fails: it returns 0 and has appended one strip per row. -/
theorem writeFloatTiff_ok (alloc : Nat → Bool) (fails : Nat → Option Int)
    (w : TiffWriter) (frame : Frame)
    (W H : Nat) (hf : w.pfsFrame = some frame) (hw : w.width = W)
    (h1 : w.tif.imageWidth = some W) (h2 : w.tif.imageLength = some H)
    (h3 : w.tif.samplesPerPixel = some 3) (h4 : w.tif.rowsPerStrip = some 1)
    (hW0 : 0 < W) (halloc : ∀ n, alloc n = true) (hfails : ∀ s, fails s = none) :
    (w.writeFloatTiff alloc fails).code = .ok 0 ∧
    (w.writeFloatTiff alloc fails).strip_buf_freed = true ∧
    (w.writeFloatTiff alloc fails).tif.strips = w.tif.strips ++ (List.range H).map (fun s =>
      (s, .floats ((List.range (3 * W)).map
        (fun k => if k % 3 = 0 then frame.X.getD ((s * W + k / 3) % 2 ^ 32) (.fin 0)
          else if k % 3 = 1 then frame.Y.getD ((s * W + k / 3) % 2 ^ 32) (.fin 0)
          else frame.Z.getD ((s * W + k / 3) % 2 ^ 32) (.fin 0))))) := by
  unfold TiffWriter.writeFloatTiff
  rw [hf]
  simp only [halloc, Bool.true_eq_false, if_false]
  generalize hT : ({ w.tif with compression := some COMPRESSION_DEFLATE,
                                photometric := some PHOTOMETRIC_RGB,
                                bitsPerSample := some 32 } : TIFFOut) = T
  have t1 : T.imageWidth = some W := by rw [← hT]; exact h1
  have t2 : T.imageLength = some H := by rw [← hT]; exact h2
  have t3 : T.samplesPerPixel = some 3 := by rw [← hT]; exact h3
  have t4 : T.rowsPerStrip = some 1 := by rw [← hT]; exact h4
  have t5 : T.bitsPerSample = some (8 * 4) := by rw [← hT]
  have ts : T.strips = w.tif.strips := by rw [← hT]
  rw [numberOfStrips_row T H t2 t4, hw]
  rcases Nat.eq_zero_or_pos H with hH | hH
  · subst hH
    simp [writeStrips, ts]
  · rw [stripSize_row T W H 4 t1 t2 t3 t4 t5 hH]
    have hsz : 3 * 4 * W / 4 = 3 * W := by omega
    rw [hsz]
    obtain ⟨ha, hb⟩ := writeStrips_ok fails (3 * 4 * W)
      (packFloats W frame.X frame.Y frame.Z) StripData.floats
      (fun s => (List.range (3 * W)).map
        (fun k => if k % 3 = 0 then frame.X.getD ((s * W + k / 3) % 2 ^ 32) (.fin 0)
          else if k % 3 = 1 then frame.Y.getD ((s * W + k / 3) % 2 ^ 32) (.fin 0)
          else frame.Z.getD ((s * W + k / 3) % 2 ^ 32) (.fin 0)))
      (fun b => b.length = 3 * W) (by omega)
      (fun b s hb => packFloats_eq W frame.X frame.Y frame.Z b s hb)
      (fun s => by simp) (List.range H)
      T
      (List.replicate (3 * W) (.fin 0)) (by simp) (fun s _ => hfails s)
    rw [ha, hb]
    simp [ts]

/-- The function writePFSFrame16bitTiff, when the buffer is allocated and no
write fails: it returns 0 and has appended one strip per row. -/
theorem writePFSFrame16bitTiff_ok (conv : F32 → Int) (alloc : Nat → Bool)
    (fails : Nat → Option Int) (w : TiffWriter) (frame : Frame)
    (W H : Nat) (hf : w.pfsFrame = some frame) (hw : w.width = W)
    (h1 : w.tif.imageWidth = some W) (h2 : w.tif.imageLength = some H)
    (h3 : w.tif.samplesPerPixel = some 3) (h4 : w.tif.rowsPerStrip = some 1)
    (hW0 : 0 < W) (halloc : ∀ n, alloc n = true) (hfails : ∀ s, fails s = none) :
    (w.writePFSFrame16bitTiff conv alloc fails).code = .ok 0 ∧
    (w.writePFSFrame16bitTiff conv alloc fails).strip_buf_freed = true ∧
    (w.writePFSFrame16bitTiff conv alloc fails).tif.strips =
      w.tif.strips ++ (List.range H).map (fun s =>
        (s, .words ((List.range (3 * W)).map
          (fun k =>
            if k % 3 = 0 then
              toQuint16 (castQint16 conv (frame.X.getD ((s * W + k / 3) % 2 ^ 32) (.fin 0)))
            else if k % 3 = 1 then
              toQuint16 (castQint16 conv (frame.Y.getD ((s * W + k / 3) % 2 ^ 32) (.fin 0)))
            else toQuint16 (castQint16 conv (frame.Z.getD ((s * W + k / 3) % 2 ^ 32) (.fin 0))))))) := by
  unfold TiffWriter.writePFSFrame16bitTiff
  rw [hf]
  simp only [halloc, Bool.true_eq_false, if_false]
  generalize hT : ({ w.tif with compression := some COMPRESSION_DEFLATE,
                                photometric := some PHOTOMETRIC_RGB,
                                bitsPerSample := some 16 } : TIFFOut) = T
  have t1 : T.imageWidth = some W := by rw [← hT]; exact h1
  have t2 : T.imageLength = some H := by rw [← hT]; exact h2
  have t3 : T.samplesPerPixel = some 3 := by rw [← hT]; exact h3
  have t4 : T.rowsPerStrip = some 1 := by rw [← hT]; exact h4
  have t5 : T.bitsPerSample = some (8 * 2) := by rw [← hT]
  have ts : T.strips = w.tif.strips := by rw [← hT]
  rw [numberOfStrips_row T H t2 t4, hw]
  rcases Nat.eq_zero_or_pos H with hH | hH
  · subst hH
    simp [writeStrips, ts]
  · rw [stripSize_row T W H 2 t1 t2 t3 t4 t5 hH]
    have hsz : 3 * 2 * W / 2 = 3 * W := by omega
    rw [hsz]
    obtain ⟨ha, hb⟩ := writeStrips_ok fails (3 * 2 * W)
      (packWords conv W frame.X frame.Y frame.Z) StripData.words
      (fun s => (List.range (3 * W)).map
        (fun k =>
          if k % 3 = 0 then
            toQuint16 (castQint16 conv (frame.X.getD ((s * W + k / 3) % 2 ^ 32) (.fin 0)))
          else if k % 3 = 1 then
            toQuint16 (castQint16 conv (frame.Y.getD ((s * W + k / 3) % 2 ^ 32) (.fin 0)))
          else toQuint16 (castQint16 conv (frame.Z.getD ((s * W + k / 3) % 2 ^ 32) (.fin 0)))))
      (fun b => b.length = 3 * W) (by omega)
      (fun b s hb => packWords_eq conv W frame.X frame.Y frame.Z b s hb)
      (fun s => by simp) (List.range H)
      T
      (List.replicate (3 * W) 0) (by simp) (fun s _ => hfails s)
    rw [ha, hb]
    simp [ts]

theorem map_getD {α β : Type} (f : α → β) (l : List α) (k : Nat) (hk : k < l.length)
    (d : β) (e : α) : (l.map f).getD k d = f (l.getD k e) := by
  rw [List.getD_eq_getElem _ _ (by simpa using hk), List.getD_eq_getElem _ _ hk]
  simp

/-- The writer the constructor makes of a frame. -/
theorem ofFrame_fields (opened : TIFFOut) (f : Frame) (w : TiffWriter)
    (h : TiffWriter.ofFrame (some opened) f = .ok w) :
    w.pfsFrame = some f ∧ w.width = f.width ∧ w.tif.imageWidth = some f.width ∧
    w.tif.imageLength = some f.height ∧ w.tif.samplesPerPixel = some 3 ∧
    w.tif.rowsPerStrip = some 1 ∧ w.tif.strips = opened.strips := by
  unfold TiffWriter.ofFrame at h
  injection h with h
  rw [← h]
  exact ⟨rfl, rfl, rfl, rfl, rfl, rfl, rfl⟩

/-- C19: for a reader of kind FLOAT (thumbnail not written on disk, width
positive and below 2^31, at most 2^32 pixels) whose rows are all readable, the
full decode returns a frame, and writeFloatTiff on the writer constructed from
that frame, when the buffer is allocated and no write fails, returns 0 and has
appended one strip per row, in order: strip s holds 3W floats, at 3c, 3c+1,
3c+2 the floats found at offsets c*n, c*n+1, c*n+2 of scanline s of the source
(n is samples per pixel); when n = 3 and the scanline has 3W samples, the strip
is the scanline. -/
theorem C19_float_round_trip (cms : Lcms) (libm : Libm) (self : TiffReader) (tif : TIFF)
    (data : Nat → List Nat) (opened : TIFFOut) (alloc : Nat → Bool)
    (fails : Nat → Option Int) (d : F32)
    (hkind : self.TypeOfData = .FLOAT) (hwod : self.writeOnDisk = false)
    (hW0 : 0 < self.width) (hW : self.width < 2 ^ 31)
    (h32 : self.width * self.height ≤ 2 ^ 32)
    (hread : ∀ r, r < self.height → tif.scanlines.getD r none = some (data r))
    (halloc : ∀ n, alloc n = true) (hfails : ∀ s, fails s = none) :
    ∃ dec frame w, ∃ strip : Nat → List F32,
      TiffReader.readIntoPfsFrame cms libm self tif = some dec ∧
      dec.result = .ok frame ∧
      TiffWriter.ofFrame (some opened) frame = .ok w ∧
      (w.writeFloatTiff alloc fails).code = .ok 0 ∧
      (w.writeFloatTiff alloc fails).tif.strips =
        opened.strips ++ (List.range self.height).map (fun s => (s, StripData.floats (strip s))) ∧
      ∀ s, s < self.height →
        (strip s).length = 3 * self.width ∧
        (∀ c, c < self.width →
          (strip s).getD (3 * c) d = F32.ofBits ((data s).getD (c * self.nSamples) 0) ∧
          (strip s).getD (3 * c + 1) d = F32.ofBits ((data s).getD (c * self.nSamples + 1) 0) ∧
          (strip s).getD (3 * c + 2) d = F32.ofBits ((data s).getD (c * self.nSamples + 2) 0)) ∧
        (self.nSamples = 3 → (data s).length = 3 * self.width →
          strip s = (data s).map F32.ofBits) := by
  obtain ⟨st, hst, _, _, hin⟩ := scan_planes cms libm self tif
    (TiffReader.readIntoPfsFrame.xform cms self tif) data data (.fin 0) hW h32 hread
    (fun r _ b2 => ⟨data r, b2, active_float cms self _ _ (Or.inl hkind) _ _⟩)
  have hs : ∀ v, TiffReader.readIntoPfsFrame.sample libm self.TypeOfData v = F32.ofBits v := by
    intro v
    rw [hkind]
    rfl
  have hassert : ¬ (self.writeOnDisk = true ∧
      (self.TypeOfData = .FLOAT ∨ self.TypeOfData = .FLOATLOGLUV)) := by
    rw [hwod]
    simp
  obtain ⟨w, hw⟩ : ∃ w, TiffWriter.ofFrame (some opened)
      { width := self.width, height := self.height, X := st.X, Y := st.Y, Z := st.Z } = .ok w :=
    ⟨_, rfl⟩
  obtain ⟨f1, f2, f3, f4, f5, f6, f7⟩ := ofFrame_fields opened _ w hw
  obtain ⟨w1, _, w3⟩ := writeFloatTiff_ok alloc fails w _ self.width self.height f1 f2 f3 f4 f5
    f6 hW0 halloc hfails
  have hidx : ∀ s, s < self.height → ∀ c, c < self.width →
      (s * self.width + c) % 2 ^ 32 = s * self.width + c := by
    intro s hs' c hc
    have := row_bound s self.height self.width hs'
    have h32' : self.height * self.width ≤ 2 ^ 32 := by rw [Nat.mul_comm]; exact h32
    exact Nat.mod_eq_of_lt (by omega)
  have hget : ∀ s, s < self.height → ∀ k, k < 3 * self.width → ∀ e,
      ((List.range (3 * self.width)).map
        (fun k => if k % 3 = 0 then st.X.getD ((s * self.width + k / 3) % 2 ^ 32) (.fin 0)
          else if k % 3 = 1 then st.Y.getD ((s * self.width + k / 3) % 2 ^ 32) (.fin 0)
          else st.Z.getD ((s * self.width + k / 3) % 2 ^ 32) (.fin 0))).getD k e =
        F32.ofBits ((data s).getD (k / 3 * self.nSamples + k % 3) 0) := by
    intro s hs' k hk e
    rw [map_range_getD _ _ _ _ hk, hidx s hs' (k / 3) (by omega)]
    have h0 := hin 0 (by decide) s hs' (k / 3) (by omega)
    have h1 := hin 1 (by decide) s hs' (k / 3) (by omega)
    have h2 := hin 2 (by decide) s hs' (k / 3) (by omega)
    rw [chan_X, hs] at h0
    rw [chan_Y, hs] at h1
    rw [chan_Z, hs] at h2
    by_cases m0 : k % 3 = 0
    · rw [if_pos m0, h0, m0]
    · rw [if_neg m0]
      by_cases m1 : k % 3 = 1
      · rw [if_pos m1, h1, m1]
      · have m2 : k % 3 = 2 := by omega
        rw [if_neg m1, h2, m2]
  refine ⟨{ result := .ok { width := self.width, height := self.height,
                            X := st.X, Y := st.Y, Z := st.Z }, tif := st.tif },
    { width := self.width, height := self.height, X := st.X, Y := st.Y, Z := st.Z }, w,
    (fun s => (List.range (3 * self.width)).map
      (fun k => if k % 3 = 0 then st.X.getD ((s * self.width + k / 3) % 2 ^ 32) (.fin 0)
        else if k % 3 = 1 then st.Y.getD ((s * self.width + k / 3) % 2 ^ 32) (.fin 0)
        else st.Z.getD ((s * self.width + k / 3) % 2 ^ 32) (.fin 0))),
    ?_, rfl, hw, w1, ?_, ?_⟩
  · unfold TiffReader.readIntoPfsFrame
    rw [decode_of_scan cms libm self tif _ st hst, if_neg hassert]
  · rw [w3, f7]
  · intro s hs'
    refine ⟨by simp, ?_, ?_⟩
    · intro c hc
      have e0 : 3 * c / 3 = c := by omega
      have e1 : (3 * c + 1) / 3 = c := by omega
      have e2 : (3 * c + 2) / 3 = c := by omega
      have r0 : 3 * c % 3 = 0 := by omega
      have r1 : (3 * c + 1) % 3 = 1 := by omega
      have r2 : (3 * c + 2) % 3 = 2 := by omega
      refine ⟨?_, ?_, ?_⟩
      · rw [hget s hs' (3 * c) (by omega) d, e0, r0]
        rfl
      · rw [hget s hs' (3 * c + 1) (by omega) d, e1, r1]
      · rw [hget s hs' (3 * c + 2) (by omega) d, e2, r2]
    · intro hn hlen
      apply list_ext_getD _ _ (.fin 0)
      · simp [hlen]
      · intro k hk
        have hk' : k < 3 * self.width := by simpa using hk
        rw [hget s hs' k hk' _, map_getD F32.ofBits (data s) k (by omega) _ 0, hn]
        have : k / 3 * 3 + k % 3 = k := by omega
        rw [this]

/-- C19 at the 2x1 float container: the strip written is the scanline
read. -/
theorem C19_float_round_trip_witness :
    ∃ dec frame w,
      TiffReader.readIntoPfsFrame cmsAccepting libmStub rdFloat tifFloat = some dec ∧
      dec.result = .ok frame ∧
      TiffWriter.ofFrame (some {}) frame = .ok w ∧
      (w.writeFloatTiff (fun _ => true) (fun _ => none)).code = .ok 0 ∧
      (w.writeFloatTiff (fun _ => true) (fun _ => none)).tif.strips =
        [(0, StripData.floats
          ([1065353216, 1073741824, 1077936128, 1082130432, 1084227584, 1086324736].map
            F32.ofBits))] := by
  obtain ⟨dec, frame, w, strip, h1, h2, h3, h4, h5, h6⟩ :=
    C19_float_round_trip cmsAccepting libmStub rdFloat tifFloat
      (fun _ => [1065353216, 1073741824, 1077936128, 1082130432, 1084227584, 1086324736])
      {} (fun _ => true) (fun _ => none) (.fin 0) rfl rfl (by decide) (by decide) (by decide)
      (fun r hr => by
        have hr' : r < 1 := hr
        have : r = 0 := by omega
        subst this
        rfl)
      (fun _ => rfl) (fun _ => rfl)
  refine ⟨dec, frame, w, h1, h2, h3, h4, ?_⟩
  rw [h5, ← (h6 0 (by decide)).2.2 rfl rfl]
  rfl

/-- The conversion of a finite float whose truncation lies in -32768..32767 is
defined, and the word stored for it is the truncated value modulo 65536: the
magnitude is floored, the sign is kept. -/
theorem word_of_fin (conv : F32 → Int) (n : Int) (hlo : -(32769 * 2 ^ 149) < n)
    (hhi : n < 32768 * 2 ^ 149) :
    (F32.fin n).fitsQint16 = true ∧
    toQuint16 (castQint16 conv (.fin n)) =
      ((n.sign * ((n.natAbs / 2 ^ 149 : Nat) : Int)) % 65536).toNat := by
  have hq := tdiv_sign_natAbs n
  have hb : -32768 ≤ n.sign * ((n.natAbs / 2 ^ 149 : Nat) : Int) ∧
      n.sign * ((n.natAbs / 2 ^ 149 : Nat) : Int) ≤ 32767 := by
    rcases lt_trichotomy n 0 with hneg | hz | hpos
    · rw [Int.sign_eq_neg_one_of_neg hneg]
      have : n.natAbs / 2 ^ 149 ≤ 32768 := by omega
      omega
    · subst hz
      simp
    · rw [Int.sign_eq_one_of_pos hpos]
      have : n.natAbs / 2 ^ 149 ≤ 32767 := by omega
      omega
  have hfit : (F32.fin n).fitsQint16 = true := by
    show decide (-32768 ≤ Int.tdiv n (2 ^ 149) ∧ Int.tdiv n (2 ^ 149) ≤ 32767) = true
    rw [hq]
    exact decide_eq_true hb
  refine ⟨hfit, ?_⟩
  rw [toQuint16_castQint16 conv _ hfit, trunc_fin, hq]

/-- The word stored for a float that the decode made of a 16-bit word below
32768. -/
theorem word_of_ofNat (conv : F32 → Int) (v : Nat) (hv : v < 32768) :
    toQuint16 (castQint16 conv (F32.ofNat v)) = v := by
  rw [ofNat_exact v (by omega)]
  have h := (word_of_fin conv ((v * 2 ^ 149 : Nat) : Int) (by omega) (by omega)).2
  rw [h]
  rcases Nat.eq_zero_or_pos v with h0 | h0
  · subst h0
    simp
  · rw [Int.sign_eq_one_of_pos (by omega), Int.natAbs_ofNat,
      Nat.mul_div_cancel _ (Nat.two_pow_pos _)]
    omega

/-- The conversion of a finite float whose truncation is outside
-32768..32767 is not defined. -/
theorem fitsQint16_false (n : Int)
    (h : ¬ (-32768 ≤ Int.tdiv n (2 ^ 149) ∧ Int.tdiv n (2 ^ 149) ≤ 32767)) :
    (F32.fin n).fitsQint16 = false :=
  decide_eq_false h

/-- The x86-64 conversion of a finite float whose truncation fits an `int`. -/
theorem cvttss2si_fin (n : Int)
    (h : -(2 ^ 31) ≤ Int.tdiv n (2 ^ 149) ∧ Int.tdiv n (2 ^ 149) < 2 ^ 31) :
    cvttss2si (.fin n) = Int.tdiv n (2 ^ 149) :=
  if_pos h

/-- The word stored, under the x86-64 conversion, for a float that the decode
made of a 16-bit word. -/
theorem word_of_ofNat_x86 (v : Nat) (hv : v < 65536) :
    toQuint16 (castQint16 cvttss2si (F32.ofNat v)) = v := by
  by_cases hlt : v < 32768
  · exact word_of_ofNat _ v hlt
  · rw [ofNat_exact v (by omega)]
    have h2 : ((2 : Int) ^ 149) = ((2 ^ 149 : Nat) : Int) := by norm_cast
    have ht : Int.tdiv ((v * 2 ^ 149 : Nat) : Int) (2 ^ 149) = v := by
      rw [h2, Int.tdiv_eq_ediv (Int.ofNat_nonneg _) (Int.ofNat_nonneg _), ← Int.ofNat_ediv,
        Nat.mul_div_cancel _ (Nat.two_pow_pos _)]
    generalize ((v * 2 ^ 149 : Nat) : Int) = m at ht
    have hfit : (F32.fin m).fitsQint16 = false :=
      fitsQint16_false m (by rw [ht]; omega)
    have hc : cvttss2si (.fin m) = v := by
      rw [cvttss2si_fin m (by rw [ht]; omega), ht]
    unfold castQint16
    rw [hfit, hc]
    simp only [Bool.false_eq_true, if_false]
    unfold toQuint16 wrapInt16
    omega

/-- The finite floats whose conversion to qint16 is defined are those strictly
between -32769 and 32768. -/
theorem fitsQint16_iff (n : Int) :
    (F32.fin n).fitsQint16 = true ↔ -(32769 * 2 ^ 149) < n ∧ n < 32768 * 2 ^ 149 := by
  constructor
  · intro h
    have h' : -32768 ≤ Int.tdiv n (2 ^ 149) ∧ Int.tdiv n (2 ^ 149) ≤ 32767 :=
      of_decide_eq_true h
    rw [tdiv_sign_natAbs] at h'
    rcases lt_trichotomy n 0 with hneg | hz | hpos
    · rw [Int.sign_eq_neg_one_of_neg hneg] at h'
      have : n.natAbs / 2 ^ 149 ≤ 32768 := by omega
      omega
    · subst hz
      omega
    · rw [Int.sign_eq_one_of_pos hpos] at h'
      have : n.natAbs / 2 ^ 149 ≤ 32767 := by omega
      omega
  · intro h
    exact (word_of_fin (fun _ => 0) n h.1 h.2).1

set_option maxRecDepth 100000 in
/-- The words stored, under the x86-64 conversion, for 65535.0, 1.5 and
-1.0. -/
theorem words_eval :
    toQuint16 (castQint16 cvttss2si (.fin (65535 * 2 ^ 149))) = 65535 ∧
    toQuint16 (castQint16 cvttss2si (.fin (3 * 2 ^ 148))) = 1 ∧
    toQuint16 (castQint16 cvttss2si (.fin (-(2 ^ 149)))) = 65535 := by
  decide

set_option maxRecDepth 100000 in
/-- The words stored, under the x86-64 conversion, for 3000000000.0,
-3000000000.0 and 4294967808.0, and the truncated values modulo 65536. -/
theorem big_eval :
    toQuint16 (castQint16 cvttss2si (.fin (3000000000 * 2 ^ 149))) = 0 ∧
    toQuint16 (castQint16 cvttss2si (.fin (-(3000000000 * 2 ^ 149)))) = 0 ∧
    toQuint16 (castQint16 cvttss2si (.fin (4294967808 * 2 ^ 149))) = 0 ∧
    (Int.tdiv (3000000000 * 2 ^ 149) (2 ^ 149) % 65536).toNat = 24064 ∧
    (Int.tdiv (-(3000000000 * 2 ^ 149)) (2 ^ 149) % 65536).toNat = 41472 ∧
    (Int.tdiv (4294967808 * 2 ^ 149) (2 ^ 149) % 65536).toNat = 512 ∧
    (F32.fin (3000000000 * 2 ^ 149)).fitsQint16 = false := by
  decide

/-- C20, as stated, fails: the samples 3000000000.0, -3000000000.0 and
4294967808.0 truncate to integers that are 24064, 41472 and 512 modulo 65536,
but they cannot be represented in a qint16, so that C++ leaves their
conversion undefined: the word stored is the low 16 bits of whatever the
compiled conversion produces, and with the conversion of x86-64 the encoder
writes the strip (0, 0, 0). -/
theorem C20_counterexample :
    (∃ w, TiffWriter.ofFrame (some {}) frameBig = .ok w ∧
      (w.writePFSFrame16bitTiff cvttss2si (fun _ => true) (fun _ => none)).code = .ok 0 ∧
      (w.writePFSFrame16bitTiff cvttss2si (fun _ => true) (fun _ => none)).tif.strips =
        [(0, StripData.words [0, 0, 0])]) ∧
    toQuint16 (castQint16 cvttss2si (.fin (3000000000 * 2 ^ 149))) = 0 ∧
    toQuint16 (castQint16 cvttss2si (.fin (-(3000000000 * 2 ^ 149)))) = 0 ∧
    toQuint16 (castQint16 cvttss2si (.fin (4294967808 * 2 ^ 149))) = 0 ∧
    (Int.tdiv (3000000000 * 2 ^ 149) (2 ^ 149) % 65536).toNat = 24064 ∧
    (Int.tdiv (-(3000000000 * 2 ^ 149)) (2 ^ 149) % 65536).toNat = 41472 ∧
    (Int.tdiv (4294967808 * 2 ^ 149) (2 ^ 149) % 65536).toNat = 512 ∧
    (∀ conv : F32 → Int, toQuint16 (castQint16 conv (.fin (3000000000 * 2 ^ 149))) =
      (conv (.fin (3000000000 * 2 ^ 149)) % 65536).toNat) := by
  refine ⟨⟨_, rfl, rfl, ?_⟩, big_eval.1, big_eval.2.1, big_eval.2.2.1, big_eval.2.2.2.1,
    big_eval.2.2.2.2.1, big_eval.2.2.2.2.2.1, ?_⟩
  · exact Eq.trans (rfl : _ = [(0, StripData.words
        [toQuint16 (castQint16 cvttss2si (.fin (3000000000 * 2 ^ 149))),
         toQuint16 (castQint16 cvttss2si (.fin (-(3000000000 * 2 ^ 149)))),
         toQuint16 (castQint16 cvttss2si (.fin (4294967808 * 2 ^ 149)))])])
      (by rw [big_eval.1, big_eval.2.1, big_eval.2.2.1])
  intro conv
  unfold castQint16
  rw [big_eval.2.2.2.2.2.2]
  simp only [Bool.false_eq_true, if_false]
  unfold toQuint16 wrapInt16
  omega

/-- C20, amended: writePFSFrame16bitTiff on the writer constructed from a
frame of positive width, when the buffer is allocated and no write fails,
returns 0 and has appended one strip per row, strip s holding at 3c, 3c+1, 3c+2
the words stored for the X, Y, Z samples of pixel c of row s (at most 2^32
pixels).  The conversion of a sample to qint16 is defined for the finite
values strictly between -32769 and 32768 (and for -0) and for no other float.
Where it is defined, the word stored for the sample n * 2^-149 is the
truncated value modulo 65536, the truncation flooring the magnitude and keeping
the sign; no rounding, no clamping.  Where it is not, the word is the low 16
bits of what the compiled conversion produces.  A sample that the decode made
of a 16-bit word v below 32768 is written back as v, whatever the conversion;
with the conversion of x86-64 this holds for every v below 65536. -/
theorem C20_word_truncation (libm : Libm) (conv : F32 → Int) (f : Frame) (opened : TIFFOut)
    (alloc : Nat → Bool) (fails : Nat → Option Int) (w : TiffWriter) (d : Nat)
    (hw : TiffWriter.ofFrame (some opened) f = .ok w)
    (hW0 : 0 < f.width) (h32 : f.width * f.height ≤ 2 ^ 32)
    (halloc : ∀ n, alloc n = true) (hfails : ∀ s, fails s = none) :
    (∃ strip : Nat → List Nat,
      (w.writePFSFrame16bitTiff conv alloc fails).code = .ok 0 ∧
      (w.writePFSFrame16bitTiff conv alloc fails).tif.strips =
        opened.strips ++ (List.range f.height).map (fun s => (s, StripData.words (strip s))) ∧
      ∀ s, s < f.height → (strip s).length = 3 * f.width ∧ ∀ c, c < f.width →
        (strip s).getD (3 * c) d =
          toQuint16 (castQint16 conv (f.X.getD (s * f.width + c) (.fin 0))) ∧
        (strip s).getD (3 * c + 1) d =
          toQuint16 (castQint16 conv (f.Y.getD (s * f.width + c) (.fin 0))) ∧
        (strip s).getD (3 * c + 2) d =
          toQuint16 (castQint16 conv (f.Z.getD (s * f.width + c) (.fin 0)))) ∧
    (∀ n : Int, (F32.fin n).fitsQint16 = true ↔
      -(32769 * 2 ^ 149) < n ∧ n < 32768 * 2 ^ 149) ∧
    F32.negZero.fitsQint16 = true ∧ F32.nan.fitsQint16 = false ∧
    (∀ b, (F32.inf b).fitsQint16 = false) ∧
    (∀ n : Int, -(32769 * 2 ^ 149) < n → n < 32768 * 2 ^ 149 →
      toQuint16 (castQint16 conv (.fin n)) =
        ((n.sign * ((n.natAbs / 2 ^ 149 : Nat) : Int)) % 65536).toNat) ∧
    toQuint16 (castQint16 conv .negZero) = 0 ∧
    (∀ x : F32, x.fitsQint16 = false →
      toQuint16 (castQint16 conv x) = (conv x % 65536).toNat) ∧
    (∀ v, v < 32768 →
      toQuint16 (castQint16 conv (TiffReader.readIntoPfsFrame.sample libm .WORD v)) = v) ∧
    (∀ v, v < 65536 →
      toQuint16 (castQint16 cvttss2si (TiffReader.readIntoPfsFrame.sample libm .WORD v)) = v) := by
  obtain ⟨f1, f2, f3, f4, f5, f6, f7⟩ := ofFrame_fields opened f w hw
  obtain ⟨w1, _, w3⟩ := writePFSFrame16bitTiff_ok conv alloc fails w f f.width f.height f1 f2
    f3 f4 f5 f6 hW0 halloc hfails
  have hidx : ∀ s, s < f.height → ∀ c, c < f.width →
      (s * f.width + c) % 2 ^ 32 = s * f.width + c := by
    intro s hs' c hc
    have := row_bound s f.height f.width hs'
    have h32' : f.height * f.width ≤ 2 ^ 32 := by rw [Nat.mul_comm]; exact h32
    exact Nat.mod_eq_of_lt (by omega)
  refine ⟨⟨(fun s => (List.range (3 * f.width)).map
      (fun k =>
        if k % 3 = 0 then
          toQuint16 (castQint16 conv (f.X.getD ((s * f.width + k / 3) % 2 ^ 32) (.fin 0)))
        else if k % 3 = 1 then
          toQuint16 (castQint16 conv (f.Y.getD ((s * f.width + k / 3) % 2 ^ 32) (.fin 0)))
        else toQuint16 (castQint16 conv (f.Z.getD ((s * f.width + k / 3) % 2 ^ 32) (.fin 0))))),
    w1, ?_, ?_⟩, fitsQint16_iff, rfl, rfl, fun _ => rfl,
    fun n h1 h2 => (word_of_fin conv n h1 h2).2, rfl, ?_,
    fun v hv => word_of_ofNat conv v hv, fun v hv => word_of_ofNat_x86 v hv⟩
  · rw [w3, f7]
  · intro s hs'
    refine ⟨by simp, ?_⟩
    intro c hc
    have e0 : 3 * c / 3 = c := by omega
    have e1 : (3 * c + 1) / 3 = c := by omega
    have e2 : (3 * c + 2) / 3 = c := by omega
    have r0 : 3 * c % 3 = 0 := by omega
    have r1 : (3 * c + 1) % 3 = 1 := by omega
    have r2 : (3 * c + 2) % 3 = 2 := by omega
    refine ⟨?_, ?_, ?_⟩
    · rw [map_range_getD _ _ _ _ (by omega)]
      simp only [e0, r0, if_true, hidx s hs' c hc]
    · rw [map_range_getD _ _ _ _ (by omega)]
      simp only [e1, r1, hidx s hs' c hc]
      simp
    · rw [map_range_getD _ _ _ _ (by omega)]
      simp only [e2, r2, hidx s hs' c hc]
      simp
  · intro x hx
    unfold castQint16
    rw [hx]
    simp only [Bool.false_eq_true, if_false]
    unfold toQuint16 wrapInt16
    omega

/-- C20, amended, at a 1x1 frame with the samples 65535.0, 1.5 and -1.0, under
the conversion of x86-64: the strip is (65535, 1, 65535); 1.5 is truncated to
1 and -1.0 is stored as 65535. -/
theorem C20_word_truncation_witness :
    ∃ w, TiffWriter.ofFrame (some {}) frameWords = .ok w ∧
      (w.writePFSFrame16bitTiff cvttss2si (fun _ => true) (fun _ => none)).code = .ok 0 ∧
      (w.writePFSFrame16bitTiff cvttss2si (fun _ => true) (fun _ => none)).tif.strips =
        [(0, StripData.words [65535, 1, 65535])] ∧
      toQuint16 (castQint16 cvttss2si (F32.ofNat 32767)) = 32767 := by
  obtain ⟨⟨strip, h1, h2, h3⟩, _, _, _, _, _, _, _, h4, _⟩ := C20_word_truncation libmStub
    cvttss2si frameWords {} (fun _ => true) (fun _ => none) _ 0 rfl (by decide) (by decide)
    (fun _ => rfl) (fun _ => rfl)
  refine ⟨_, rfl, h1, ?_, h4 32767 (by decide)⟩
  rw [h2]
  obtain ⟨hl, hc⟩ := h3 0 (by decide)
  obtain ⟨c0, c1, c2⟩ := hc 0 (by decide)
  have e : strip 0 = [65535, 1, 65535] := by
    apply list_ext_getD _ _ 0
    · rw [hl]
      rfl
    · intro k hk
      rw [hl] at hk
      have hk' : k < 3 := hk
      interval_cases k
      · rw [c0]
        exact words_eval.1
      · rw [c1]
        exact words_eval.2.1
      · rw [c2]
        exact words_eval.2.2
  show [] ++ [(0, StripData.words (strip 0))] = _
  rw [e]
  rfl

/-! ## The thumbnail precondition, the handle after classification, the size check -/

/-- C24: for every reader whose sample kind is not BYTE (WORD, FLOAT or
FLOATLOGLUV), readIntoQImage ends at once with the failure of its `assert`
(InvalidPrecondition): no image is returned and the handle is as it was, no
scanline having been requested. -/
theorem C24_thumbnail_precondition (cms : Lcms) (self : TiffReader) (tif : TIFF)
    (hkind : self.TypeOfData ≠ .BYTE) :
    TiffReader.readIntoQImage cms self tif =
      some { result := .error .InvalidPrecondition, tif := tif } ∧
    (∀ th, TiffReader.readIntoQImage cms self tif = some th →
      th.result = .error .InvalidPrecondition ∧ th.tif.rowsRead = tif.rowsRead ∧
      ∀ img, th.result ≠ .ok img) ∧
    (self.TypeOfData = .WORD ∨ self.TypeOfData = .FLOAT ∨ self.TypeOfData = .FLOATLOGLUV) := by
  have h : TiffReader.readIntoQImage cms self tif =
      some { result := .error .InvalidPrecondition, tif := tif } := by
    unfold TiffReader.readIntoQImage
    rw [if_pos hkind]
  refine ⟨h, ?_, ?_⟩
  · intro th hth
    rw [h] at hth
    injection hth with hth
    rw [← hth]
    refine ⟨rfl, rfl, ?_⟩
    intro img himg
    cases himg
  · cases hT : self.TypeOfData with
    | FLOATLOGLUV => exact Or.inr (Or.inr rfl)
    | FLOAT => exact Or.inr (Or.inl rfl)
    | WORD => exact Or.inl rfl
    | BYTE => exact absurd hT hkind

/-- C24 at the reader of a 16-bit RGB container. -/
theorem C24_thumbnail_precondition_witness :
    (TiffReader.new tifWord false self0).1 = .ok rdWord ∧
    TiffReader.readIntoQImage cmsAccepting rdWord tifWord =
      some { result := .error .InvalidPrecondition, tif := tifWord } :=
  ⟨rfl, (C24_thumbnail_precondition cmsAccepting rdWord tifWord (by decide)).1⟩

/-- The handle the constructor leaves: the handle it was given, except that a
LogLuv container that passes the checks has its SGILOGDATAFMT set to float. -/
theorem new_handle (tif : TIFF) (wod : Bool) (self : TiffReader) :
    ((TiffReader.new tif wod self).2 = tif ∧
      ((∃ r, (TiffReader.new tif wod self).1 = .ok r) →
        tif.photometric ≠ some PHOTOMETRIC_LOGLUV)) ∨
    ((∃ r, (TiffReader.new tif wod self).1 = .ok r) ∧
      tif.photometric = some PHOTOMETRIC_LOGLUV ∧
      (TiffReader.new tif wod self).2 = TIFFSetField_SGILOGDATAFMT tif SGILOGDATAFMT_FLOAT) := by
  by_cases hs : tif.imageWidth * tif.imageLength % 4294967296 = 0
  · left
    unfold TiffReader.new
    simp [hs]
  · by_cases hp : tif.planarConfig = PLANARCONFIG_CONTIG
    · cases hph : tif.photometric with
      | none =>
        left
        unfold TiffReader.new
        simp [hs, hp, hph, TIFFGetFieldDefaulted, TIFFGetField]
      | some ph =>
        by_cases h1 : ph = PHOTOMETRIC_LOGLUV
        · subst h1
          cases hc : tif.compression with
          | none =>
            left
            unfold TiffReader.new
            simp [hs, hp, hph, hc, TIFFGetFieldDefaulted, TIFFGetField, COMPRESSION_NONE,
              COMPRESSION_SGILOG, COMPRESSION_SGILOG24]
          | some c =>
            by_cases c1 : c = COMPRESSION_SGILOG
            · right
              unfold TiffReader.new
              simp [hs, hp, hph, hc, TIFFGetFieldDefaulted, TIFFGetField, c1]
            · by_cases c2 : c = COMPRESSION_SGILOG24
              · right
                unfold TiffReader.new
                simp [hs, hp, hph, hc, TIFFGetFieldDefaulted, TIFFGetField, c2]
              · left
                unfold TiffReader.new
                simp [hs, hp, hph, hc, TIFFGetFieldDefaulted, TIFFGetField, c1, c2]
        · left
          have h1' : ¬ some ph = some PHOTOMETRIC_LOGLUV := by simpa using h1
          refine ⟨?_, fun _ => h1'⟩
          have hsz : (tif.imageWidth * tif.imageLength) % 2 ^ 32 ≠ 0 := by simpa using hs
          by_cases h2 : ph = PHOTOMETRIC_RGB
          · subst h2
            rw [new_rgb tif wod self hsz hp hph]
            split
            · rfl
            · split
              · rfl
              · split <;> rfl
          · by_cases h3 : ph = PHOTOMETRIC_SEPARATED
            · subst h3
              rw [new_cmyk tif wod self hsz hp hph]
            · unfold TiffReader.new
              simp [hs, hp, hph, TIFFGetFieldDefaulted, TIFFGetField, h1, h2, h3]
    · left
      unfold TiffReader.new
      simp [hs, hp]

/-- C26, as stated, fails: the constructor succeeds on the 2x2 LogLuv container
compressed with SGILOG and leaves a handle whose SGILOGDATAFMT setting, unset
before, is float. -/
theorem C26_counterexample :
    (∃ r, (TiffReader.new
      (tifOf (some PHOTOMETRIC_LOGLUV) (some COMPRESSION_SGILOG) (some 3) none none)
      false self0).1 = .ok r) ∧
    (tifOf (some PHOTOMETRIC_LOGLUV) (some COMPRESSION_SGILOG) (some 3) none none).sgilogDataFmt =
      none ∧
    (TiffReader.new (tifOf (some PHOTOMETRIC_LOGLUV) (some COMPRESSION_SGILOG) (some 3) none none)
      false self0).2.sgilogDataFmt = some SGILOGDATAFMT_FLOAT ∧
    (TiffReader.new (tifOf (some PHOTOMETRIC_LOGLUV) (some COMPRESSION_SGILOG) (some 3) none none)
      false self0).2 ≠
      tifOf (some PHOTOMETRIC_LOGLUV) (some COMPRESSION_SGILOG) (some 3) none none := by
  refine ⟨⟨_, rfl⟩, rfl, rfl, ?_⟩
  intro h
  have h' := congrArg TIFF.sgilogDataFmt h
  exact absurd h' (by decide)

/-- C26, amended: the constructor leaves the handle as it was when it fails and
when the photometric tag is not LOGLUV.  When it succeeds on a LogLuv container
the handle is the one that the call TIFFSetField (TIFFTAG_SGILOGDATAFMT,
SGILOGDATAFMT_FLOAT), the only write of the constructor, leaves of the handle
it was given: the data format is float and, the codec having adjusted the
directory to it, the bits per sample are 32 and the sample format is IEEE
floating point, so that a scanline is sized for 32-bit samples; every other
tag and the image data are as they were. -/
theorem C26_container_effect (tif : TIFF) (wod : Bool) (self : TiffReader) :
    (∀ e, (TiffReader.new tif wod self).1 = .error e → (TiffReader.new tif wod self).2 = tif) ∧
    (tif.photometric ≠ some PHOTOMETRIC_LOGLUV → (TiffReader.new tif wod self).2 = tif) ∧
    (∀ r, (TiffReader.new tif wod self).1 = .ok r →
      tif.photometric = some PHOTOMETRIC_LOGLUV →
      (TiffReader.new tif wod self).2 = TIFFSetField_SGILOGDATAFMT tif SGILOGDATAFMT_FLOAT ∧
      (TiffReader.new tif wod self).2 =
        { tif with sgilogDataFmt := some SGILOGDATAFMT_FLOAT, bitsPerSample := some 32,
                   sampleFormat := some SAMPLEFORMAT_IEEEFP } ∧
      TIFFScanlineSize (TiffReader.new tif wod self).2 =
        (32 * tif.imageWidth * tif.samplesPerPixel.getD 1 + 7) / 8) := by
  rcases new_handle tif wod self with ⟨h1, h2⟩ | ⟨⟨r, hr⟩, h2, h3⟩
  · refine ⟨fun _ _ => h1, fun _ => h1, ?_⟩
    intro r hr hph
    exact absurd hph (h2 ⟨r, hr⟩)
  · refine ⟨?_, fun hne => absurd h2 hne, fun _ _ _ => ⟨h3, ?_, ?_⟩⟩
    · intro e he
      rw [hr] at he
      cases he
    · rw [h3]
      rfl
    · rw [h3]
      unfold TIFFScanlineSize
      rw [if_pos ⟨h2, rfl⟩]
      rfl

/-- C26, amended, at the LogLuv container compressed with DEFLATE (the
constructor fails, the handle is as it was) and at the one compressed with
SGILOG (the handle has SGILOGDATAFMT set to float, 32 bits per sample and the
IEEE floating point sample format). -/
theorem C26_container_effect_witness :
    (TiffReader.new (tifOf (some PHOTOMETRIC_LOGLUV) (some COMPRESSION_DEFLATE) (some 3) none none)
      false self0).2 =
      tifOf (some PHOTOMETRIC_LOGLUV) (some COMPRESSION_DEFLATE) (some 3) none none ∧
    (TiffReader.new (tifOf (some PHOTOMETRIC_LOGLUV) (some COMPRESSION_SGILOG) (some 3) none none)
      false self0).2 =
      { tifOf (some PHOTOMETRIC_LOGLUV) (some COMPRESSION_SGILOG) (some 3) none none with
        sgilogDataFmt := some SGILOGDATAFMT_FLOAT, bitsPerSample := some 32,
        sampleFormat := some SAMPLEFORMAT_IEEEFP } :=
  ⟨(C26_container_effect
      (tifOf (some PHOTOMETRIC_LOGLUV) (some COMPRESSION_DEFLATE) (some 3) none none)
      false self0).1 .UnsupportedCompression rfl,
   ((C26_container_effect
      (tifOf (some PHOTOMETRIC_LOGLUV) (some COMPRESSION_SGILOG) (some 3) none none)
      false self0).2.2 _ rfl rfl).2.1⟩

/-- C27, the code at the failing input: the constructor accepts the 8-bit RGB
container with alpha (4 samples per pixel); with its profile the full decode
builds a transform whose input and output layouts are TYPE_RGB_8, of 3 samples
per pixel, applies it to the row, and unpacks the converted row at stride 4:
the second pixel is taken at offset 4 of the output of the transform. -/
theorem C27_alpha_layout_mismatch :
    (TiffReader.new tifRgba8 false self0).1 = .ok rdRgba8 ∧
    tifRgba8.samplesPerPixel = some 4 ∧ rdRgba8.nSamples = 4 ∧
    ∃ t, TiffReader.readIntoPfsFrame.xform cmsAccepting rdRgba8 tifRgba8 = some t ∧
      t.inputFormat = .TYPE_RGB_8 ∧ t.outputFormat = .TYPE_RGB_8 ∧
      t.inputFormat.samples = 3 ∧ t.outputFormat.samples = 3 ∧
      (∀ size buf buf2,
        TiffReader.readIntoPfsFrame.active cmsAccepting rdRgba8 (some t) size buf buf2 =
          some (cmsAccepting.doTransform t buf 2, buf, cmsAccepting.doTransform t buf 2)) ∧
      ∃ dec frame, TiffReader.readIntoPfsFrame cmsAccepting libmStub rdRgba8 tifRgba8 =
          some dec ∧ dec.result = .ok frame ∧
        frame.X.getD 1 (.fin 0) =
          gammaDecode libmStub
            ((cmsAccepting.doTransform t [10, 20, 30, 40, 50, 60, 70, 80] 2).getD (1 * 4) 0) := by
  refine ⟨rfl, rfl, rfl, _, rfl, rfl, rfl, rfl, rfl, fun _ _ _ => rfl, ?_⟩
  obtain ⟨st, hst, _, _, hin⟩ := scan_planes cmsAccepting libmStub rdRgba8 tifRgba8
    (TiffReader.readIntoPfsFrame.xform cmsAccepting rdRgba8 tifRgba8)
    (fun _ => [10, 20, 30, 40, 50, 60, 70, 80]) (fun _ => [10, 20, 30, 40, 50, 60, 70, 80])
    (.fin 0) (by decide) (by decide)
    (fun r hr => by
      have hr' : r < 1 := hr
      have : r = 0 := by omega
      subst this
      rfl)
    (fun _ _ _ => ⟨_, _, rfl⟩)
  refine ⟨{ result := .ok { width := 2, height := 1, X := st.X, Y := st.Y, Z := st.Z },
            tif := st.tif },
    { width := 2, height := 1, X := st.X, Y := st.Y, Z := st.Z }, ?_, rfl, ?_⟩
  · unfold TiffReader.readIntoPfsFrame
    rw [decode_of_scan _ _ _ _ _ st hst]
    rfl
  · exact hin 0 (by decide) 0 (by decide) 1 (by decide)

/-- A constructor given a size whose 32-bit product is not 0 does not throw the
illegal-size error. -/
theorem new_not_illegal (tif : TIFF) (wod : Bool) (self : TiffReader)
    (hsz : (tif.imageWidth * tif.imageLength) % 2 ^ 32 ≠ 0) :
    (TiffReader.new tif wod self).1 ≠ .error .IllegalImageSize := by
  have hs : ¬ tif.imageWidth * tif.imageLength % 4294967296 = 0 := by simpa using hsz
  by_cases hp : tif.planarConfig = PLANARCONFIG_CONTIG
  · cases hph : tif.photometric with
    | none =>
      unfold TiffReader.new
      simp [hs, hp, hph, TIFFGetFieldDefaulted, TIFFGetField]
    | some ph =>
      by_cases h1 : ph = PHOTOMETRIC_LOGLUV
      · subst h1
        cases hc : tif.compression with
        | none =>
          unfold TiffReader.new
          simp [hs, hp, hph, hc, TIFFGetFieldDefaulted, TIFFGetField, COMPRESSION_NONE,
            COMPRESSION_SGILOG, COMPRESSION_SGILOG24]
        | some c =>
          by_cases c1 : c = COMPRESSION_SGILOG
          · unfold TiffReader.new
            simp [hs, hp, hph, hc, TIFFGetFieldDefaulted, TIFFGetField, c1]
          · by_cases c2 : c = COMPRESSION_SGILOG24
            · unfold TiffReader.new
              simp [hs, hp, hph, hc, TIFFGetFieldDefaulted, TIFFGetField, c2]
            · unfold TiffReader.new
              simp [hs, hp, hph, hc, TIFFGetFieldDefaulted, TIFFGetField, c1, c2]
      · by_cases h2 : ph = PHOTOMETRIC_RGB
        · subst h2
          rw [new_rgb tif wod self hsz hp hph]
          split
          · simp
          · split
            · simp
            · split <;> simp
        · by_cases h3 : ph = PHOTOMETRIC_SEPARATED
          · subst h3
            rw [new_cmyk tif wod self hsz hp hph]
            simp
          · unfold TiffReader.new
            simp [hs, hp, hph, TIFFGetFieldDefaulted, TIFFGetField, h1, h2, h3]
  · unfold TiffReader.new
    simp [hs, hp]

/-- C28: the constructor throws the illegal-size error exactly when
width * height is 0 modulo 2^32; so every image of width and height at least 1
whose product is not a multiple of 2^32 passes the check, whatever the product
is, and an image whose product is a multiple of 2^32 is rejected. -/
theorem C28_illegal_size (tif : TIFF) (wod : Bool) (self : TiffReader) :
    ((TiffReader.new tif wod self).1 = .error .IllegalImageSize ↔
      (tif.imageWidth * tif.imageLength) % 2 ^ 32 = 0) ∧
    (1 ≤ tif.imageWidth → 1 ≤ tif.imageLength →
      ¬ (2 ^ 32 ∣ tif.imageWidth * tif.imageLength) →
      (TiffReader.new tif wod self).1 ≠ .error .IllegalImageSize) ∧
    (2 ^ 32 ∣ tif.imageWidth * tif.imageLength →
      (TiffReader.new tif wod self).1 = .error .IllegalImageSize) := by
  have hzero : (tif.imageWidth * tif.imageLength) % 2 ^ 32 = 0 →
      (TiffReader.new tif wod self).1 = .error .IllegalImageSize := by
    intro h
    have h' : tif.imageWidth * tif.imageLength % 4294967296 = 0 := by simpa using h
    unfold TiffReader.new
    simp [h']
  refine ⟨⟨?_, hzero⟩, ?_, ?_⟩
  · intro h
    by_contra hne
    exact new_not_illegal tif wod self hne h
  · intro _ _ hdvd
    exact new_not_illegal tif wod self (fun h => hdvd (Nat.dvd_of_mod_eq_zero h))
  · intro hdvd
    exact hzero (Nat.mod_eq_zero_of_dvd hdvd)

/-- C28 at a 65536 x 65536 image (rejected) and at a 65536 x 65537 image, whose
product 2^32 + 65536 exceeds 2^32 - 1 (it passes the check). -/
theorem C28_illegal_size_witness :
    (TiffReader.new (tifSized 65536 65536) false self0).1 = .error .IllegalImageSize ∧
    2 ^ 32 - 1 < (tifSized 65536 65537).imageWidth * (tifSized 65536 65537).imageLength ∧
    (TiffReader.new (tifSized 65536 65537) false self0).1 ≠ .error .IllegalImageSize :=
  ⟨(C28_illegal_size (tifSized 65536 65536) false self0).2.2 (by decide),
   by decide,
   (C28_illegal_size (tifSized 65536 65537) false self0).2.1 (by decide) (by decide)
      (by decide)⟩

/-! ## Strip write failures and the 8-bit writer -/

/-- A loop that stores four values per column at 4col to 4col+3. -/
theorem pack4_spec {α : Type} (f0 f1 f2 f3 : Nat → α) (buf : List α) (W : Nat)
    (hl : 4 * W ≤ buf.length) (d : α) :
    ((List.range W).foldl
      (fun b col => (((b.set (4 * col) (f0 col)).set (4 * col + 1) (f1 col)).set
        (4 * col + 2) (f2 col)).set (4 * col + 3) (f3 col)) buf).length = buf.length ∧
    ∀ k, ((List.range W).foldl
      (fun b col => (((b.set (4 * col) (f0 col)).set (4 * col + 1) (f1 col)).set
        (4 * col + 2) (f2 col)).set (4 * col + 3) (f3 col)) buf).getD k d =
      if k < 4 * W then
        (if k % 4 = 0 then f0 (k / 4) else if k % 4 = 1 then f1 (k / 4)
          else if k % 4 = 2 then f2 (k / 4) else f3 (k / 4))
      else buf.getD k d := by
  have key : ∀ n, n ≤ W →
      ((List.range n).foldl
        (fun b col => (((b.set (4 * col) (f0 col)).set (4 * col + 1) (f1 col)).set
          (4 * col + 2) (f2 col)).set (4 * col + 3) (f3 col)) buf).length = buf.length ∧
      ∀ k, ((List.range n).foldl
        (fun b col => (((b.set (4 * col) (f0 col)).set (4 * col + 1) (f1 col)).set
          (4 * col + 2) (f2 col)).set (4 * col + 3) (f3 col)) buf).getD k d =
        if k < 4 * n then
          (if k % 4 = 0 then f0 (k / 4) else if k % 4 = 1 then f1 (k / 4)
            else if k % 4 = 2 then f2 (k / 4) else f3 (k / 4))
        else buf.getD k d := by
    intro n
    induction n with
    | zero =>
      intro _
      refine ⟨rfl, fun k => ?_⟩
      rw [List.range_zero, List.foldl_nil, if_neg (by omega)]
    | succ n ih =>
      intro hn
      obtain ⟨ihl, ihg⟩ := ih (by omega)
      rw [List.range_succ, List.foldl_append, List.foldl_cons, List.foldl_nil]
      generalize List.foldl
        (fun b col => (((b.set (4 * col) (f0 col)).set (4 * col + 1) (f1 col)).set
          (4 * col + 2) (f2 col)).set (4 * col + 3) (f3 col)) buf (List.range n) = F at ihl ihg ⊢
      refine ⟨by simp [ihl], fun k => ?_⟩
      simp only [getD_set', List.length_set, ihl, ihg]
      by_cases h3 : 4 * n + 3 = k
      · have e1 : k / 4 = n := by omega
        have e2 : ¬ k % 4 = 0 := by omega
        have e3 : ¬ k % 4 = 1 := by omega
        have e4 : ¬ k % 4 = 2 := by omega
        rw [if_pos ⟨h3, by omega⟩, if_pos (show k < 4 * (n + 1) by omega), if_neg e2, if_neg e3,
          if_neg e4, e1]
      · rw [if_neg (fun h => h3 h.1)]
        by_cases h2 : 4 * n + 2 = k
        · have e1 : k / 4 = n := by omega
          have e2 : ¬ k % 4 = 0 := by omega
          have e3 : ¬ k % 4 = 1 := by omega
          have e4 : k % 4 = 2 := by omega
          rw [if_pos ⟨h2, by omega⟩, if_pos (show k < 4 * (n + 1) by omega), if_neg e2,
            if_neg e3, if_pos e4, e1]
        · rw [if_neg (fun h => h2 h.1)]
          by_cases h1 : 4 * n + 1 = k
          · have e1 : k / 4 = n := by omega
            have e2 : ¬ k % 4 = 0 := by omega
            have e3 : k % 4 = 1 := by omega
            rw [if_pos ⟨h1, by omega⟩, if_pos (show k < 4 * (n + 1) by omega), if_neg e2,
              if_pos e3, e1]
          · rw [if_neg (fun h => h1 h.1)]
            by_cases h0 : 4 * n = k
            · have e1 : k / 4 = n := by omega
              have e2 : k % 4 = 0 := by omega
              rw [if_pos ⟨h0, by omega⟩, if_pos (show k < 4 * (n + 1) by omega), if_pos e2, e1]
            · rw [if_neg (fun h => h0 h.1)]
              by_cases hk : k < 4 * n
              · rw [if_pos hk, if_pos (show k < 4 * (n + 1) by omega)]
              · rw [if_neg hk, if_neg (show ¬ k < 4 * (n + 1) by omega)]
  exact key W (Nat.le_refl W)

/-- A loop that stores four values per column into a buffer of 4W elements
leaves a buffer that does not depend on what the buffer held. -/
theorem pack4_content {α : Type} (f0 f1 f2 f3 : Nat → α) (buf : List α) (W : Nat)
    (hl : buf.length = 4 * W) :
    (List.range W).foldl
      (fun b col => (((b.set (4 * col) (f0 col)).set (4 * col + 1) (f1 col)).set
        (4 * col + 2) (f2 col)).set (4 * col + 3) (f3 col)) buf =
      (List.range (4 * W)).map
        (fun k => if k % 4 = 0 then f0 (k / 4) else if k % 4 = 1 then f1 (k / 4)
          else if k % 4 = 2 then f2 (k / 4) else f3 (k / 4)) := by
  obtain ⟨h1, h2⟩ := pack4_spec f0 f1 f2 f3 buf W (by omega) (f0 0)
  apply list_ext_getD _ _ (f0 0)
  · rw [h1, hl, List.length_map, List.length_range]
  · intro k hk
    rw [h1, hl] at hk
    rw [h2 k, if_pos hk, map_range_getD _ _ _ _ hk]

/-- The strip buffer after the inner loop of write8bitTiff. -/
theorem packBytes_eq (W : Nat) (px : List Nat) (b : List Nat) (s : Nat)
    (hb : b.length = 4 * W) :
    packBytes W px b s =
      (List.range (4 * W)).map
        (fun k => if k % 4 = 0 then qRed (px.getD ((W * s + k / 4) % 2 ^ 32) 0)
          else if k % 4 = 1 then qGreen (px.getD ((W * s + k / 4) % 2 ^ 32) 0)
          else if k % 4 = 2 then qBlue (px.getD ((W * s + k / 4) % 2 ^ 32) 0)
          else qAlpha (px.getD ((W * s + k / 4) % 2 ^ 32) 0)) :=
  pack4_content (fun col => qRed (px.getD ((W * s + col) % 2 ^ 32) 0))
    (fun col => qGreen (px.getD ((W * s + col) % 2 ^ 32) 0))
    (fun col => qBlue (px.getD ((W * s + col) % 2 ^ 32) 0))
    (fun col => qAlpha (px.getD ((W * s + col) % 2 ^ 32) 0)) b W hb

/-- The byte size of a strip of one row of 8-bit pixels of four samples. -/
theorem stripSize_row4 (tif : TIFFOut) (W H : Nat) (h1 : tif.imageWidth = some W)
    (h2 : tif.imageLength = some H) (h3 : tif.samplesPerPixel = some 4)
    (h4 : tif.rowsPerStrip = some 1) (h5 : tif.bitsPerSample = some 8) (hH : 0 < H) :
    TIFFStripSize tif = 4 * W := by
  unfold TIFFStripSize
  simp only [h1, h2, h3, h4, h5, Option.getD_some]
  have hm : min 1 H = 1 := by omega
  rw [hm, Nat.one_mul]
  omega

/-- The strip loop leaves every tag of the handle as it was. -/
theorem writeStrips_icc {β : Type} (fails : Nat → Option Int) (size : Nat) (pack : β → Nat → β)
    (view : β → StripData) :
    ∀ (rs : List Nat) (tif : TIFFOut) (buf : β),
      (writeStrips fails size pack view tif buf rs).2.1.iccProfile = tif.iccProfile := by
  intro rs
  induction rs with
  | nil => intro tif buf; rfl
  | cons s rest ih =>
    intro tif buf
    unfold writeStrips
    simp only [TIFFWriteEncodedStrip]
    cases hf : fails s with
    | none =>
      simp only []
      split
      · rfl
      · rw [ih]
    | some c =>
      simp only []
      split
      · rfl
      · rw [ih]

/-- The writer the constructor makes of an image. -/
theorem ofQImage_fields (opened : TIFFOut) (f : QImage) (w : TiffWriter)
    (h : TiffWriter.ofQImage (some opened) f = .ok w) :
    w.ldrimage = some f ∧ w.width = f.width ∧ w.tif.imageWidth = some f.width ∧
    w.tif.imageLength = some f.height ∧ w.tif.samplesPerPixel = some 4 ∧
    w.tif.rowsPerStrip = some 1 ∧ w.tif.strips = opened.strips := by
  unfold TiffWriter.ofQImage at h
  injection h with h
  rw [← h]
  exact ⟨rfl, rfl, rfl, rfl, rfl, rfl, rfl⟩

/-- The ICC tag after write8bitTiff on a writer that holds an image: the blob
it was given, whatever the allocation and the strip writes do. -/
theorem write8bitTiff_icc (profile : List Nat) (alloc : Nat → Bool) (fails : Nat → Option Int)
    (w : TiffWriter) (img : QImage) (hf : w.ldrimage = some img) :
    (w.write8bitTiff profile alloc fails).tif.iccProfile = some profile := by
  unfold TiffWriter.write8bitTiff
  rw [hf]
  simp only []
  split
  · rfl
  · split
    · exact writeStrips_icc _ _ _ _ _ _ _
    · exact writeStrips_icc _ _ _ _ _ _ _

/-- The function write8bitTiff, when the buffer is allocated and no write
fails: it returns 0 and has appended one strip per row. -/
theorem write8bitTiff_ok (profile : List Nat) (alloc : Nat → Bool) (fails : Nat → Option Int)
    (w : TiffWriter) (img : QImage)
    (W H : Nat) (hf : w.ldrimage = some img) (hw : w.width = W)
    (h1 : w.tif.imageWidth = some W) (h2 : w.tif.imageLength = some H)
    (h3 : w.tif.samplesPerPixel = some 4) (h4 : w.tif.rowsPerStrip = some 1)
    (hW0 : 0 < W) (halloc : ∀ n, alloc n = true) (hfails : ∀ s, fails s = none) :
    (w.write8bitTiff profile alloc fails).code = .ok 0 ∧
    (w.write8bitTiff profile alloc fails).strip_buf_freed = true ∧
    (w.write8bitTiff profile alloc fails).tif.strips =
      w.tif.strips ++ (List.range H).map (fun s =>
        (s, .bytes ((List.range (4 * W)).map
          (fun k => if k % 4 = 0 then qRed (img.pixels.getD ((W * s + k / 4) % 2 ^ 32) 0)
            else if k % 4 = 1 then qGreen (img.pixels.getD ((W * s + k / 4) % 2 ^ 32) 0)
            else if k % 4 = 2 then qBlue (img.pixels.getD ((W * s + k / 4) % 2 ^ 32) 0)
            else qAlpha (img.pixels.getD ((W * s + k / 4) % 2 ^ 32) 0))))) := by
  unfold TiffWriter.write8bitTiff
  rw [hf]
  simp only [halloc, Bool.true_eq_false, if_false]
  generalize hT : ({ w.tif with iccProfile := some profile,
                                compression := some COMPRESSION_DEFLATE,
                                photometric := some PHOTOMETRIC_RGB,
                                bitsPerSample := some 8 } : TIFFOut) = T
  have t1 : T.imageWidth = some W := by rw [← hT]; exact h1
  have t2 : T.imageLength = some H := by rw [← hT]; exact h2
  have t3 : T.samplesPerPixel = some 4 := by rw [← hT]; exact h3
  have t4 : T.rowsPerStrip = some 1 := by rw [← hT]; exact h4
  have t5 : T.bitsPerSample = some 8 := by rw [← hT]
  have ts : T.strips = w.tif.strips := by rw [← hT]
  rw [numberOfStrips_row T H t2 t4, hw]
  rcases Nat.eq_zero_or_pos H with hH | hH
  · subst hH
    simp [writeStrips, ts]
  · rw [stripSize_row4 T W H t1 t2 t3 t4 t5 hH]
    obtain ⟨ha, hb⟩ := writeStrips_ok fails (4 * W)
      (packBytes W img.pixels) StripData.bytes
      (fun s => (List.range (4 * W)).map
        (fun k => if k % 4 = 0 then qRed (img.pixels.getD ((W * s + k / 4) % 2 ^ 32) 0)
          else if k % 4 = 1 then qGreen (img.pixels.getD ((W * s + k / 4) % 2 ^ 32) 0)
          else if k % 4 = 2 then qBlue (img.pixels.getD ((W * s + k / 4) % 2 ^ 32) 0)
          else qAlpha (img.pixels.getD ((W * s + k / 4) % 2 ^ 32) 0)))
      (fun b => b.length = 4 * W) (by omega)
      (fun b s hb => packBytes_eq W img.pixels b s hb)
      (fun s => by simp) (List.range H)
      T
      (List.replicate (4 * W) 0) (by simp) (fun s _ => hfails s)
    rw [ha, hb]
    simp [ts]

/-- C22: write8bitTiff on the writer constructed from an image of positive
width W and height H (at most 2^32 pixels), when the buffer is allocated and no
strip write fails, returns 0, leaves the ICC tag set to the blob serialised
from the sRGB profile (non-empty when that blob is), and has appended exactly H
strips, numbered 0 to H-1 in order, strip s holding 4W bytes: at 4c to 4c+3 the
red, green, blue and alpha of pixel c of row s.  The ICC tag holds the blob
whatever the allocation and the strip writes do, a failure of the first strip
included: it is set before any strip is written. -/
theorem C22_byte8_strips (profile : List Nat) (alloc : Nat → Bool) (fails : Nat → Option Int)
    (opened : TIFFOut) (img : QImage) (w : TiffWriter) (d : Nat)
    (hw : TiffWriter.ofQImage (some opened) img = .ok w)
    (hprofile : profile ≠ [])
    (hW0 : 0 < img.width) (h32 : img.width * img.height ≤ 2 ^ 32)
    (halloc : ∀ n, alloc n = true) (hfails : ∀ s, fails s = none) :
    (w.write8bitTiff profile alloc fails).code = .ok 0 ∧
    (∃ blob, (w.write8bitTiff profile alloc fails).tif.iccProfile = some blob ∧ blob ≠ [] ∧
      blob = profile) ∧
    (∀ alloc' fails', (w.write8bitTiff profile alloc' fails').tif.iccProfile = some profile) ∧
    ∃ strip : Nat → List Nat,
      (w.write8bitTiff profile alloc fails).tif.strips =
        opened.strips ++ (List.range img.height).map (fun s => (s, StripData.bytes (strip s))) ∧
      ((List.range img.height).map (fun s => (s, StripData.bytes (strip s)))).length =
        img.height ∧
      ∀ s, s < img.height → (strip s).length = 4 * img.width ∧ ∀ c, c < img.width →
        (strip s).getD (4 * c) d = qRed (img.pixels.getD (img.width * s + c) 0) ∧
        (strip s).getD (4 * c + 1) d = qGreen (img.pixels.getD (img.width * s + c) 0) ∧
        (strip s).getD (4 * c + 2) d = qBlue (img.pixels.getD (img.width * s + c) 0) ∧
        (strip s).getD (4 * c + 3) d = qAlpha (img.pixels.getD (img.width * s + c) 0) := by
  obtain ⟨f1, f2, f3, f4, f5, f6, f7⟩ := ofQImage_fields opened img w hw
  obtain ⟨w1, _, w3⟩ := write8bitTiff_ok profile alloc fails w img img.width img.height
    f1 f2 f3 f4 f5 f6 hW0 halloc hfails
  have hidx : ∀ s, s < img.height → ∀ c, c < img.width →
      (img.width * s + c) % 2 ^ 32 = img.width * s + c := by
    intro s hs' c hc
    have := row_bound s img.height img.width hs'
    have h32' : img.height * img.width ≤ 2 ^ 32 := by rw [Nat.mul_comm]; exact h32
    have e : img.width * s = s * img.width := Nat.mul_comm _ _
    exact Nat.mod_eq_of_lt (by omega)
  refine ⟨w1, ⟨profile, write8bitTiff_icc profile alloc fails w img f1, hprofile, rfl⟩,
    fun a f => write8bitTiff_icc profile a f w img f1,
    (fun s => (List.range (4 * img.width)).map
      (fun k => if k % 4 = 0 then qRed (img.pixels.getD ((img.width * s + k / 4) % 2 ^ 32) 0)
        else if k % 4 = 1 then qGreen (img.pixels.getD ((img.width * s + k / 4) % 2 ^ 32) 0)
        else if k % 4 = 2 then qBlue (img.pixels.getD ((img.width * s + k / 4) % 2 ^ 32) 0)
        else qAlpha (img.pixels.getD ((img.width * s + k / 4) % 2 ^ 32) 0))),
    ?_, by simp, ?_⟩
  · rw [w3, f7]
  · intro s hs'
    refine ⟨by simp, ?_⟩
    intro c hc
    have e0 : 4 * c / 4 = c := by omega
    have e1 : (4 * c + 1) / 4 = c := by omega
    have e2 : (4 * c + 2) / 4 = c := by omega
    have e3 : (4 * c + 3) / 4 = c := by omega
    have r0 : 4 * c % 4 = 0 := by omega
    have r1 : (4 * c + 1) % 4 = 1 := by omega
    have r2 : (4 * c + 2) % 4 = 2 := by omega
    have r3 : (4 * c + 3) % 4 = 3 := by omega
    refine ⟨?_, ?_, ?_, ?_⟩
    · rw [map_range_getD _ _ _ _ (by omega)]
      simp only [e0, r0, if_true, hidx s hs' c hc]
    · rw [map_range_getD _ _ _ _ (by omega)]
      simp only [e1, r1, hidx s hs' c hc]
      simp
    · rw [map_range_getD _ _ _ _ (by omega)]
      simp only [e2, r2, hidx s hs' c hc]
      simp
    · rw [map_range_getD _ _ _ _ (by omega)]
      simp only [e3, r3, hidx s hs' c hc]
      simp

/-- C22 at the image of one column and two rows: two strips, (16,32,48,255)
and (64,80,96,128). -/
theorem C22_byte8_strips_witness :
    ∃ w, TiffWriter.ofQImage (some {}) imgTwoRows = .ok w ∧
      (w.write8bitTiff [1, 2, 3] (fun _ => true) (fun _ => none)).code = .ok 0 ∧
      (w.write8bitTiff [1, 2, 3] (fun _ => true) (fun _ => none)).tif.iccProfile =
        some [1, 2, 3] ∧
      (w.write8bitTiff [1, 2, 3] (fun _ => true) (fun _ => none)).tif.strips =
        [(0, StripData.bytes [16, 32, 48, 255]), (1, StripData.bytes [64, 80, 96, 128])] := by
  obtain ⟨h1, _, h3, _⟩ := C22_byte8_strips [1, 2, 3] (fun _ => true) (fun _ => none) {}
    imgTwoRows _ 0 rfl (by decide) (by decide) (by decide) (fun _ => rfl) (fun _ => rfl)
  exact ⟨_, rfl, h1, h3 _ _, rfl⟩

/-- C21, the code at the failing input: when the write of strip 0 fails with
libtiff's error answer -1, each of the five encoders goes on to write strip 1
and returns 0; the abort, with -1 returned and strip 1 not attempted, is taken
when the answer of the write is 0. -/
theorem C21_failure_not_detected :
    (∃ w, TiffWriter.ofFrame (some {}) frameTwoRows = .ok w ∧
      (w.writeFloatTiff (fun _ => true) (failsAt 0 (-1))).code = .ok 0 ∧
      (w.writeFloatTiff (fun _ => true) (failsAt 0 (-1))).tif.strips.map Prod.fst = [1] ∧
      (w.writeLogLuvTiff (fun _ => true) (failsAt 0 (-1))).code = .ok 0 ∧
      (w.writeLogLuvTiff (fun _ => true) (failsAt 0 (-1))).tif.strips.map Prod.fst = [1] ∧
      (∀ conv, (w.writePFSFrame16bitTiff conv (fun _ => true) (failsAt 0 (-1))).code = .ok 0) ∧
      (∀ conv, (w.writePFSFrame16bitTiff conv (fun _ => true)
        (failsAt 0 (-1))).tif.strips.map Prod.fst = [1]) ∧
      (w.writeFloatTiff (fun _ => true) (failsAt 0 0)).code = .ok (-1) ∧
      (w.writeFloatTiff (fun _ => true) (failsAt 0 0)).tif.strips = [] ∧
      (w.writeLogLuvTiff (fun _ => true) (failsAt 0 0)).code = .ok (-1) ∧
      (w.writeLogLuvTiff (fun _ => true) (failsAt 0 0)).tif.strips = [] ∧
      (∀ conv, (w.writePFSFrame16bitTiff conv (fun _ => true) (failsAt 0 0)).code = .ok (-1)) ∧
      (∀ conv, (w.writePFSFrame16bitTiff conv (fun _ => true) (failsAt 0 0)).tif.strips = [])) ∧
    (∃ w, TiffWriter.ofQImage (some {}) imgTwoRows = .ok w ∧
      (w.write8bitTiff [1, 2, 3] (fun _ => true) (failsAt 0 (-1))).code = .ok 0 ∧
      (w.write8bitTiff [1, 2, 3] (fun _ => true) (failsAt 0 (-1))).tif.strips.map Prod.fst =
        [1] ∧
      (w.write8bitTiff [1, 2, 3] (fun _ => true) (failsAt 0 0)).code = .ok (-1) ∧
      (w.write8bitTiff [1, 2, 3] (fun _ => true) (failsAt 0 0)).tif.strips = []) ∧
    (∃ w, TiffWriter.ofPixmap (some {}) [1, 2, 3, 4, 5, 6] 1 2 = .ok w ∧
      (w.write16bitTiff [1, 2, 3] (fun _ => true) (failsAt 0 (-1))).code = .ok 0 ∧
      (w.write16bitTiff [1, 2, 3] (fun _ => true) (failsAt 0 (-1))).tif.strips.map Prod.fst =
        [1] ∧
      (w.write16bitTiff [1, 2, 3] (fun _ => true) (failsAt 0 0)).code = .ok (-1) ∧
      (w.write16bitTiff [1, 2, 3] (fun _ => true) (failsAt 0 0)).tif.strips = []) :=
  ⟨⟨_, rfl, rfl, rfl, rfl, rfl, fun _ => rfl, fun _ => rfl, rfl, rfl, rfl, rfl, fun _ => rfl,
     fun _ => rfl⟩,
   ⟨_, rfl, rfl, rfl, rfl, rfl⟩, ⟨_, rfl, rfl, rfl, rfl, rfl⟩⟩

/-- C23, the code at the failing input: when the write of strip 0 answers 0,
each of the five encoders returns -1 without having released the strip buffer
it allocated (the `_TIFFfree` of the buffer is reached only when the loop runs
to its end). -/
theorem C23_strip_buffer_leak :
    (∃ w, TiffWriter.ofFrame (some {}) frameTwoRows = .ok w ∧
      (w.writeFloatTiff (fun _ => true) (failsAt 0 0)).code = .ok (-1) ∧
      (w.writeFloatTiff (fun _ => true) (failsAt 0 0)).strip_buf_freed = false ∧
      (w.writeLogLuvTiff (fun _ => true) (failsAt 0 0)).code = .ok (-1) ∧
      (w.writeLogLuvTiff (fun _ => true) (failsAt 0 0)).strip_buf_freed = false ∧
      (∀ conv, (w.writePFSFrame16bitTiff conv (fun _ => true) (failsAt 0 0)).code = .ok (-1)) ∧
      (∀ conv, (w.writePFSFrame16bitTiff conv (fun _ => true)
        (failsAt 0 0)).strip_buf_freed = false) ∧
      (w.writeFloatTiff (fun _ => true) (fun _ => none)).code = .ok 0 ∧
      (w.writeFloatTiff (fun _ => true) (fun _ => none)).strip_buf_freed = true) ∧
    (∃ w, TiffWriter.ofQImage (some {}) imgTwoRows = .ok w ∧
      (w.write8bitTiff [1, 2, 3] (fun _ => true) (failsAt 0 0)).code = .ok (-1) ∧
      (w.write8bitTiff [1, 2, 3] (fun _ => true) (failsAt 0 0)).strip_buf_freed = false) ∧
    (∃ w, TiffWriter.ofPixmap (some {}) [1, 2, 3, 4, 5, 6] 1 2 = .ok w ∧
      (w.write16bitTiff [1, 2, 3] (fun _ => true) (failsAt 0 0)).code = .ok (-1) ∧
      (w.write16bitTiff [1, 2, 3] (fun _ => true) (failsAt 0 0)).strip_buf_freed = false) :=
  ⟨⟨_, rfl, rfl, rfl, rfl, rfl, fun _ => rfl, fun _ => rfl, rfl, rfl⟩, ⟨_, rfl, rfl, rfl⟩,
   ⟨_, rfl, rfl, rfl⟩⟩

/-! ## The thumbnail decode with no transform -/

theorem storeScanLine_length (pixels : List Nat) (y W : Nat) (v : Nat → Nat) :
    (storeScanLine pixels y W v).length = pixels.length := by
  unfold storeScanLine
  exact foldl_set_length _ _ _ _

theorem storeScanLine_getD (pixels : List Nat) (y W : Nat) (v : Nat → Nat) (k d : Nat)
    (hl : y * W + W ≤ pixels.length) :
    (storeScanLine pixels y W v).getD k d =
      if y * W ≤ k ∧ k < y * W + W then v (k - y * W) else pixels.getD k d := by
  unfold storeScanLine
  generalize y * W = a at *
  have key : ∀ n, n ≤ W →
      ((List.range n).foldl (fun P x => P.set (a + x) (v x)) pixels).getD k d =
        if a ≤ k ∧ k < a + n then v (k - a) else pixels.getD k d := by
    intro n
    induction n with
    | zero =>
      intro _
      have : ¬ (a ≤ k ∧ k < a + 0) := by omega
      rw [List.range_zero, List.foldl_nil, if_neg this]
    | succ n ih =>
      intro hn
      rw [List.range_succ, List.foldl_append, List.foldl_cons, List.foldl_nil, getD_set',
        foldl_set_length, ih (by omega)]
      by_cases h1 : a + n = k
      · have e : k - a = n := by omega
        rw [if_pos ⟨h1, by omega⟩, if_pos (by omega), e]
      · rw [if_neg (fun h => h1 h.1)]
        by_cases h2 : a ≤ k ∧ k < a + n
        · rw [if_pos h2, if_pos (by omega)]
        · rw [if_neg h2, if_neg (by omega)]
  exact key W (Nat.le_refl W)

/-- One row of the thumbnail decode with no transform, given the buffer the
pixels are taken from. -/
theorem thumbRow_none (cms : Lcms) (self : TiffReader) (size : Nat) (st : ThumbState) (y : Nat)
    (act : List Nat)
    (h : (if self.ColorSpace = .CMYK then
        transform_to_rgb true (TIFFReadScanline st.tif st.buffer y).2.1
          (TIFFReadScanline st.tif st.buffer y).2.1 size self.nSamples
      else some (TIFFReadScanline st.tif st.buffer y).2.1) = some act) :
    ∃ st', TiffReader.readIntoQImage.row cms self none size st y = some st' ∧
      st'.tif = (TIFFReadScanline st.tif st.buffer y).2.2 ∧
      st'.pixels = storeScanLine st.pixels y self.width (fun x =>
        qRgba (act.getD (x * self.nSamples % 2 ^ 32) 0)
          (act.getD ((x * self.nSamples % 2 ^ 32 + 1) % 2 ^ 32) 0)
          (act.getD ((x * self.nSamples % 2 ^ 32 + 2) % 2 ^ 32) 0)
          (if self.has_alpha then act.getD ((x * self.nSamples % 2 ^ 32 + 3) % 2 ^ 32) 0
           else 255)) := by
  unfold TiffReader.readIntoQImage.row
  simp only [h]
  exact ⟨_, rfl, rfl, rfl⟩

/-- The pixels when the listed rows, all readable, have been decoded with no
transform. -/
theorem thumbRows_pixels (cms : Lcms) (self : TiffReader) (size : Nat)
    (scan : List (Option (List Nat))) (H L : Nat) (data actOf : Nat → List Nat) (d : Nat)
    (hread : ∀ r, r < H → scan.getD r none = some (data r))
    (hact : ∀ r, r < H →
      (if self.ColorSpace = .CMYK then
        transform_to_rgb true (data r) (data r) size self.nSamples
      else some (data r)) = some (actOf r))
    (hL : H * self.width ≤ L) :
    ∀ (rs : List Nat) (st : ThumbState), rs.Nodup → (∀ r, r ∈ rs → r < H) →
      st.tif.scanlines = scan → st.pixels.length = L →
      ∃ st', TiffReader.readIntoQImage.rows cms self none size st rs = some st' ∧
        st'.tif = { st.tif with rowsRead := rs.reverse ++ st.tif.rowsRead } ∧
        st'.pixels.length = L ∧
        (∀ r, r ∈ rs → ∀ x, x < self.width →
          st'.pixels.getD (r * self.width + x) d =
            qRgba ((actOf r).getD (x * self.nSamples % 2 ^ 32) 0)
              ((actOf r).getD ((x * self.nSamples % 2 ^ 32 + 1) % 2 ^ 32) 0)
              ((actOf r).getD ((x * self.nSamples % 2 ^ 32 + 2) % 2 ^ 32) 0)
              (if self.has_alpha then
                (actOf r).getD ((x * self.nSamples % 2 ^ 32 + 3) % 2 ^ 32) 0
               else 255)) ∧
        (∀ k, (∀ r, r ∈ rs → k < r * self.width ∨ r * self.width + self.width ≤ k) →
          st'.pixels.getD k d = st.pixels.getD k d) := by
  intro rs
  induction rs with
  | nil =>
    intro st _ _ _ hlen
    refine ⟨st, rfl, by simp, hlen, ?_, ?_⟩
    · intro r hr
      simp at hr
    · intro k _
      rfl
  | cons r0 rest ih =>
    intro st hnd hH hsc hlen
    have hr0 : r0 < H := hH r0 (List.mem_cons_self _ _)
    have hnd' := List.nodup_cons.mp hnd
    have hbuf : (TIFFReadScanline st.tif st.buffer r0).2.1 = data r0 :=
      TIFFReadScanline_buf _ _ _ _ (by rw [hsc]; exact hread r0 hr0)
    have hact0 := hact r0 hr0
    rw [← hbuf] at hact0
    obtain ⟨st1, h1, htif1, hpix1⟩ := thumbRow_none cms self size st r0 (actOf r0) hact0
    have hsc1 : st1.tif.scanlines = scan := by
      rw [htif1, TIFFReadScanline_tif]
      exact hsc
    have hlen1 : st1.pixels.length = L := by
      rw [hpix1, storeScanLine_length]
      exact hlen
    obtain ⟨st', h', htif', hlen', hin', hout'⟩ :=
      ih st1 hnd'.2 (fun r hr => hH r (List.mem_cons_of_mem _ hr)) hsc1 hlen1
    have hb0 := row_bound r0 H self.width hr0
    refine ⟨st', ?_, ?_, hlen', ?_, ?_⟩
    · unfold TiffReader.readIntoQImage.rows
      rw [h1]
      exact h'
    · rw [htif', htif1, TIFFReadScanline_tif]
      simp
    · intro r hr x hx
      rcases List.mem_cons.mp hr with hr | hr
      · subst hr
        have hmiss : ∀ r', r' ∈ rest →
            r * self.width + x < r' * self.width ∨
            r' * self.width + self.width ≤ r * self.width + x := by
          intro r' hr'
          have hne : r' ≠ r := fun e => hnd'.1 (e ▸ hr')
          rcases Nat.lt_or_gt_of_ne hne with hlt | hgt
          · right
            have := row_bound r' r self.width hlt
            omega
          · left
            have := row_bound r r' self.width hgt
            omega
        rw [hout' _ hmiss, hpix1, storeScanLine_getD _ _ _ _ _ _ (by rw [hlen]; omega)]
        have e : r * self.width + x - r * self.width = x := by omega
        rw [if_pos (by omega), e]
      · exact hin' r hr x hx
    · intro k hk
      have hk0 := hk r0 (List.mem_cons_self _ _)
      rw [hout' k (fun r hr => hk r (List.mem_cons_of_mem _ hr)), hpix1,
        storeScanLine_getD _ _ _ _ _ _ (by rw [hlen]; omega)]
      rw [if_neg (by omega)]

/-- The thumbnail decode of a BYTE reader with no transform, all rows being
readable: the image returned and its pixels. -/
theorem thumb_pixels (cms : Lcms) (self : TiffReader) (tif : TIFF)
    (data actOf : Nat → List Nat) (d : Nat)
    (hkind : self.TypeOfData = .BYTE)
    (hx : TiffReader.readIntoQImage.xform cms self tif = none)
    (hread : ∀ r, r < self.height → tif.scanlines.getD r none = some (data r))
    (hact : ∀ r, r < self.height →
      (if self.ColorSpace = .CMYK then
        transform_to_rgb true (data r) (data r) (TIFFScanlineSize tif % 2 ^ 32) self.nSamples
      else some (data r)) = some (actOf r)) :
    ∃ th img, TiffReader.readIntoQImage cms self tif = some th ∧ th.result = .ok img ∧
      img.width = self.width ∧ img.height = self.height ∧
      img.pixels.length = self.width * self.height ∧
      th.tif = { tif with rowsRead := (List.range self.height).reverse ++ tif.rowsRead } ∧
      ∀ r, r < self.height → ∀ x, x < self.width →
        img.pixels.getD (r * self.width + x) d =
          qRgba ((actOf r).getD (x * self.nSamples % 2 ^ 32) 0)
            ((actOf r).getD ((x * self.nSamples % 2 ^ 32 + 1) % 2 ^ 32) 0)
            ((actOf r).getD ((x * self.nSamples % 2 ^ 32 + 2) % 2 ^ 32) 0)
            (if self.has_alpha then
              (actOf r).getD ((x * self.nSamples % 2 ^ 32 + 3) % 2 ^ 32) 0
             else 255) := by
  obtain ⟨st, hst, htif, hlen, hin, _⟩ :=
    thumbRows_pixels cms self (TIFFScanlineSize tif % 2 ^ 32) tif.scanlines self.height
      (self.width * self.height) data actOf d hread hact (by rw [Nat.mul_comm])
      (List.range self.height)
      (ThumbState.mk tif (List.replicate (TIFFScanlineSize tif % 2 ^ 32) 0) []
        (QImage.new self.width self.height).pixels)
      (List.nodup_range _) (fun r hr => List.mem_range.mp hr) rfl (by simp [QImage.new])
  refine ⟨{ result := .ok { width := self.width, height := self.height, pixels := st.pixels },
            tif := st.tif },
    { width := self.width, height := self.height, pixels := st.pixels }, ?_, rfl, rfl, rfl,
    hlen, htif, ?_⟩
  · unfold TiffReader.readIntoQImage
    have hk : ¬ self.TypeOfData ≠ .BYTE := by
      rw [hkind]
      simp
    rw [if_neg hk]
    simp only [hx, Option.isSome_none, Bool.false_eq_true, if_false]
    rw [hst]
  · intro r hr x hx'
    exact hin r (List.mem_range.mpr hr) x hx'

/-- The components of a pixel made of four bytes are those bytes. -/
theorem qRgba_components (r g b a : Nat) (hr : r ≤ 255) (hg : g ≤ 255) (hb : b ≤ 255)
    (ha : a ≤ 255) :
    qRed (qRgba r g b a) = r ∧ qGreen (qRgba r g b a) = g ∧ qBlue (qRgba r g b a) = b ∧
    qAlpha (qRgba r g b a) = a := by
  unfold qRed qGreen qBlue qAlpha qRgba
  have e1 : r % 256 = r := by omega
  have e2 : g % 256 = g := by omega
  have e3 : b % 256 = b := by omega
  have e4 : a % 256 = a := by omega
  rw [e1, e2, e3, e4]
  norm_num
  omega

/-- C25: in the thumbnail decode of a BYTE reader with no transform (all rows
readable, pixel offsets W*n+3 below 2^32), the pixel at row y, column x is
qRgba of the bytes at offsets x*n, x*n+1, x*n+2 of the buffer the row is taken
from and of its alpha.  For RGB that buffer is the raw scanline and the alpha
is 255 when has_alpha is not set and the byte at offset x*n+3 when it is.  For
CMYK with 4 samples per pixel (rows of 4W bytes) the buffer is the output of
transform_to_rgb run in place and the alpha is 255, whatever has_alpha holds.
The four components of a pixel made of bytes are those bytes. -/
theorem C25_thumbnail_no_transform (cms : Lcms) (self : TiffReader) (tif : TIFF)
    (data : Nat → List Nat) (d : Nat)
    (hkind : self.TypeOfData = .BYTE)
    (hx : TiffReader.readIntoQImage.xform cms self tif = none)
    (hoff : self.width * self.nSamples + 3 < 2 ^ 32)
    (hread : ∀ r, r < self.height → tif.scanlines.getD r none = some (data r)) :
    (self.ColorSpace = .RGB →
      ∃ th img, TiffReader.readIntoQImage cms self tif = some th ∧ th.result = .ok img ∧
        img.width = self.width ∧ img.height = self.height ∧
        ∀ y, y < self.height → ∀ x, x < self.width →
          img.pixels.getD (y * self.width + x) d =
            qRgba ((data y).getD (x * self.nSamples) 0) ((data y).getD (x * self.nSamples + 1) 0)
              ((data y).getD (x * self.nSamples + 2) 0)
              (if self.has_alpha then (data y).getD (x * self.nSamples + 3) 0 else 255)) ∧
    (self.ColorSpace = .CMYK → self.nSamples = 4 →
      TIFFScanlineSize tif % 2 ^ 32 = 4 * self.width →
      (∀ y, y < self.height → (data y).length = 4 * self.width ∧ ∀ b, b ∈ data y → b ≤ 255) →
      ∃ th img, TiffReader.readIntoQImage cms self tif = some th ∧ th.result = .ok img ∧
        img.width = self.width ∧ img.height = self.height ∧
        ∀ y, y < self.height →
          ∃ out, transform_to_rgb true (data y) (data y) (4 * self.width) 4 = some out ∧
            ∀ x, x < self.width →
              img.pixels.getD (y * self.width + x) d =
                qRgba (out.getD (x * 4) 0) (out.getD (x * 4 + 1) 0) (out.getD (x * 4 + 2) 0)
                  255) ∧
    (∀ r g b a, r ≤ 255 → g ≤ 255 → b ≤ 255 → a ≤ 255 →
      qRed (qRgba r g b a) = r ∧ qGreen (qRgba r g b a) = g ∧ qBlue (qRgba r g b a) = b ∧
      qAlpha (qRgba r g b a) = a) := by
  have hmod : ∀ x, x < self.width →
      x * self.nSamples % 2 ^ 32 = x * self.nSamples ∧
      (x * self.nSamples + 1) % 2 ^ 32 = x * self.nSamples + 1 ∧
      (x * self.nSamples + 2) % 2 ^ 32 = x * self.nSamples + 2 ∧
      (x * self.nSamples + 3) % 2 ^ 32 = x * self.nSamples + 3 := by
    intro x hx'
    have h1 : x * self.nSamples ≤ self.width * self.nSamples :=
      Nat.mul_le_mul_right _ (Nat.le_of_lt hx')
    generalize x * self.nSamples = p at h1 ⊢
    generalize self.width * self.nSamples = q at h1 hoff
    refine ⟨?_, ?_, ?_, ?_⟩ <;> exact Nat.mod_eq_of_lt (by omega)
  refine ⟨?_, ?_, qRgba_components⟩
  · intro hc
    obtain ⟨th, img, h1, h2, h3, h4, _, _, h5⟩ := thumb_pixels cms self tif data data d hkind hx
      hread (fun r _ => by rw [hc]; rfl)
    refine ⟨th, img, h1, h2, h3, h4, ?_⟩
    intro y hy x hx'
    obtain ⟨m0, m1, m2, m3⟩ := hmod x hx'
    rw [h5 y hy x hx', m0, m1, m2, m3]
  · intro hc hn hsz hrows
    have hW4 : 4 * self.width + 4 ≤ 2 ^ 32 := by
      rw [hn] at hoff
      omega
    obtain ⟨th, img, h1, h2, h3, h4, _, _, h5⟩ := thumb_pixels cms self tif data
      (fun r => (transform_to_rgb true (data r) (data r) (4 * self.width) 4).getD []) d hkind hx
      hread (fun r hr => by
        obtain ⟨out, hout, _, _⟩ := transform_to_rgb_spec (data r) self.width (hrows r hr).1
          hW4 (hrows r hr).2
        rw [if_pos hc, hsz, hn]
        show _ = some ((transform_to_rgb true (data r) (data r) (4 * self.width) 4).getD [])
        rw [hout]
        rfl)
    refine ⟨th, img, h1, h2, h3, h4, ?_⟩
    intro y hy
    obtain ⟨out, hout, _, hget⟩ := transform_to_rgb_spec (data y) self.width (hrows y hy).1
      hW4 (hrows y hy).2
    refine ⟨out, hout, ?_⟩
    intro x hx'
    obtain ⟨m0, m1, m2, m3⟩ := hmod x hx'
    rw [h5 y hy x hx', m0, m1, m2, m3, hn, hout, Option.getD_some]
    have ha : out.getD (x * 4 + 3) 0 = 255 := by
      rw [hget, if_pos (by omega)]
      unfold rgbOf
      rw [if_pos (by omega)]
    rw [ha]
    simp

set_option maxRecDepth 100000 in
/-- The fallback on the row (255, 10, 20, 30). -/
theorem fallback_cyan :
    transform_to_rgb true [255, 10, 20, 30] [255, 10, 20, 30] (4 * 1) 4 =
      some [0, 216, 207, 255] := by
  decide

/-- C25 at the 1x1 RGB container (10, 20, 30) with no alpha and at the 1x1
CMYK container (255, 10, 20, 30), both with no profile: the pixels are
(10, 20, 30, 255) and (0, 216, 207, 255). -/
theorem C25_thumbnail_no_transform_witness :
    (TiffReader.new tifRgb8 false self0).1 = .ok rdRgb8 ∧
    (∃ th img, TiffReader.readIntoQImage cmsAccepting rdRgb8 tifRgb8 = some th ∧
      th.result = .ok img ∧ img.pixels.getD 0 0 = qRgba 10 20 30 255) ∧
    (∃ th img, TiffReader.readIntoQImage cmsAccepting rdCyan (tifCyan none) = some th ∧
      th.result = .ok img ∧ img.pixels.getD 0 0 = qRgba 0 216 207 255) := by
  refine ⟨rfl, ?_, ?_⟩
  · obtain ⟨th, img, h1, h2, _, _, h3⟩ :=
      (C25_thumbnail_no_transform cmsAccepting rdRgb8 tifRgb8 (fun _ => [10, 20, 30]) 0 rfl rfl
        (by decide)
        (fun r hr => by
          have hr' : r < 1 := hr
          have : r = 0 := by omega
          subst this
          rfl)).1 rfl
    exact ⟨th, img, h1, h2, h3 0 (by decide) 0 (by decide)⟩
  · obtain ⟨th, img, h1, h2, _, _, h3⟩ :=
      (C25_thumbnail_no_transform cmsAccepting rdCyan (tifCyan none)
        (fun _ => [255, 10, 20, 30]) 0 rfl rfl (by decide)
        (fun r hr => by
          have hr' : r < 1 := hr
          have : r = 0 := by omega
          subst this
          rfl)).2.1 rfl rfl rfl
        (fun _ _ => ⟨rfl, fun b hb => by simp at hb; omega⟩)
    obtain ⟨out, hout, hpix⟩ := h3 0 (by decide)
    have e : out = [0, 216, 207, 255] := by
      have := fallback_cyan
      rw [show transform_to_rgb true [255, 10, 20, 30] [255, 10, 20, 30] (4 * 1) 4 =
        some out from hout] at this
      injection this
    refine ⟨th, img, h1, h2, ?_⟩
    have hp := hpix 0 (by decide)
    rw [e] at hp
    exact hp

/-! ## The fallback loops for a general stride -/

/-- The loop of transform_to_rgb runs its body at the indices that
`fallbackIndices` lists, in order. -/
theorem loop_eq_fold (a : Bool) (size n : Nat) (inp : List Nat) :
    ∀ (fuel i : Nat) (out : List Nat),
      transform_to_rgb.loop a size n fuel i inp out =
        (fallbackIndices size n fuel i).map (fun l =>
          l.foldl (fun o j => transform_to_rgb.pixel (if a then o else inp) o j) out) := by
  intro fuel
  induction fuel with
  | zero => intro i out; rfl
  | succ fuel ih =>
    intro i out
    unfold transform_to_rgb.loop fallbackIndices
    by_cases h : i < size
    · rw [if_pos h, if_pos h]
      simp only [ih]
      cases fallbackIndices size n fuel ((i + n) % 2 ^ 32) <;> rfl
    · rw [if_neg h, if_neg h]
      rfl

/-- The loop of transform_to_rgb_16 runs its body at the indices that
`fallbackIndices` lists, in order. -/
theorem loop16_eq_fold (a : Bool) (bound n : Nat) (inp : List Nat) :
    ∀ (fuel i : Nat) (out : List Nat),
      transform_to_rgb_16.loop a bound n fuel i inp out =
        (fallbackIndices bound n fuel i).map (fun l =>
          l.foldl (fun o j => transform_to_rgb_16.pixel (if a then o else inp) o j) out) := by
  intro fuel
  induction fuel with
  | zero => intro i out; rfl
  | succ fuel ih =>
    intro i out
    unfold transform_to_rgb_16.loop fallbackIndices
    by_cases h : i < bound
    · rw [if_pos h, if_pos h]
      simp only [ih]
      cases fallbackIndices bound n fuel ((i + n) % 2 ^ 32) <;> rfl
    · rw [if_neg h, if_neg h]
      rfl

/-- With a bound of m strides, no wraparound and enough fuel, the loop visits
the start of every pixel from pixel p on, once, in order, and ends. -/
theorem fallbackIndices_from (n m : Nat) (hn : 1 ≤ n) (hsz : m * n + n ≤ 2 ^ 32) :
    ∀ (fuel p : Nat), p ≤ m → m - p < fuel →
      fallbackIndices (m * n) n fuel (p * n) =
        some ((List.range (m - p)).map (fun q => (p + q) * n)) := by
  intro fuel
  induction fuel with
  | zero => intro p _ h; omega
  | succ fuel ih =>
    intro p hp hf
    unfold fallbackIndices
    by_cases hlt : p < m
    · have hb := row_bound p m n hlt
      rw [if_pos (by omega)]
      have hmod : (p * n + n) % 2 ^ 32 = (p + 1) * n := by
        rw [Nat.succ_mul]
        exact Nat.mod_eq_of_lt (by omega)
      rw [hmod, ih (p + 1) (by omega) (by omega)]
      have e : m - p = (m - (p + 1)) + 1 := by omega
      rw [e, List.range_succ_eq_map]
      simp only [Option.map_some', List.map_cons, List.map_map, Nat.add_zero]
      congr 2
      apply List.map_congr_left
      intro q _
      show (p + 1 + q) * n = (p + (q + 1)) * n
      congr 1
      omega
    · have e : p = m := by omega
      subst e
      rw [if_neg (by omega)]
      simp

/-- The indices a fallback loop with a bound of m strides visits. -/
theorem fallbackIndices_all (n m : Nat) (hn : 1 ≤ n) (hsz : m * n + n ≤ 2 ^ 32) :
    fallbackIndices (m * n) n (2 ^ 32 + 1) 0 = some ((List.range m).map (fun q => q * n)) := by
  have hm : m ≤ 2 ^ 32 := by
    have : m * 1 ≤ m * n := Nat.mul_le_mul_left _ hn
    omega
  have h := fallbackIndices_from n m hn hsz (2 ^ 32 + 1) 0 (Nat.zero_le _) (by omega)
  simpa using h

/-- A body that rewrites the first four samples of the pixel at `i` from the
samples read in `src`, applied at the start of pixels 0 to m-1 of stride n at
least 4: sample j of pixel p holds the value computed from the original
samples j and 3 of that pixel for j below 3, the constant for j equal to 3, and
is left alone otherwise. -/
theorem fold_pixels (px : List Nat → List Nat → Nat → List Nat) (g : Nat → Nat → Nat) (A : Nat)
    (hlen : ∀ src out i, (px src out i).length = out.length)
    (hget : ∀ src out i k, i + 3 < out.length →
      (px src out i).getD k 0 =
        if i ≤ k ∧ k < i + 4 then
          (if k = i + 3 then A else g (src.getD k 0) (src.getD (i + 3) 0))
        else out.getD k 0)
    (a : Bool) (inp out : List Nat) (n : Nat) (hn : 4 ≤ n) :
    ∀ m, m * n ≤ out.length →
      (((List.range m).map (fun q => q * n)).foldl
        (fun o i => px (if a then o else inp) o i) out).length = out.length ∧
      (∀ p j, p < m → j < n →
        (((List.range m).map (fun q => q * n)).foldl
          (fun o i => px (if a then o else inp) o i) out).getD (p * n + j) 0 =
          if j < 4 then
            (if j = 3 then A
             else g ((if a then out else inp).getD (p * n + j) 0)
               ((if a then out else inp).getD (p * n + 3) 0))
          else out.getD (p * n + j) 0) ∧
      (∀ k, m * n ≤ k →
        (((List.range m).map (fun q => q * n)).foldl
          (fun o i => px (if a then o else inp) o i) out).getD k 0 = out.getD k 0) := by
  intro m
  induction m with
  | zero =>
    intro _
    refine ⟨rfl, ?_, fun _ _ => rfl⟩
    intro p j hp
    omega
  | succ m ih =>
    intro hm
    rw [Nat.succ_mul] at hm
    obtain ⟨ihl, ihin, ihout⟩ := ih (by omega)
    rw [List.range_succ, List.map_append, List.foldl_append, List.map_cons, List.map_nil,
      List.foldl_cons, List.foldl_nil]
    generalize ((List.range m).map (fun q => q * n)).foldl
      (fun o i => px (if a then o else inp) o i) out = R at ihl ihin ihout ⊢
    have hwin : m * n + 3 < R.length := by rw [ihl]; omega
    have hsrc : ∀ k, m * n ≤ k →
        (if a then R else inp).getD k 0 = (if a then out else inp).getD k 0 := by
      intro k hk
      cases a
      · rfl
      · exact ihout k hk
    refine ⟨by rw [hlen, ihl], ?_, ?_⟩
    · intro p j hp hj
      rw [hget _ _ _ _ hwin]
      by_cases hpm : p = m
      · subst hpm
        by_cases hj4 : j < 4
        · rw [if_pos ⟨by omega, by omega⟩, if_pos hj4]
          by_cases hj3 : j = 3
          · rw [if_pos (by omega), if_pos hj3]
          · rw [if_neg (by omega), if_neg hj3, hsrc _ (by omega), hsrc _ (by omega)]
        · rw [if_neg (by omega), if_neg hj4, ihout _ (by omega)]
      · have hlt : p < m := by omega
        have hb := row_bound p m n hlt
        rw [if_neg (by omega)]
        exact ihin p j hlt hj
    · intro k hk
      rw [Nat.succ_mul] at hk
      rw [hget _ _ _ _ hwin, if_neg (by omega)]
      exact ihout k (by omega)

/-- Run in place or from a separate copy of the input, such a body leaves the
same buffer. -/
theorem fold_pixels_alias (px : List Nat → List Nat → Nat → List Nat) (g : Nat → Nat → Nat)
    (A : Nat) (hlen : ∀ src out i, (px src out i).length = out.length)
    (hget : ∀ src out i k, i + 3 < out.length →
      (px src out i).getD k 0 =
        if i ≤ k ∧ k < i + 4 then
          (if k = i + 3 then A else g (src.getD k 0) (src.getD (i + 3) 0))
        else out.getD k 0)
    (buf : List Nat) (n m : Nat) (hn : 4 ≤ n) (hm : m * n ≤ buf.length) :
    ((List.range m).map (fun q => q * n)).foldl (fun o i => px (if true then o else buf) o i) buf =
      ((List.range m).map (fun q => q * n)).foldl
        (fun o i => px (if false then o else buf) o i) buf := by
  obtain ⟨l1, in1, out1⟩ := fold_pixels px g A hlen hget true buf buf n hn m hm
  obtain ⟨l2, in2, out2⟩ := fold_pixels px g A hlen hget false buf buf n hn m hm
  apply list_ext_getD _ _ 0 (by rw [l1, l2])
  intro k _
  by_cases hk : k < m * n
  · have hnpos : 0 < n := by omega
    have hdm := Nat.div_add_mod k n
    have hj : k % n < n := Nat.mod_lt _ hnpos
    have hp : k / n < m := by
      rw [Nat.div_lt_iff_lt_mul hnpos]
      exact hk
    have e : k = k / n * n + k % n := by
      rw [Nat.mul_comm]
      exact hdm.symm
    rw [e, in1 _ _ hp hj, in2 _ _ hp hj]
    rfl
  · rw [out1 k (by omega), out2 k (by omega)]

theorem pixel8_length (src out : List Nat) (i : Nat) :
    (transform_to_rgb.pixel src out i).length = out.length := by
  unfold transform_to_rgb.pixel
  simp

theorem pixel16_length (src out : List Nat) (i : Nat) :
    (transform_to_rgb_16.pixel src out i).length = out.length := by
  unfold transform_to_rgb_16.pixel
  simp

/-- The body of the loop of transform_to_rgb at a pixel that lies inside the
output buffer. -/
theorem pixel8_get (src out : List Nat) (i k : Nat) (hi : i + 3 < out.length) :
    (transform_to_rgb.pixel src out i).getD k 0 =
      if i ≤ k ∧ k < i + 4 then
        (if k = i + 3 then 255
         else ((Int.tdiv ((255 - ((src.getD k 0 : Nat) : Int)) *
           (255 - ((src.getD (i + 3) 0 : Nat) : Int))) 255) % 256).toNat)
      else out.getD k 0 := by
  unfold transform_to_rgb.pixel
  simp only [getD_set', List.length_set, Nat.add_zero]
  by_cases h3 : i + 3 = k
  · rw [if_pos ⟨h3, hi⟩, if_pos (by omega), if_pos h3.symm]
  · rw [if_neg (fun h => h3 h.1)]
    by_cases h2 : i + 2 = k
    · rw [if_pos ⟨h2, by omega⟩, if_pos (by omega), if_neg (by omega), h2]
    · rw [if_neg (fun h => h2 h.1)]
      by_cases h1 : i + 1 = k
      · rw [if_pos ⟨h1, by omega⟩, if_pos (by omega), if_neg (by omega), h1]
      · rw [if_neg (fun h => h1 h.1)]
        by_cases h0 : i = k
        · rw [if_pos ⟨h0, by omega⟩, if_pos (by omega), if_neg (by omega), h0]
        · rw [if_neg (fun h => h0 h.1), if_neg (by omega)]

/-- The body of the loop of transform_to_rgb_16 at a pixel that lies inside
the output buffer. -/
theorem pixel16_get (src out : List Nat) (i k : Nat) (hi : i + 3 < out.length) :
    (transform_to_rgb_16.pixel src out i).getD k 0 =
      if i ≤ k ∧ k < i + 4 then
        (if k = i + 3 then 65535
         else ((Int.tdiv (wrapInt32 ((65535 - ((src.getD k 0 : Nat) : Int)) *
           (65535 - ((src.getD (i + 3) 0 : Nat) : Int)))) 65535) % 65536).toNat)
      else out.getD k 0 := by
  unfold transform_to_rgb_16.pixel
  simp only [getD_set', List.length_set, Nat.add_zero]
  by_cases h3 : i + 3 = k
  · rw [if_pos ⟨h3, hi⟩, if_pos (by omega), if_pos h3.symm]
  · rw [if_neg (fun h => h3 h.1)]
    by_cases h2 : i + 2 = k
    · rw [if_pos ⟨h2, by omega⟩, if_pos (by omega), if_neg (by omega), h2]
    · rw [if_neg (fun h => h2 h.1)]
      by_cases h1 : i + 1 = k
      · rw [if_pos ⟨h1, by omega⟩, if_pos (by omega), if_neg (by omega), h1]
      · rw [if_neg (fun h => h1 h.1)]
        by_cases h0 : i = k
        · rw [if_pos ⟨h0, by omega⟩, if_pos (by omega), if_neg (by omega), h0]
        · rw [if_neg (fun h => h0 h.1), if_neg (by omega)]

/-- The start of every pixel of a buffer of m pixels of stride n at least 4
leaves room for the four samples the body touches. -/
theorem indices_inside (n m : Nat) (hn : 4 ≤ n) :
    ∀ i, i ∈ (List.range m).map (fun q => q * n) → i + 3 < m * n := by
  intro i hi
  obtain ⟨q, hq, rfl⟩ := List.mem_map.mp hi
  have := row_bound q m n (List.mem_range.mp hq)
  omega

/-- C29: for a stride n of at least 4 and a scanline of m pixels whose byte
size (m*n for transform_to_rgb, 2*m*n for transform_to_rgb_16) is
below 2^32 - n, the loop runs its body at the indices 0, n, ..., (m-1)*n, once
each and in this order, and ends; each of these indices i has i+3 inside the
buffer, and the body reads and writes the elements i to i+3 only.  Run in place
the function leaves the same buffer as when it reads from a separate copy of
the input: in pixel p the first three samples are computed from the original
samples of that pixel (sample j from the original samples j and 3), the fourth
is the maximum, and the samples from the fifth on are left alone. -/
theorem C29_fallback_loops (n m : Nat) (buf : List Nat) (hn : 4 ≤ n)
    (hlen : buf.length = m * n) :
    (m * n < 2 ^ 32 - n →
      fallbackIndices (m * n) n (2 ^ 32 + 1) 0 = some ((List.range m).map (fun q => q * n)) ∧
      ((List.range m).map (fun q => q * n)).length = m ∧
      (∀ i, i ∈ (List.range m).map (fun q => q * n) → i + 3 < buf.length) ∧
      ∃ res, transform_to_rgb true buf buf (m * n) n = some res ∧
        transform_to_rgb false buf buf (m * n) n = some res ∧
        res = ((List.range m).map (fun q => q * n)).foldl
          (fun o i => transform_to_rgb.pixel o o i) buf ∧
        res.length = buf.length ∧
        ∀ p, p < m →
          (∀ j, j < 3 → res.getD (p * n + j) 0 =
            ((Int.tdiv ((255 - ((buf.getD (p * n + j) 0 : Nat) : Int)) *
              (255 - ((buf.getD (p * n + 3) 0 : Nat) : Int))) 255) % 256).toNat) ∧
          res.getD (p * n + 3) 0 = 255 ∧
          (∀ j, 4 ≤ j → j < n → res.getD (p * n + j) 0 = buf.getD (p * n + j) 0)) ∧
    (2 * (m * n) < 2 ^ 32 - n →
      fallbackIndices (2 * (m * n) / 2) n (2 ^ 32 + 1) 0 =
        some ((List.range m).map (fun q => q * n)) ∧
      ((List.range m).map (fun q => q * n)).length = m ∧
      (∀ i, i ∈ (List.range m).map (fun q => q * n) → i + 3 < buf.length) ∧
      ∃ res, transform_to_rgb_16 true buf buf (2 * (m * n)) n = some res ∧
        transform_to_rgb_16 false buf buf (2 * (m * n)) n = some res ∧
        res = ((List.range m).map (fun q => q * n)).foldl
          (fun o i => transform_to_rgb_16.pixel o o i) buf ∧
        res.length = buf.length ∧
        ∀ p, p < m →
          (∀ j, j < 3 → res.getD (p * n + j) 0 =
            ((Int.tdiv (wrapInt32 ((65535 - ((buf.getD (p * n + j) 0 : Nat) : Int)) *
              (65535 - ((buf.getD (p * n + 3) 0 : Nat) : Int)))) 65535) % 65536).toNat) ∧
          res.getD (p * n + 3) 0 = 65535 ∧
          (∀ j, 4 ≤ j → j < n → res.getD (p * n + j) 0 = buf.getD (p * n + j) 0)) := by
  have hinside : ∀ i, i ∈ (List.range m).map (fun q => q * n) → i + 3 < buf.length := by
    rw [hlen]
    exact indices_inside n m hn
  constructor
  · intro hsz
    have hidx := fallbackIndices_all n m (by omega) (by omega)
    obtain ⟨l1, in1, _⟩ := fold_pixels transform_to_rgb.pixel
      (fun c k => ((Int.tdiv ((255 - ((c : Nat) : Int)) * (255 - ((k : Nat) : Int))) 255)
        % 256).toNat) 255 pixel8_length pixel8_get true buf buf n hn m (by omega)
    have halias := fold_pixels_alias transform_to_rgb.pixel
      (fun c k => ((Int.tdiv ((255 - ((c : Nat) : Int)) * (255 - ((k : Nat) : Int))) 255)
        % 256).toNat) 255 pixel8_length pixel8_get buf n m hn (by omega)
    refine ⟨hidx, by simp, hinside, _, ?_, ?_, rfl, l1, ?_⟩
    · unfold transform_to_rgb
      rw [loop_eq_fold, hidx]
      rfl
    · unfold transform_to_rgb
      rw [loop_eq_fold, hidx]
      exact congrArg some halias.symm
    · intro p hp
      refine ⟨?_, ?_, ?_⟩
      · intro j hj
        have := in1 p j hp (by omega)
        rw [if_pos (by omega), if_neg (by omega)] at this
        exact this
      · have := in1 p 3 hp (by omega)
        rw [if_pos (by omega), if_pos rfl] at this
        exact this
      · intro j hj4 hjn
        have := in1 p j hp hjn
        rw [if_neg (by omega)] at this
        exact this
  · intro hsz
    have hhalf : 2 * (m * n) / 2 = m * n := by omega
    have hidx := fallbackIndices_all n m (by omega) (by omega)
    obtain ⟨l1, in1, _⟩ := fold_pixels transform_to_rgb_16.pixel
      (fun c k => ((Int.tdiv (wrapInt32 ((65535 - ((c : Nat) : Int)) *
        (65535 - ((k : Nat) : Int)))) 65535) % 65536).toNat) 65535 pixel16_length pixel16_get
      true buf buf n hn m (by omega)
    have halias := fold_pixels_alias transform_to_rgb_16.pixel
      (fun c k => ((Int.tdiv (wrapInt32 ((65535 - ((c : Nat) : Int)) *
        (65535 - ((k : Nat) : Int)))) 65535) % 65536).toNat) 65535 pixel16_length pixel16_get
      buf n m hn (by omega)
    rw [hhalf]
    refine ⟨hidx, by simp, hinside, _, ?_, ?_, rfl, l1, ?_⟩
    · unfold transform_to_rgb_16
      rw [hhalf, loop16_eq_fold, hidx]
      rfl
    · unfold transform_to_rgb_16
      rw [hhalf, loop16_eq_fold, hidx]
      exact congrArg some halias.symm
    · intro p hp
      refine ⟨?_, ?_, ?_⟩
      · intro j hj
        have := in1 p j hp (by omega)
        rw [if_pos (by omega), if_neg (by omega)] at this
        exact this
      · have := in1 p 3 hp (by omega)
        rw [if_pos (by omega), if_pos rfl] at this
        exact this
      · intro j hj4 hjn
        have := in1 p j hp hjn
        rw [if_neg (by omega)] at this
        exact this

/-- C29 at a scanline of two pixels of five bytes: two iterations, at 0 and
5, and the fifth byte of each pixel is left alone. -/
theorem C29_fallback_loops_witness :
    fallbackIndices (2 * 5) 5 (2 ^ 32 + 1) 0 = some [0, 5] ∧
    ∃ res, transform_to_rgb true [255, 10, 20, 30, 7, 0, 0, 0, 0, 9]
        [255, 10, 20, 30, 7, 0, 0, 0, 0, 9] (2 * 5) 5 = some res ∧
      transform_to_rgb false [255, 10, 20, 30, 7, 0, 0, 0, 0, 9]
        [255, 10, 20, 30, 7, 0, 0, 0, 0, 9] (2 * 5) 5 = some res ∧
      res = [0, 216, 207, 255, 7, 255, 255, 255, 255, 9] := by
  obtain ⟨h1, _, _, res, h2, h3, h4, _⟩ :=
    (C29_fallback_loops 5 2 [255, 10, 20, 30, 7, 0, 0, 0, 0, 9] (by decide) rfl).1
      (by decide)
  refine ⟨h1, res, h2, h3, ?_⟩
  rw [h4]
  decide

end pfstiff
